import Mathlib

/-!
Openbox session persistence: a shallow embedding of `openbox/session.c` and of
the button descriptors of `openbox/translate.c`.

The development embeds the session-restoration core of the Openbox window
manager (`session_state_cmp`, `session_state_find`, `session_save_to_file`,
`session_load_file`), the handlers that talk to the session manager, and
`translate_modifier` and `translate_button`, and proves properties of the
embedded definitions.

Conventions of the embedding.

* A C string (`gchar *`) is a Lean `String`; a nullable C string is an
  `Option String` (`none` is `NULL`).
* `gint` values are `Int`; `guint` values are `Nat` taken modulo `2 ^ 32`
  where a conversion happens in the source.
* A `GList` of saved states is a Lean list in list order.  Where the source
  deletes links while it walks the list (the duplicate-removal pass), links
  carry an explicit address and reading a freed link is a fault.
* The XML document is the element tree the XML parser hands to
  `session_load_file`; the writer is embedded as producing the tree that its
  `fprintf` output denotes.  Reading a saved file back is therefore loading
  that tree.  The printed text denotes that tree only when the strings in it
  are plain (`prints_plain` for the session id, the command and the desktop
  names, which are printed unescaped; `escaped_plain` for name, class and
  role); the text printed for the windows is embedded as well (`print_window`,
  `print_windows`).
-/

namespace Openbox

/-! ## Data model -/

/-- Rectangle of `gint`s (`Rect` of the geometry module). -/
structure Rect where
  x : Int
  y : Int
  width : Int
  height : Int
deriving DecidableEq, Repr

/-- Saved per-window state (`ObSessionState`, declared in `session.h`). -/
structure ObSessionState where
  id : Option String
  command : Option String
  name : String
  class_ : String
  role : String
  type : Int
  desktop : Nat
  x : Int
  y : Int
  w : Int
  h : Int
  shaded : Bool
  iconic : Bool
  skip_pager : Bool
  skip_taskbar : Bool
  fullscreen : Bool
  above : Bool
  below : Bool
  max_horz : Bool
  max_vert : Bool
  undecorated : Bool
  focused : Bool
  matched : Bool
deriving DecidableEq, Repr

/-- The fields of an `ObClient` that `session.c` reads.  `addr` stands for the
address of the client structure (used for the pointer comparison
`savedata->focus_client == c`). -/
structure ObClient where
  addr : Nat
  sm_client_id : Option String
  wm_command : Option String
  name : String
  class_ : String
  role : String
  title : String
  type : Int
  desktop : Nat
  area : Rect
  pre_fullscreen_area : Rect
  pre_max_area : Rect
  shaded : Bool
  iconic : Bool
  skip_pager : Bool
  skip_taskbar : Bool
  fullscreen : Bool
  above : Bool
  below : Bool
  max_horz : Bool
  max_vert : Bool
  undecorated : Bool
deriving DecidableEq, Repr

/-! ## String comparison -/

/-- The comparison loop of `strcmp` on the characters of two strings: zero
when both end together, otherwise the sign of the first difference. -/
def strcmp_chars : List Char → List Char → Int
  | [], [] => 0
  | [], _ :: _ => -1
  | _ :: _, [] => 1
  | a :: as, b :: bs =>
    if a = b then strcmp_chars as bs else if a.toNat < b.toNat then -1 else 1

/-- C `strcmp`: zero exactly on equal strings, otherwise the sign of the
lexicographic order. -/
def strcmp (a b : String) : Int := strcmp_chars a.data b.data

/-! ## Matching: `session_state_cmp` and `session_state_find` -/

/-- Embedding of `session_state_cmp` (session.c, lines 621-653). -/
def session_state_cmp (s : ObSessionState) (c : ObClient) : Bool :=
  if (match c.sm_client_id, s.id with
      | some cid, some sid => decide (strcmp cid sid = 0)
      | _, _ => false) ||
     (match c.wm_command, s.command with
      | some ccmd, some scmd => decide (strcmp ccmd scmd = 0)
      | _, _ => false)
  then
    decide (strcmp s.name c.name = 0) &&
    decide (strcmp s.class_ c.class_ = 0) &&
    decide (strcmp s.role c.role = 0) &&
    (s.command.isNone || decide (c.type = s.type))
  else false

/-- Embedding of `session_state_find` (session.c, lines 655-667) on the list
`session_saved_state`.  The result is the position of the returned link
(`none` for `NULL`) together with the list after the call. -/
def session_state_find (c : ObClient) :
    List ObSessionState → Option Nat × List ObSessionState
  | [] => (none, [])
  | s :: rest =>
    if !s.matched && session_state_cmp s c then
      (some 0, { s with matched := true } :: rest)
    else
      ((session_state_find c rest).1.map (· + 1), s :: (session_state_find c rest).2)

/-- A run of lookups, one per client in order, threading the Store. -/
def session_state_find_all :
    List ObClient → List ObSessionState → List (Option Nat) × List ObSessionState
  | [], st => ([], st)
  | c :: cs, st =>
    ((session_state_find c st).1 :: (session_state_find_all cs (session_state_find c st).2).1,
     (session_state_find_all cs (session_state_find c st).2).2)

/-! ## Integers as text: `printf("%d")` and `atoi` -/

/-- The decimal digit character of `d` (for `d < 10`). -/
def digit_char (d : Nat) : Char := Char.ofNat (48 + d)

/-- Decimal digits of `n`, most significant first, in front of `acc`.  The
first argument bounds the number of digits produced. -/
def dec_digits : Nat → Nat → List Char → List Char
  | 0, _, acc => acc
  | fuel + 1, n, acc =>
    if n < 10 then digit_char n :: acc
    else dec_digits fuel (n / 10) (digit_char (n % 10) :: acc)

/-- Text that `printf("%d", i)` produces for a `gint` `i`. -/
def printf_d (i : Int) : String :=
  if i < 0 then String.mk ('-' :: dec_digits (i.natAbs + 1) i.natAbs [])
  else String.mk (dec_digits (i.natAbs + 1) i.natAbs [])

/-- The digit-reading loop of `atoi`: consume decimal digits, stop at the
first other character. -/
def atoi_digits : Nat → List Char → Nat
  | acc, [] => acc
  | acc, ch :: rest =>
    if ch.isDigit then atoi_digits (acc * 10 + (ch.toNat - 48)) rest else acc

/-- C library `isspace` in the C locale: space and the controls 9 to 13. -/
def isspace (ch : Char) : Bool :=
  ch.toNat = 32 || (9 ≤ ch.toNat && ch.toNat ≤ 13)

/-- C library `atoi` without overflow: skip white space, read an optional
sign, read decimal digits. -/
def atoi (s : String) : Int :=
  match s.data.dropWhile isspace with
  | '-' :: ds => - (atoi_digits 0 ds : Int)
  | '+' :: ds => (atoi_digits 0 ds : Int)
  | ds => (atoi_digits 0 ds : Int)

/-- Value of a `guint` when it is passed to `%d`, i.e. read as a `gint`. -/
def guint_as_gint (u : Nat) : Int :=
  if u % 2 ^ 32 < 2 ^ 31 then ((u % 2 ^ 32 : Nat) : Int)
  else ((u % 2 ^ 32 : Nat) : Int) - 2 ^ 32

/-- Value of a `gint` when it is assigned to a `guint`. -/
def gint_as_guint (i : Int) : Nat := (i % 2 ^ 32).toNat

/-! ## The XML tree and the parser helpers -/

/-- An XML element as the XML parser presents it: element name, attributes,
character data (entities decoded), child elements in document order. -/
inductive XmlNode where
  | mk (name : String) (attrs : List (String × String)) (content : String)
       (children : List XmlNode)

/-- Element name (`node->name`). -/
def XmlNode.name : XmlNode → String
  | .mk n _ _ _ => n

/-- Attribute list (`node->properties`). -/
def XmlNode.attrs : XmlNode → List (String × String)
  | .mk _ a _ _ => a

/-- Character data of the element. -/
def XmlNode.content : XmlNode → String
  | .mk _ _ t _ => t

/-- Child elements (`node->children`); a pointer into a sibling list is the
list from that node on, `NULL` is the empty list. -/
def XmlNode.children : XmlNode → List XmlNode
  | .mk _ _ _ c => c

/-- Modelled from the spec: `parse_find_node` of `parser/parse.c` (the parser
helpers are not among the sources).  Starting at a node of a sibling list it
returns the first node, that one included, whose element name is exactly the
tag, or `NULL`. -/
def parse_find_node (tag : String) : List XmlNode → List XmlNode
  | [] => []
  | n :: next => if strcmp n.name tag = 0 then n :: next else parse_find_node tag next

/-- Modelled from the spec: `parse_string` of `parser/parse.c`: the character
data of the node. -/
def parse_string (n : XmlNode) : String := n.content

/-- Modelled from the spec: `parse_int` of `parser/parse.c`: the character data
of the node read as a decimal `gint`. -/
def parse_int (n : XmlNode) : Int := atoi n.content

/-- Modelled from the spec: `parse_attr_string` of `parser/parse.c`: the value
of the named attribute when the node carries it. -/
def parse_attr_string (name : String) (n : XmlNode) : Option String :=
  (n.attrs.find? (fun a => decide (strcmp a.1 name = 0))).map Prod.snd

/-- Modelled from the spec: `parse_load` of `parser/parse.c`: the root element
of the file when the file can be parsed and its root element has the expected
name.  The file is given as its parsed root, `none` when it cannot be read. -/
def parse_load (file : Option XmlNode) (rootname : String) : Option XmlNode :=
  match file with
  | none => none
  | some root => if strcmp root.name rootname = 0 then some root else none

/-- The nodes that the loop
`for (m = parse_find_node(tag, first); m; m = parse_find_node(tag, m->next))`
visits, in order. -/
def find_each_node (tag : String) : List XmlNode → List XmlNode
  | [] => []
  | n :: next =>
    if strcmp n.name tag = 0 then n :: find_each_node tag next
    else find_each_node tag next

/-! ## Session-wide state -/

/-- Desktop layout (`ObDesktopLayout`). -/
structure ObDesktopLayout where
  orientation : Int
  start_corner : Int
  columns : Nat
  rows : Nat
deriving DecidableEq, Repr

/-- The globals of `session.c` that `session_load_file` fills in. -/
structure SessionGlobals where
  session_saved_state : List ObSessionState
  session_desktop : Int
  session_num_desktops : Int
  session_desktop_layout_present : Bool
  session_desktop_layout : ObDesktopLayout
  session_desktop_names : List String
deriving DecidableEq, Repr

/-- The globals as initialised at program start (session.c, lines 25-30). -/
def session_initial : SessionGlobals :=
  { session_saved_state := []
    session_desktop := -1
    session_num_desktops := 0
    session_desktop_layout_present := false
    session_desktop_layout := { orientation := 0, start_corner := 0, columns := 0, rows := 0 }
    session_desktop_names := [] }

/-! ## Loading: one `<window>` entry -/

/-- Body of the window loop of `session_load_file` (session.c, lines 709-773):
the record built from one `<window>` node, or `none` when the code jumps to
`session_load_bail` and frees the partial record. -/
def load_window (node : XmlNode) : Option ObSessionState :=
  match (match parse_attr_string "id" node with
         | some i => some (some i, none)
         | none =>
           match parse_attr_string "command" node with
           | some k => some (none, some k)
           | none => none) with
  | none => none
  | some (id, command) =>
    match parse_find_node "name" node.children with
    | [] => none
    | n_name :: _ =>
    match parse_find_node "class" node.children with
    | [] => none
    | n_class :: _ =>
    match parse_find_node "role" node.children with
    | [] => none
    | n_role :: _ =>
    match parse_find_node "windowtype" node.children with
    | [] => none
    | n_type :: _ =>
    match parse_find_node "desktop" node.children with
    | [] => none
    | n_desktop :: _ =>
    match parse_find_node "x" node.children with
    | [] => none
    | n_x :: _ =>
    match parse_find_node "y" node.children with
    | [] => none
    | n_y :: _ =>
    match parse_find_node "width" node.children with
    | [] => none
    | n_w :: _ =>
    match parse_find_node "height" node.children with
    | [] => none
    | n_h :: _ =>
      some
        { id := id
          command := command
          name := parse_string n_name
          class_ := parse_string n_class
          role := parse_string n_role
          type := parse_int n_type
          desktop := gint_as_guint (parse_int n_desktop)
          x := parse_int n_x
          y := parse_int n_y
          w := parse_int n_w
          h := parse_int n_h
          shaded := !(parse_find_node "shaded" node.children).isEmpty
          iconic := !(parse_find_node "iconic" node.children).isEmpty
          skip_pager := !(parse_find_node "skip_pager" node.children).isEmpty
          skip_taskbar := !(parse_find_node "skip_taskbar" node.children).isEmpty
          fullscreen := !(parse_find_node "fullscreen" node.children).isEmpty
          above := !(parse_find_node "above" node.children).isEmpty
          below := !(parse_find_node "below" node.children).isEmpty
          max_horz := !(parse_find_node "max_horz" node.children).isEmpty
          max_vert := !(parse_find_node "max_vert" node.children).isEmpty
          undecorated := !(parse_find_node "undecorated" node.children).isEmpty
          focused := !(parse_find_node "focused" node.children).isEmpty
          matched := false }

/-- The window loop of `session_load_file` (session.c, lines 706-774): every
`<window>` child of the root, in document order, appends its record to the
list unless it bails. -/
def load_windows (nodes : List XmlNode) (saved : List ObSessionState) :
    List ObSessionState :=
  (find_each_node "window" nodes).foldl
    (fun acc node =>
      match load_window node with
      | some state => acc ++ [state]
      | none => acc)
    saved

/-! ## Loading: removal of duplicates

The duplicate-removal pass of `session_load_file` deletes links of
`session_saved_state` while two nested loops walk it.  To follow the pointers
of the source, every link of the list gets an address; the list is the
sequence of its live links, and a pointer is an address (`none` is `NULL`).
Reading through a pointer to a link that is no longer in the list is a read of
freed memory. -/

/-- How a run of the duplicate-removal pass can fail to produce a list. -/
inductive Fault where
  | use_after_free
  | out_of_fuel
deriving DecidableEq, Repr

/-- A live link of the `GList`: its address and its `data`. -/
abbrev Link := Nat × ObSessionState

/-- Read of `it->data`; `none` when `it` is not a live link. -/
def link_data : List Link → Nat → Option ObSessionState
  | [], _ => none
  | (a, s) :: rest, it => if a = it then some s else link_data rest it

/-- Read of `g_list_next(it)`; the outer `none` when `it` is not a live
link, `some none` for a `NULL` next pointer. -/
def g_list_next : List Link → Nat → Option (Option Nat)
  | [], _ => none
  | (a, _) :: rest, it =>
    if a = it then some (rest.head?.map Prod.fst) else g_list_next rest it

/-- The list after `g_list_delete_link(list, it)`: the link is unlinked and
freed. -/
def g_list_delete_link (l : List Link) (it : Nat) : List Link :=
  l.filter (fun p => p.1 != it)

/-- The duplicate test of the inner loop (session.c, lines 795-805). -/
def dedup_match (s1 s2 : ObSessionState) : Bool :=
  (match s1.id, s2.id with
   | some a, some b => decide (strcmp a b = 0)
   | _, _ =>
     match s1.command, s2.command with
     | some a, some b => decide (strcmp a b = 0)
     | _, _ => false) &&
  decide (strcmp s1.name s2.name = 0) &&
  decide (strcmp s1.class_ s2.class_ = 0) &&
  decide (strcmp s1.role s2.role = 0)

/-- Inner loop of the duplicate removal (session.c, lines 789-812), started at
the pointer `jt` with the current value of `founddup`.  The first argument
bounds the number of iterations. -/
def dedup_inner (s1 : ObSessionState) :
    Nat → List Link → Option Nat → Bool → Except Fault (List Link × Bool)
  | 0, _, _, _ => .error .out_of_fuel
  | _ + 1, l, none, founddup => .ok (l, founddup)
  | fuel + 1, l, some jt, founddup =>
    match link_data l jt, g_list_next l jt with
    | some s2, some jnext =>
      if dedup_match s1 s2 then
        dedup_inner s1 fuel (g_list_delete_link l jt) jnext true
      else
        dedup_inner s1 fuel l jnext founddup
    | _, _ => .error .use_after_free

/-- Outer loop of the duplicate removal (session.c, lines 782-818), started at
the pointer `it`.  The first argument bounds the number of iterations. -/
def dedup_outer : Nat → List Link → Option Nat → Except Fault (List Link)
  | 0, _, _ => .error .out_of_fuel
  | _ + 1, l, none => .ok l
  | fuel + 1, l, some it =>
    match link_data l it, g_list_next l it with
    | some s1, some inext =>
      match dedup_inner s1 (l.length + 1) l inext false with
      | .error e => .error e
      | .ok (l1, founddup) =>
        dedup_outer fuel (if founddup then g_list_delete_link l1 it else l1) inext
    | _, _ => .error .use_after_free

/-- The links of a freshly built list: the record at position `i` sits in the
link with address `base + i`. -/
def number_links : Nat → List ObSessionState → List Link
  | _, [] => []
  | base, s :: rest => (base, s) :: number_links (base + 1) rest

/-- The duplicate-removal pass on the loaded list (session.c, lines 776-818):
the surviving records in list order, or the fault the pass runs into. -/
def remove_duplicates (saved : List ObSessionState) :
    Except Fault (List ObSessionState) :=
  match dedup_outer (saved.length + 1) (number_links 0 saved)
      ((number_links 0 saved).head?.map Prod.fst) with
  | .error e => .error e
  | .ok l => .ok (l.map Prod.snd)

/-! ## Loading: `session_load_file` -/

/-- The desktop-layout part of `session_load_file` (session.c, lines 684-695)
for a `<desktoplayout>` node: the layout fields as far as they are assigned and
whether all four were found. -/
def load_desktop_layout (n : XmlNode) (layout : ObDesktopLayout) :
    ObDesktopLayout × Bool :=
  match parse_find_node "orientation" n.children with
  | [] => (layout, false)
  | m1 :: _ =>
    let layout1 := { layout with orientation := parse_int m1 }
    match parse_find_node "startcorner" n.children with
    | [] => (layout1, false)
    | m2 :: _ =>
      let layout2 := { layout1 with start_corner := parse_int m2 }
      match parse_find_node "columns" n.children with
      | [] => (layout2, false)
      | m3 :: _ =>
        let layout3 := { layout2 with columns := gint_as_guint (parse_int m3) }
        match parse_find_node "rows" n.children with
        | [] => (layout3, false)
        | m4 :: _ => ({ layout3 with rows := gint_as_guint (parse_int m4) }, true)

/-- The desktop part of `session_load_file` (session.c, lines 678-704): the
globals after the `desktop`, `numdesktops`, `desktoplayout` and `desktopnames`
children of the root have been read. -/
def load_desktop_state (node : XmlNode) (g : SessionGlobals) : SessionGlobals :=
  let g1 :=
    match parse_find_node "desktop" node.children with
    | [] => g
    | n :: _ => { g with session_desktop := parse_int n }
  let g2 :=
    match parse_find_node "numdesktops" node.children with
    | [] => g1
    | n :: _ => { g1 with session_num_desktops := parse_int n }
  let g3 :=
    match parse_find_node "desktoplayout" node.children with
    | [] => g2
    | n :: _ =>
      { g2 with
        session_desktop_layout := (load_desktop_layout n g2.session_desktop_layout).1
        session_desktop_layout_present := (load_desktop_layout n g2.session_desktop_layout).2 }
  match parse_find_node "desktopnames" node.children with
  | [] => g3
  | n :: _ =>
    { g3 with
      session_desktop_names :=
        g3.session_desktop_names ++ (find_each_node "name" n.children).map parse_string }

/-- Embedding of `session_load_file` (session.c, lines 669-821).  `file` is the
parsed document at the path, `none` when it cannot be read; `g` holds the
globals on entry. -/
def session_load_file (file : Option XmlNode) (g : SessionGlobals) :
    Except Fault SessionGlobals :=
  match parse_load file "openbox_session" with
  | none => .ok g
  | some node =>
    match remove_duplicates
        (load_windows node.children (load_desktop_state node g).session_saved_state) with
    | .error e => .error e
    | .ok saved => .ok { load_desktop_state node g with session_saved_state := saved }

/-! ## Saving: `session_save_to_file` -/

/-- An element of `stacking_list`: a client window or some other kind of
window (`WINDOW_IS_CLIENT` tells them apart). -/
inductive ObWindow where
  | client (c : ObClient)
  | other
deriving DecidableEq, Repr

/-- Data saved from the first-level save-yourself (`ObSMSaveData`);
`focus_client` is the address of the focused client, `none` for `NULL`. -/
structure ObSMSaveData where
  focus_client : Option Nat
  desktop : Int
deriving DecidableEq, Repr

/-- The screen and stacking globals that `session_save_to_file` reads. -/
structure ScreenGlobals where
  screen_num_desktops : Nat
  screen_desktop_layout : ObDesktopLayout
  screen_desktop_names : Option (List String)
  stacking_list : List ObWindow
deriving DecidableEq, Repr

/-- An element without attributes and children holding the given text. -/
def xml_leaf (name content : String) : XmlNode := .mk name [] content []

/-- The geometry computation of `session_save_to_file` (session.c, lines
527-544): the values of `prex`, `prey`, `prew`, `preh` when the window entry
is printed. -/
def save_geometry (c : ObClient) : Int × Int × Int × Int :=
  let prex := c.area.x
  let prey := c.area.y
  let prew := c.area.width
  let preh := c.area.height
  let prex := if c.fullscreen then c.pre_fullscreen_area.x else prex
  let prey := if c.fullscreen then c.pre_fullscreen_area.x else prey
  let prew := if c.fullscreen then c.pre_fullscreen_area.width else prew
  let preh := if c.fullscreen then c.pre_fullscreen_area.height else preh
  let prex := if c.max_horz then c.pre_max_area.x else prex
  let prew := if c.max_horz then c.pre_max_area.width else prew
  let prey := if c.max_vert then c.pre_max_area.y else prey
  let preh := if c.max_vert then c.pre_max_area.height else preh
  (prex, prey, prew, preh)

/-- The `<window>` element that the text printed for a client (session.c,
lines 546-592; the text itself is `print_window`) denotes.  `key` is the
identifying attribute chosen at lines 546-549.  The children are the elements
printed by their own `fprintf` calls.  The attribute and the texts of name,
class and role are what an XML parser reads from the printed text only for
plain strings: the key is printed unescaped between double quotes, so the
element holds it as the attribute value only when `prints_plain` holds of it
(for other keys the printed text is not this element); name, class and role
pass through `g_markup_escape_text`, which the parser undoes when
`escaped_plain` holds of them. -/
def save_window (savedata : ObSMSaveData) (c : ObClient) (key : String × String) : XmlNode :=
  .mk "window" [key] ""
    ([ xml_leaf "name" c.name,
       xml_leaf "class" c.class_,
       xml_leaf "role" c.role,
       xml_leaf "windowtype" (printf_d c.type),
       xml_leaf "desktop" (printf_d (guint_as_gint c.desktop)),
       xml_leaf "x" (printf_d (save_geometry c).1),
       xml_leaf "y" (printf_d (save_geometry c).2.1),
       xml_leaf "width" (printf_d (save_geometry c).2.2.1),
       xml_leaf "height" (printf_d (save_geometry c).2.2.2) ] ++
     (if c.shaded then [xml_leaf "shaded" ""] else []) ++
     (if c.iconic then [xml_leaf "iconic" ""] else []) ++
     (if c.skip_pager then [xml_leaf "skip_pager" ""] else []) ++
     (if c.skip_taskbar then [xml_leaf "skip_taskbar" ""] else []) ++
     (if c.fullscreen then [xml_leaf "fullscreen" ""] else []) ++
     (if c.above then [xml_leaf "above" ""] else []) ++
     (if c.below then [xml_leaf "below" ""] else []) ++
     (if c.max_horz then [xml_leaf "max_horz" ""] else []) ++
     (if c.max_vert then [xml_leaf "max_vert" ""] else []) ++
     (if c.undecorated then [xml_leaf "undecorated" ""] else []) ++
     (if savedata.focus_client = some c.addr then [xml_leaf "focused" ""] else []))

/-- The stacking-list loop of `session_save_to_file` (session.c, lines
498-593): the `<window>` elements printed, top to bottom.  `client_normal` is
the predicate of `client.c`, which is not among the sources. -/
def save_windows (client_normal : ObClient → Bool) (savedata : ObSMSaveData) :
    List ObWindow → List XmlNode
  | [] => []
  | .other :: rest => save_windows client_normal savedata rest
  | .client c :: rest =>
    if !client_normal c then save_windows client_normal savedata rest
    else
      match c.sm_client_id, c.wm_command with
      | none, none => save_windows client_normal savedata rest
      | some id, _ =>
        save_window savedata c ("id", id) :: save_windows client_normal savedata rest
      | none, some command =>
        save_window savedata c ("command", command) ::
          save_windows client_normal savedata rest

/-- The elements that the text printed before the windows (session.c, lines
473-495) denotes: desktop, number of desktops, desktop layout and, when there
are any, the desktop names.  The names are printed unescaped (line 493), so
the `name` elements are what an XML parser reads from the printed text only
when `prints_plain` holds of every name. -/
def save_desktop_state (screen : ScreenGlobals) (savedata : ObSMSaveData) : List XmlNode :=
  [ xml_leaf "desktop" (printf_d savedata.desktop),
    xml_leaf "numdesktops" (printf_d (guint_as_gint screen.screen_num_desktops)),
    .mk "desktoplayout" [] ""
      [ xml_leaf "orientation" (printf_d screen.screen_desktop_layout.orientation),
        xml_leaf "startcorner" (printf_d screen.screen_desktop_layout.start_corner),
        xml_leaf "columns" (printf_d (guint_as_gint screen.screen_desktop_layout.columns)),
        xml_leaf "rows" (printf_d (guint_as_gint screen.screen_desktop_layout.rows)) ] ] ++
  (match screen.screen_desktop_names with
   | none => []
   | some names => [.mk "desktopnames" [] "" (names.map (xml_leaf "name"))])

/-- Embedding of `session_save_to_file` (session.c, lines 458-606): the
returned `success` and the document that the text handed to the file denotes
(for plain strings, see `save_window` and `save_desktop_state`), `none` when
the file could not be opened.  `fopen_ok` and `fflush_ok` say whether `fopen`
and `fflush` succeed. -/
def session_save_to_file (client_normal : ObClient → Bool) (screen : ScreenGlobals)
    (fopen_ok fflush_ok : Bool) (savedata : ObSMSaveData) : Bool × Option XmlNode :=
  if !fopen_ok then (false, none)
  else
    (fflush_ok,
     some (.mk "openbox_session" [] ""
       (save_desktop_state screen savedata ++
        save_windows client_normal savedata screen.stacking_list)))

/-! ## Saving: the text that `session_save_to_file` prints for the windows

The session id, the command and the desktop names are printed as they are
(session.c, lines 493 and 546-549); only name, class and role pass through
`g_markup_escape_text`.  The elements of `save_window` and
`save_desktop_state` are what an XML parser reads from the printed text when
these strings are plain; the definitions below give the text itself. -/

/-- Whether a string that the writer prints as it is (a session id or a
command between double quotes, a desktop name as character data) is read back
by an XML parser as the same string: it holds no control character, none of
the characters with the codes 34, 38, 60 and 62 (double quote, ampersand, less
than, greater than) and none of the code points U+FFFE and U+FFFF, which XML
excludes. -/
def prints_plain (s : String) : Bool :=
  s.data.all (fun c =>
    decide (32 ≤ c.toNat) && decide (c.toNat ≠ 34) && decide (c.toNat ≠ 38) &&
    decide (c.toNat ≠ 60) && decide (c.toNat ≠ 62) && decide (c.toNat ≠ 65534) &&
    decide (c.toNat ≠ 65535))

/-- The replacement of one character by GLib `g_markup_escape_text`: the five
markup characters become entities, the control characters other than tab,
newline and carriage return become character references in hexadecimal, every
other character stays. -/
def g_markup_escape_char (c : Char) : List Char :=
  if c.toNat = 38 then "&amp;".data
  else if c.toNat = 60 then "&lt;".data
  else if c.toNat = 62 then "&gt;".data
  else if c.toNat = 39 then "&apos;".data
  else if c.toNat = 34 then "&quot;".data
  else if (1 ≤ c.toNat ∧ c.toNat ≤ 8) ∨ (11 ≤ c.toNat ∧ c.toNat ≤ 12) ∨
      (14 ≤ c.toNat ∧ c.toNat ≤ 31) ∨ (127 ≤ c.toNat ∧ c.toNat ≤ 132) ∨
      (134 ≤ c.toNat ∧ c.toNat ≤ 159) then
    "&#x".data ++ Nat.toDigits 16 c.toNat ++ ";".data
  else [c]

/-- GLib `g_markup_escape_text(text, -1)`. -/
def g_markup_escape_text (text : String) : String :=
  String.mk (text.data.flatMap g_markup_escape_char)

/-- The start tag printed for a window (session.c, lines 546-549): `key` is
the attribute chosen there, `id` with the session id or `command` with the
command, and its value is printed as it is between double quotes. -/
def print_window_start (key : String × String) : String :=
  "<window " ++ key.1 ++ "=\"" ++ key.2 ++ "\">\n"

/-- The text printed for a client (session.c, lines 546-592). -/
def print_window (savedata : ObSMSaveData) (c : ObClient) (key : String × String) : String :=
  print_window_start key ++
  "\t<name>" ++ g_markup_escape_text c.name ++ "</name>\n" ++
  "\t<class>" ++ g_markup_escape_text c.class_ ++ "</class>\n" ++
  "\t<role>" ++ g_markup_escape_text c.role ++ "</role>\n" ++
  "\t<windowtype>" ++ printf_d c.type ++ "</windowtype>\n" ++
  "\t<desktop>" ++ printf_d (guint_as_gint c.desktop) ++ "</desktop>\n" ++
  "\t<x>" ++ printf_d (save_geometry c).1 ++ "</x>\n" ++
  "\t<y>" ++ printf_d (save_geometry c).2.1 ++ "</y>\n" ++
  "\t<width>" ++ printf_d (save_geometry c).2.2.1 ++ "</width>\n" ++
  "\t<height>" ++ printf_d (save_geometry c).2.2.2 ++ "</height>\n" ++
  (if c.shaded then "\t<shaded />\n" else "") ++
  (if c.iconic then "\t<iconic />\n" else "") ++
  (if c.skip_pager then "\t<skip_pager />\n" else "") ++
  (if c.skip_taskbar then "\t<skip_taskbar />\n" else "") ++
  (if c.fullscreen then "\t<fullscreen />\n" else "") ++
  (if c.above then "\t<above />\n" else "") ++
  (if c.below then "\t<below />\n" else "") ++
  (if c.max_horz then "\t<max_horz />\n" else "") ++
  (if c.max_vert then "\t<max_vert />\n" else "") ++
  (if c.undecorated then "\t<undecorated />\n" else "") ++
  (if savedata.focus_client = some c.addr then "\t<focused />\n" else "") ++
  "</window>\n\n"

/-- The stacking-list loop of `session_save_to_file` (session.c, lines
498-593) as text: the texts printed, one for each pass of the loop that
reaches the `fprintf` calls, top to bottom. -/
def print_windows (client_normal : ObClient → Bool) (savedata : ObSMSaveData) :
    List ObWindow → List String
  | [] => []
  | .other :: rest => print_windows client_normal savedata rest
  | .client c :: rest =>
    if !client_normal c then print_windows client_normal savedata rest
    else
      match c.sm_client_id, c.wm_command with
      | none, none => print_windows client_normal savedata rest
      | some id, _ =>
        print_window savedata c ("id", id) :: print_windows client_normal savedata rest
      | none, some command =>
        print_window savedata c ("command", command) ::
          print_windows client_normal savedata rest

/-! ## The session-manager side: properties, calls and globals

The handlers of `session.c` talk to the session manager through SMlib.  Each
handler is embedded as a function from the globals (and what the outside world
supplies at that moment) to the globals afterwards and the list of calls it
makes, in order. -/

/-- `SmSaveGlobal` of `X11/SM/SM.h`. -/
def SmSaveGlobal : Int := 0

/-- `SmSaveLocal` of `X11/SM/SM.h`. -/
def SmSaveLocal : Int := 1

/-- `SmSaveBoth` of `X11/SM/SM.h`. -/
def SmSaveBoth : Int := 2

/-- `SmRestartIfRunning` of `X11/SM/SM.h`. -/
def SmRestartIfRunning : Nat := 0

/-- `SmRestartImmediately` of `X11/SM/SM.h`. -/
def SmRestartImmediately : Nat := 2

/-- `SmProgram` of `X11/SM/SM.h`. -/
def SmProgram : String := "Program"

/-- `SmUserID` of `X11/SM/SM.h`. -/
def SmUserID : String := "UserID"

/-- `SmRestartStyleHint` of `X11/SM/SM.h`. -/
def SmRestartStyleHint : String := "RestartStyleHint"

/-- `SmProcessID` of `X11/SM/SM.h`. -/
def SmProcessID : String := "ProcessID"

/-- `SmCloneCommand` of `X11/SM/SM.h`. -/
def SmCloneCommand : String := "CloneCommand"

/-- `SmRestartCommand` of `X11/SM/SM.h`. -/
def SmRestartCommand : String := "RestartCommand"

/-- `SmARRAY8` of `X11/SM/SM.h`. -/
def SmARRAY8 : String := "ARRAY8"

/-- `SmCARD8` of `X11/SM/SM.h`. -/
def SmCARD8 : String := "CARD8"

/-- `SmLISTofARRAY8` of `X11/SM/SM.h`. -/
def SmLISTofARRAY8 : String := "LISTofARRAY8"

/-- What the `value` pointer of an `SmPropValue` points to: a string or a
single byte. -/
inductive SmValue where
  | text (s : String)
  | byte (b : Nat)
deriving DecidableEq, Repr

/-- One value of a property (`SmPropValue`). -/
structure SmPropValue where
  value : SmValue
  length : Nat
deriving DecidableEq, Repr

/-- A property (`SmProp`).  `vals` is the array the property points to; a cell
that has not been assigned is `none`. -/
structure SmProp where
  name : String
  type : String
  num_vals : Nat
  vals : List (Option SmPropValue)
deriving DecidableEq, Repr

/-- C `strlen`: the number of bytes of the string. -/
def strlen (s : String) : Nat := s.utf8ByteSize

/-- Assignment to `vals[i]` in an array of the given cells; `none` when the
index lies outside the array. -/
def array_store (vals : List (Option SmPropValue)) (i : Nat) (v : SmPropValue) :
    Option (List (Option SmPropValue)) :=
  if i < vals.length then some (vals.set i (some v)) else none

/-- The loop `for (i = ...; i < sm_argc; ++i) vals[i] = sm_argv[i]` with `n`
iterations left at index `i`; `none` when a read of `sm_argv` or a write of
`vals` lies outside its array. -/
def store_argv (argv : List String) :
    Nat → Nat → List (Option SmPropValue) → Option (List (Option SmPropValue))
  | 0, _, vals => some vals
  | n + 1, i, vals =>
    match argv[i]? with
    | none => none
    | some a =>
      match array_store vals i { value := .text a, length := strlen a + 1 } with
      | none => none
      | some vals1 => store_argv argv n (i + 1) vals1

/-- A call made by a handler of `session.c`, with the arguments that matter. -/
inductive SmCall where
  | SmcOpenConnection (previous_id : Option String)
  | SmcSetProperties (prop : SmProp)
  | SmcVendor
  | SmcRequestSaveYourselfPhase2 (client_data : Option ObSMSaveData)
  | SmcSaveYourselfDone (success : Bool)
  | SmcRequestSaveYourself (interact_any : Bool)
  | SmcCloseConnection
  | sm_save_get_data
  | session_save_to_file (savedata : ObSMSaveData) (success : Bool)
  | session_load_file
  | ob_exit (code : Int)
  | fault
deriving DecidableEq, Repr

/-- The globals of `session.c` and of `openbox.c` that the session code uses,
together with the two pieces of outside state the handlers act on: the
phase-2 callback data registered with SMlib and the content of the file at
`ob_sm_save_file`. -/
structure SmGlobals where
  ob_sm_use : Bool
  ob_sm_restore : Bool
  ob_sm_id : Option String
  ob_sm_save_file : Option String
  sm_conn : Bool
  sm_argc : Nat
  sm_argv : List String
  session : SessionGlobals
  phase2_wait : Option (Option ObSMSaveData)
  save_file : Option XmlNode
  faulted : Bool

/-- The state of the window manager that a handler reads: the screen and
stacking globals, the current desktop and the focused client (its address), and
the predicate `client_normal`. -/
structure SmWorld where
  client_normal : ObClient → Bool
  screen : ScreenGlobals
  screen_desktop : Nat
  focus_client : Option Nat

/-- Embedding of `session_setup_program` (session.c, lines 193-210): the
property passed to `SmcSetProperties`, `none` when `sm_argv[0]` does not
exist. -/
def session_setup_program (g : SmGlobals) : Option SmProp :=
  match g.sm_argv[0]? with
  | none => none
  | some a =>
    some { name := SmProgram, type := SmARRAY8, num_vals := 1,
           vals := [some { value := .text a, length := strlen a + 1 }] }

/-- Embedding of `session_setup_user` (session.c, lines 212-232); `user` is
the result of `g_get_user_name`. -/
def session_setup_user (user : String) : SmProp :=
  { name := SmUserID, type := SmARRAY8, num_vals := 1,
    vals := [some { value := .text user, length := strlen user + 1 }] }

/-- Embedding of `session_setup_restart_style` (session.c, lines 234-253). -/
def session_setup_restart_style (restart : Bool) : SmProp :=
  { name := SmRestartStyleHint, type := SmCARD8, num_vals := 1,
    vals := [some { value := .byte (if restart then SmRestartImmediately
                                     else SmRestartIfRunning),
                    length := 1 }] }

/-- Embedding of `session_setup_pid` (session.c, lines 255-275); `pid` is the
result of `getpid`. -/
def session_setup_pid (pid : Nat) : SmProp :=
  { name := SmProcessID, type := SmARRAY8, num_vals := 1,
    vals := [some { value := .text (printf_d pid), length := strlen (printf_d pid) + 1 }] }

/-- Embedding of `session_setup_priority` (session.c, lines 278-297). -/
def session_setup_priority : SmProp :=
  { name := "_GSM_Priority", type := SmCARD8, num_vals := 1,
    vals := [some { value := .byte 20, length := 1 }] }

/-- Embedding of `session_setup_clone_command` (session.c, lines 299-323). -/
def session_setup_clone_command (g : SmGlobals) : Option SmProp :=
  match store_argv g.sm_argv g.sm_argc 0 (List.replicate g.sm_argc none) with
  | none => none
  | some vals =>
    some { name := SmCloneCommand, type := SmLISTofARRAY8, num_vals := g.sm_argc,
           vals := vals }

/-- Embedding of `session_setup_restart_command` (session.c, lines 325-365):
the property passed to `SmcSetProperties`, `none` when an array access lies
outside its array or `strlen` is applied to a null pointer. -/
def session_setup_restart_command (g : SmGlobals) : Option SmProp :=
  match store_argv g.sm_argv g.sm_argc 0 (List.replicate (g.sm_argc + 4) none) with
  | none => none
  | some vals0 =>
    match array_store vals0 g.sm_argc
        { value := .text "--sm-client-id", length := strlen "--sm-client-id" + 1 } with
    | none => none
    | some vals1 =>
      match g.ob_sm_id with
      | none => none
      | some id =>
        match array_store vals1 (g.sm_argc + 1) { value := .text id, length := strlen id + 1 } with
        | none => none
        | some vals2 =>
          match array_store vals2 (g.sm_argc + 2)
              { value := .text "--sm-save-file", length := strlen "--sm-save-file" + 1 } with
          | none => none
          | some vals3 =>
            match g.ob_sm_save_file with
            | none => none
            | some file =>
              match array_store vals3 (g.sm_argc + 3)
                  { value := .text file, length := strlen file + 1 } with
              | none => none
              | some vals4 =>
                some { name := SmRestartCommand, type := SmLISTofARRAY8,
                       num_vals := g.sm_argc + 4, vals := vals4 }

/-- Embedding of `sm_save_get_data` (session.c, lines 367-377). -/
def sm_save_get_data (w : SmWorld) : ObSMSaveData :=
  { focus_client := w.focus_client, desktop := guint_as_gint w.screen_desktop }

/-- Text that `printf("%u", n)` produces for a `guint` `n`. -/
def printf_u (n : Nat) : String := String.mk (dec_digits (n % 2 ^ 32 + 1) (n % 2 ^ 32) [])

/-- Embedding of `session_connect` (session.c, lines 159-191).  `connect` is
what `SmcOpenConnection` answers: the client id it assigns, or `none` when the
connection fails. -/
def session_connect (g : SmGlobals) (connect : Option String) : SmGlobals × List SmCall :=
  ({ g with sm_conn := connect.isSome, ob_sm_id := connect },
   [.SmcOpenConnection g.ob_sm_id])

/-- The property set-up of `session_startup` after a successful connection
(session.c, lines 127-132): the calls made, ending in `fault` when an array
access of a set-up function lies outside its array. -/
def session_startup_properties (g : SmGlobals) (user : String) (pid : Nat) : List SmCall :=
  match session_setup_program g with
  | none => [.fault]
  | some program =>
    [ .SmcSetProperties program,
      .SmcSetProperties (session_setup_user user),
      .SmcSetProperties (session_setup_restart_style true),
      .SmcSetProperties (session_setup_pid pid),
      .SmcSetProperties session_setup_priority ] ++
    (match session_setup_clone_command g with
     | none => [.fault]
     | some clone => [.SmcSetProperties clone])

/-- The save-file part of `session_startup` (session.c, lines 108-124): an
existing save file is loaded when restoring is asked for; without a save file
a name for one is made up from the time, the process id and a random
number. -/
def session_startup_file (g : SmGlobals) (dir : String) (time pid random : Nat) :
    SmGlobals × List SmCall :=
  match g.ob_sm_save_file with
  | some _ =>
    if g.ob_sm_restore then
      match session_load_file g.save_file g.session with
      | .ok session => ({ g with session := session }, [.session_load_file])
      | .error _ => ({ g with faulted := true }, [.session_load_file, .fault])
    else (g, [])
  | none =>
    ({ g with
       ob_sm_save_file :=
         some (dir ++ "/" ++ printf_u time ++ "-" ++ printf_u pid ++ "-" ++
               printf_u random ++ ".obs") }, [])

/-- The connection part of `session_startup` (session.c, lines 126-133). -/
def session_startup_connect (g : SmGlobals) (pid : Nat) (user : String)
    (connect : Option String) : SmGlobals × List SmCall :=
  if (session_connect g connect).1.sm_conn then
    ({ (session_connect g connect).1 with
       faulted :=
         decide (SmCall.fault ∈
           session_startup_properties (session_connect g connect).1 user pid) },
     (session_connect g connect).2 ++
       session_startup_properties (session_connect g connect).1 user pid)
  else session_connect g connect

/-- Embedding of `session_startup` (session.c, lines 92-136).  Supplied from
outside: the data directory of `parse_xdg_data_home_path`, the results of
`time`, `getpid`, `g_random_int` and `g_get_user_name`, and the answer of
`SmcOpenConnection`.  The directory creation is left out. -/
def session_startup (g : SmGlobals) (argc : Nat) (argv : List String) (data_home : String)
    (time pid random : Nat) (user : String) (connect : Option String) :
    SmGlobals × List SmCall :=
  if !g.ob_sm_use then (g, [])
  else
    let loaded := session_startup_file { g with sm_argc := argc, sm_argv := argv }
      (data_home ++ "/openbox/sessions") time pid random
    if loaded.1.faulted then loaded
    else
      ((session_startup_connect loaded.1 pid user connect).1,
       loaded.2 ++ (session_startup_connect loaded.1 pid user connect).2)

/-- Embedding of `session_shutdown` (session.c, lines 138-156). -/
def session_shutdown (g : SmGlobals) (permanent : Bool) : SmGlobals × List SmCall :=
  if !g.ob_sm_use then (g, [])
  else if g.sm_conn then
    ({ g with session := { g.session with session_saved_state := [] } },
     (if permanent then [.SmcSetProperties (session_setup_restart_style false)] else []) ++
     [.SmcCloseConnection])
  else (g, [])

/-- Embedding of `sm_save_yourself_2` (session.c, lines 379-398).  `data` is
the callback's `SmPointer`; `fopen_ok` and `fflush_ok` say whether the writer's
`fopen` and `fflush` succeed. -/
def sm_save_yourself_2 (g : SmGlobals) (w : SmWorld) (fopen_ok fflush_ok : Bool)
    (data : Option ObSMSaveData) : SmGlobals × List SmCall :=
  let savedata := match data with
    | some d => d
    | none => sm_save_get_data w
  let get : List SmCall := match data with
    | some _ => []
    | none => [.sm_save_get_data]
  let written := session_save_to_file w.client_normal w.screen fopen_ok fflush_ok savedata
  let g1 : SmGlobals := match written.2 with
    | some doc => { g with save_file := some doc }
    | none => g
  if written.1 then
    match session_setup_restart_command g1 with
    | some prop =>
      (g1, get ++ [.session_save_to_file savedata true, .SmcSetProperties prop,
                   .SmcSaveYourselfDone true])
    | none =>
      ({ g1 with faulted := true }, get ++ [.session_save_to_file savedata true, .fault])
  else
    (g1, get ++ [.session_save_to_file savedata false, .SmcSaveYourselfDone false])

/-- Embedding of `sm_save_yourself` (session.c, lines 401-440).  `vendor` is
the answer of `SmcVendor`, `phase2_ok` whether
`SmcRequestSaveYourselfPhase2` accepts the request; an accepted request leaves
the callback data registered with SMlib. -/
def sm_save_yourself (g : SmGlobals) (w : SmWorld) (save_type : Int) (vendor : String)
    (phase2_ok : Bool) : SmGlobals × List SmCall :=
  if save_type = SmSaveGlobal then (g, [.SmcSaveYourselfDone true])
  else
    let savedata : Option ObSMSaveData :=
      if strcmp vendor "KDE" = 0 then some (sm_save_get_data w) else none
    let calls : List SmCall :=
      [.SmcVendor] ++ (if strcmp vendor "KDE" = 0 then [.sm_save_get_data] else []) ++
      [.SmcRequestSaveYourselfPhase2 savedata]
    if phase2_ok then ({ g with phase2_wait := some savedata }, calls)
    else (g, calls ++ [.SmcSaveYourselfDone false])

/-- Embedding of `sm_die` (session.c, lines 442-446). -/
def sm_die (g : SmGlobals) : SmGlobals × List SmCall := (g, [.ob_exit 0])

/-- Embedding of `sm_save_complete` (session.c, lines 448-451). -/
def sm_save_complete (g : SmGlobals) : SmGlobals × List SmCall := (g, [])

/-- Embedding of `sm_shutdown_cancelled` (session.c, lines 453-456). -/
def sm_shutdown_cancelled (g : SmGlobals) : SmGlobals × List SmCall := (g, [])

/-- Embedding of `session_request_logout` (session.c, lines 823-837). -/
def session_request_logout (g : SmGlobals) (silent : Bool) : SmGlobals × List SmCall :=
  if g.sm_conn then (g, [.SmcRequestSaveYourself (!silent)]) else (g, [])

/-- What can happen to the coordinator: a call of one of its entry points or
the delivery of one of its callbacks, with what the outside supplies. -/
inductive SmEvent where
  | session_startup (argc : Nat) (argv : List String) (data_home : String)
      (time pid random : Nat) (user : String) (connect : Option String)
  | session_shutdown (permanent : Bool)
  | session_request_logout (silent : Bool)
  | sm_save_yourself (w : SmWorld) (save_type : Int) (shutdown : Bool) (interact_style : Int)
      (fast : Bool) (vendor : String) (phase2_ok : Bool)
  | sm_save_yourself_2 (w : SmWorld) (fopen_ok fflush_ok : Bool)
  | sm_die
  | sm_save_complete
  | sm_shutdown_cancelled

/-- One event of a run.  SMlib delivers the phase-2 callback only while a
request is registered, with the registered data, and then forgets the
request.  After a memory fault nothing further is defined, so the run stops
making calls. -/
def sm_step (g : SmGlobals) (ev : SmEvent) : SmGlobals × List SmCall :=
  if g.faulted then (g, [])
  else
    match ev with
    | .session_startup argc argv data_home time pid random user connect =>
      session_startup g argc argv data_home time pid random user connect
    | .session_shutdown permanent => session_shutdown g permanent
    | .session_request_logout silent => session_request_logout g silent
    | .sm_save_yourself w save_type _ _ _ vendor phase2_ok =>
      sm_save_yourself g w save_type vendor phase2_ok
    | .sm_save_yourself_2 w fopen_ok fflush_ok =>
      match g.phase2_wait with
      | none => (g, [])
      | some data =>
        sm_save_yourself_2 { g with phase2_wait := none } w fopen_ok fflush_ok data
    | .sm_die => sm_die g
    | .sm_save_complete => sm_save_complete g
    | .sm_shutdown_cancelled => sm_shutdown_cancelled g

/-- A run of the coordinator: every event with the calls its handler makes,
in order. -/
def sm_run : SmGlobals → List SmEvent → List (SmEvent × List SmCall)
  | _, [] => []
  | g, ev :: evs => (ev, (sm_step g ev).2) :: sm_run (sm_step g ev).1 evs

/-- The globals after a run. -/
def sm_run_globals : SmGlobals → List SmEvent → SmGlobals
  | g, [] => g
  | g, ev :: evs => sm_run_globals (sm_step g ev).1 evs

/-! ## Button descriptors: `translate_modifier` and `translate_button`

The embedding of the first two functions of `openbox/translate.c`.  The
output parameters `*state` and `*button` are passed in with the values they
hold on entry and returned with the values they hold on exit. -/

/-- Modifier mask `ShiftMask` of `X11/X.h`. -/
def ShiftMask : Nat := 1

/-- Modifier mask `ControlMask` of `X11/X.h`. -/
def ControlMask : Nat := 4

/-- Modifier mask `Mod1Mask` of `X11/X.h`. -/
def Mod1Mask : Nat := 8

/-- Modifier mask `Mod2Mask` of `X11/X.h`. -/
def Mod2Mask : Nat := 16

/-- Modifier mask `Mod3Mask` of `X11/X.h`. -/
def Mod3Mask : Nat := 32

/-- Modifier mask `Mod4Mask` of `X11/X.h`. -/
def Mod4Mask : Nat := 64

/-- Modifier mask `Mod5Mask` of `X11/X.h`. -/
def Mod5Mask : Nat := 128

/-- GLib `g_ascii_tolower`: the letters A to Z go to a to z, every other
character stays. -/
def g_ascii_tolower (c : Char) : Char :=
  if 65 ≤ c.toNat ∧ c.toNat ≤ 90 then Char.ofNat (c.toNat + 32) else c

/-- GLib `g_ascii_strcasecmp`: the comparison of `strcmp` on the strings with
their ASCII letters in lower case; zero exactly when the strings are equal up
to the case of ASCII letters. -/
def g_ascii_strcasecmp (s1 s2 : String) : Int :=
  strcmp_chars (s1.data.map g_ascii_tolower) (s2.data.map g_ascii_tolower)

/-- GLib `g_ascii_strncasecmp`: as `g_ascii_strcasecmp` on at most the first
`n` characters of each string. -/
def g_ascii_strncasecmp (s1 s2 : String) (n : Nat) : Int :=
  strcmp_chars ((s1.data.take n).map g_ascii_tolower) ((s2.data.take n).map g_ascii_tolower)

/-- The pieces of a text between the occurrences of a delimiter character;
a text without the delimiter is its only piece. -/
def split_chars (delimiter : Char) : List Char → List (List Char)
  | [] => [[]]
  | c :: cs =>
    if c = delimiter then [] :: split_chars delimiter cs
    else
      match split_chars delimiter cs with
      | [] => [[c]]
      | t :: ts => (c :: t) :: ts

/-- GLib `g_strsplit(string, delimiter, -1)` for a delimiter of one
character: the tokens between the delimiters, in order, without a limit on
their number; the empty string has no token. -/
def g_strsplit (string : String) (delimiter : Char) : List String :=
  if string.data.isEmpty then [] else (split_chars delimiter string.data).map String.mk

/-- Embedding of `translate_modifier` (translate.c, lines 27-43); zero for a
string that names no modifier. -/
def translate_modifier (str : String) : Nat :=
  if g_ascii_strcasecmp "Mod1" str = 0 ∨ g_ascii_strcasecmp "A" str = 0 then Mod1Mask
  else if g_ascii_strcasecmp "Mod2" str = 0 then Mod2Mask
  else if g_ascii_strcasecmp "Mod3" str = 0 ∨ g_ascii_strcasecmp "M" str = 0 then Mod3Mask
  else if g_ascii_strcasecmp "Mod4" str = 0 ∨ g_ascii_strcasecmp "W" str = 0 then Mod4Mask
  else if g_ascii_strcasecmp "Mod5" str = 0 then Mod5Mask
  else if g_ascii_strcasecmp "Control" str = 0 ∨ g_ascii_strcasecmp "C" str = 0 then
    ControlMask
  else if g_ascii_strcasecmp "Shift" str = 0 ∨ g_ascii_strcasecmp "S" str = 0 then ShiftMask
  else 0

/-- The modifier loop of `translate_button` (translate.c, lines 61-65) over
the tokens before the last one, started with the given value of `*state`:
whether the loop ran to its end, and `*state` when it is left. -/
def translate_modifiers : List String → Nat → Bool × Nat
  | [], state => (true, state)
  | m :: ms, state =>
    if translate_modifier m = 0 then (false, state)
    else translate_modifiers ms (state ||| translate_modifier m)

/-- The button chain of `translate_button` (translate.c, lines 68-73): the
value of `*button` after it, for the last token `l` and the value `button`
that `*button` holds before.  The `gint` that `atoi` returns is stored in the
`guint`. -/
def translate_button_name (l : String) (button : Nat) : Nat :=
  if g_ascii_strcasecmp "Left" l = 0 then 1
  else if g_ascii_strcasecmp "Middle" l = 0 then 2
  else if g_ascii_strcasecmp "Right" l = 0 then 3
  else if g_ascii_strcasecmp "Up" l = 0 then 4
  else if g_ascii_strcasecmp "Down" l = 0 then 5
  else if g_ascii_strncasecmp "Button" l 6 = 0 then
    gint_as_guint (atoi (String.mk (l.data.drop 6)))
  else button

/-- Embedding of `translate_button` (translate.c, lines 45-86).  `state` and
`button` are the values of `*state` and `*button` on entry; the result is the
returned `gboolean` with the values of `*state` and `*button` on exit. -/
def translate_button (str : String) (state button : Nat) : Bool × Nat × Nat :=
  match (g_strsplit str '-').getLast? with
  | none => (false, state, button)
  | some l =>
    if (translate_modifiers (g_strsplit str '-').dropLast 0).1 then
      if translate_button_name l button = 0 then
        (false, (translate_modifiers (g_strsplit str '-').dropLast 0).2,
         translate_button_name l button)
      else
        (true, (translate_modifiers (g_strsplit str '-').dropLast 0).2,
         translate_button_name l button)
    else (false, (translate_modifiers (g_strsplit str '-').dropLast 0).2, button)

/-! ## Reference notions used to state the properties -/

/-- Text of the first child element with the given name, if there is one. -/
def child_text (tag : String) (node : XmlNode) : Option String :=
  (parse_find_node tag node.children).head?.map XmlNode.content

/-- Whether the element has a child element with the given name. -/
def has_child (tag : String) (node : XmlNode) : Bool :=
  !(parse_find_node tag node.children).isEmpty

/-- The clients of a stacking list that are written to the session file, in
stacking order: client windows for which `client_normal` holds and which have
a session id or a command. -/
def written_clients (client_normal : ObClient → Bool) (ws : List ObWindow) : List ObClient :=
  ws.filterMap (fun w =>
    match w with
    | .other => none
    | .client c =>
      if client_normal c && (c.sm_client_id.isSome || c.wm_command.isSome) then some c
      else none)

/-- The identifying attribute printed for a written client (session.c, lines
546-549): the session id when there is one, the command otherwise. -/
def window_key (c : ObClient) : String × String :=
  match c.sm_client_id with
  | some id => ("id", id)
  | none => ("command", c.wm_command.getD "")

/-- A loaded record is well formed when exactly one of id and command is
present, as the window loop of `session_load_file` builds it. -/
def state_well_formed (s : ObSessionState) : Prop :=
  (s.id.isSome = true ∧ s.command = none) ∨ (s.id = none ∧ s.command.isSome = true)

/-- The fields that the duplicate test compares. -/
def dedup_key (s : ObSessionState) :
    Option String × Option String × String × String × String :=
  (s.id, s.command, s.name, s.class_, s.role)

/-- The records of a list with which no other record of the list collides, in
list order: those whose key occurs exactly once. -/
def without_collisions (l : List ObSessionState) : List ObSessionState :=
  l.filter (fun s => decide (l.countP (fun t => decide (dedup_key t = dedup_key s)) = 1))

/-- A `<window>` element lacks a required part: it has neither an `id` nor a
`command` attribute, or one of the nine required child elements is missing. -/
def window_malformed (node : XmlNode) : Prop :=
  (parse_attr_string "id" node = none ∧ parse_attr_string "command" node = none) ∨
  ∃ tag ∈ ["name", "class", "role", "windowtype", "desktop", "x", "y", "width", "height"],
    has_child tag node = false

/-- Equality of two strings up to the case of ASCII letters. -/
def same_ignoring_case (a b : String) : Bool :=
  decide (a.data.map g_ascii_tolower = b.data.map g_ascii_tolower)

/-- The modifier names of a button or key descriptor with their masks. -/
def modifier_names : List (String × Nat) :=
  [ ("Mod1", Mod1Mask), ("A", Mod1Mask), ("Mod2", Mod2Mask), ("Mod3", Mod3Mask),
    ("M", Mod3Mask), ("Mod4", Mod4Mask), ("W", Mod4Mask), ("Mod5", Mod5Mask),
    ("Control", ControlMask), ("C", ControlMask), ("Shift", ShiftMask), ("S", ShiftMask) ]

/-- The mask of a recognised modifier name (in any case); `none` for a string
that is not a modifier name. -/
def modifier_mask (m : String) : Option Nat :=
  (modifier_names.find? (fun p => same_ignoring_case p.1 m)).map Prod.snd

/-- The named buttons of a button descriptor with their numbers. -/
def button_names : List (String × Nat) :=
  [("Left", 1), ("Middle", 2), ("Right", 3), ("Up", 4), ("Down", 5)]

/-- A token is no button name: it is none of Left, Middle, Right, Up, Down
and does not start with "Button" (in any case). -/
def button_name_unrecognised (l : String) : Bool :=
  button_names.all (fun p => !same_ignoring_case p.1 l) &&
  !same_ignoring_case "Button" (String.mk (l.data.take 6))

/-- The descriptor `m1-...-mk-b` made of the modifier tokens `ms` and the
button token `b`. -/
def binding_text (ms : List String) (b : String) : String :=
  String.mk (ms.foldr (fun m acc => m.data ++ '-' :: acc) b.data)

/-- A text that does not start with a number: it is empty or its first
character is no digit, no sign and no white space. -/
def starts_no_number (rest : String) : Bool :=
  match rest.data with
  | [] => true
  | c :: _ => !c.isDigit && !isspace c && c != '+' && c != '-'

/-! ## Sample data -/

/-- A saved record with the given identity and every other field zero. -/
def sample_state (id command : Option String) (name class_ role : String) (type : Int) :
    ObSessionState :=
  { id := id, command := command, name := name, class_ := class_, role := role,
    type := type, desktop := 0, x := 0, y := 0, w := 0, h := 0,
    shaded := false, iconic := false, skip_pager := false, skip_taskbar := false,
    fullscreen := false, above := false, below := false, max_horz := false,
    max_vert := false, undecorated := false, focused := false, matched := false }

/-- A client with the given identity, a 640x480 window at (10, 20), earlier
rectangles of its own for fullscreen and maximize, and no flag set. -/
def sample_client (addr : Nat) (sm_client_id wm_command : Option String)
    (name class_ role : String) (type : Int) : ObClient :=
  { addr := addr, sm_client_id := sm_client_id, wm_command := wm_command,
    name := name, class_ := class_, role := role, title := name, type := type,
    desktop := 0,
    area := { x := 10, y := 20, width := 640, height := 480 },
    pre_fullscreen_area := { x := 30, y := 40, width := 300, height := 200 },
    pre_max_area := { x := 50, y := 60, width := 500, height := 400 },
    shaded := false, iconic := false, skip_pager := false, skip_taskbar := false,
    fullscreen := false, above := false, below := false, max_horz := false,
    max_vert := false, undecorated := false }

/-- A screen with four desktops in a 2x2 layout, no desktop names and the
given stacking list. -/
def sample_screen (stacking_list : List ObWindow) : ScreenGlobals :=
  { screen_num_desktops := 4
    screen_desktop_layout := { orientation := 0, start_corner := 0, columns := 2, rows := 2 }
    screen_desktop_names := none
    stacking_list := stacking_list }

/-- A `<window>` element with the given attributes and the nine required
children, holding the given name, class and role and zeros elsewhere. -/
def sample_window (attrs : List (String × String)) (name class_ role : String)
    (type : Int) : XmlNode :=
  .mk "window" attrs ""
    [ xml_leaf "name" name, xml_leaf "class" class_, xml_leaf "role" role,
      xml_leaf "windowtype" (printf_d type), xml_leaf "desktop" "0",
      xml_leaf "x" "0", xml_leaf "y" "0", xml_leaf "width" "0", xml_leaf "height" "0" ]

/-- A `<window>` element with an id and every required child except
`role`. -/
def sample_window_without_role : XmlNode :=
  .mk "window" [("id", "B")] ""
    [ xml_leaf "name" "edit", xml_leaf "class" "Edit", xml_leaf "windowtype" "0",
      xml_leaf "desktop" "0", xml_leaf "x" "0", xml_leaf "y" "0", xml_leaf "width" "0",
      xml_leaf "height" "0" ]

/-- Whether a call is an invocation of the writer. -/
def SmCall.is_writer_call : SmCall → Bool
  | .session_save_to_file _ _ => true
  | _ => false

/-- Whether a call sets the restart-command property. -/
def SmCall.sets_restart_command : SmCall → Bool
  | .SmcSetProperties prop => decide (prop.name = SmRestartCommand)
  | _ => false

/-- The globals are as `session_startup` leaves them after a successful
connection: `sm_argv` has `sm_argc` entries and the client id and the save-file
path are set. -/
def restart_command_ready (g : SmGlobals) : Prop :=
  g.sm_argv.length = g.sm_argc ∧ g.ob_sm_id.isSome = true ∧ g.ob_sm_save_file.isSome = true

/-- Globals with session management in use, a connection, the given command
line and client id, a save-file path, an empty Store and no file on disk. -/
def sample_globals (argv : List String) (id : String) : SmGlobals :=
  { ob_sm_use := true, ob_sm_restore := false, ob_sm_id := some id,
    ob_sm_save_file := some "/tmp/session.obs", sm_conn := true,
    sm_argc := argv.length, sm_argv := argv, session := session_initial,
    phase2_wait := none, save_file := none, faulted := false }

/-- A world with the sample screen, the given stacking list, current desktop
and focused client, in which every client is normal. -/
def sample_world (stacking_list : List ObWindow) (screen_desktop : Nat)
    (focus_client : Option Nat) : SmWorld :=
  { client_normal := fun _ => true, screen := sample_screen stacking_list,
    screen_desktop := screen_desktop, focus_client := focus_client }

/-- The cell of a property's value array that holds the string `a`: the
string itself and `strlen(a) + 1` as its length. -/
def text_value (a : String) : Option SmPropValue :=
  some { value := .text a, length := strlen a + 1 }

/-- Whether a call acknowledges a save-yourself request. -/
def SmCall.is_acknowledgement : SmCall → Bool
  | .SmcSaveYourselfDone _ => true
  | _ => false

/-! ## Theorems: matching -/

theorem strcmp_chars_eq_zero_iff (as bs : List Char) : strcmp_chars as bs = 0 ↔ as = bs := by
  induction as generalizing bs with
  | nil => cases bs <;> simp [strcmp_chars]
  | cons a as ih =>
    cases bs with
    | nil => simp [strcmp_chars]
    | cons b bs =>
      by_cases h : a = b
      · simp [strcmp_chars, h, ih]
      · rw [strcmp_chars, if_neg h]
        simp only [List.cons.injEq, h, false_and, iff_false]
        by_cases hlt : a.toNat < b.toNat
        · rw [if_pos hlt]; decide
        · rw [if_neg hlt]; decide

theorem strcmp_eq_zero_iff (a b : String) : strcmp a b = 0 ↔ a = b := by
  unfold strcmp
  rw [strcmp_chars_eq_zero_iff]
  exact ⟨fun h => String.ext h, fun h => h ▸ rfl⟩

/-- The record/client predicate that `session_state_cmp` decides, written
out. -/
theorem session_state_cmp_eq_true_iff (s : ObSessionState) (c : ObClient) :
    session_state_cmp s c = true ↔
      ((∃ i, c.sm_client_id = some i ∧ s.id = some i) ∨
        (∃ k, c.wm_command = some k ∧ s.command = some k)) ∧
      s.name = c.name ∧ s.class_ = c.class_ ∧ s.role = c.role ∧
      (s.command = none ∨ c.type = s.type) := by
  unfold session_state_cmp
  cases hci : c.sm_client_id <;> cases hsi : s.id <;>
    cases hcc : c.wm_command <;> cases hsc : s.command <;>
    simp [strcmp_eq_zero_iff, and_assoc]
  all_goals
    intros
    first
      | exact eq_comm
      | exact or_congr eq_comm eq_comm

/-- C1: for a record with exactly one of id/command, `session_state_cmp`
returns true iff (the record has an id and the client's `sm_client_id` is
present and equal to it, or the record has no id and the client's `wm_command`
is present and equal to the record's command) and name, class and role are
equal and, when the record has no id, the client's type equals the record's
type. -/
theorem C1_session_state_cmp_iff (s : ObSessionState) (c : ObClient)
    (hwf : state_well_formed s) :
    session_state_cmp s c = true ↔
      (((∃ i, s.id = some i ∧ c.sm_client_id = some i) ∨
        (s.id = none ∧ ∃ k, s.command = some k ∧ c.wm_command = some k)) ∧
       s.name = c.name ∧ s.class_ = c.class_ ∧ s.role = c.role ∧
       (s.id = none → c.type = s.type)) := by
  rw [session_state_cmp_eq_true_iff]
  rcases hwf with ⟨hid, hcmd⟩ | ⟨hid, hcmd⟩
  · obtain ⟨i, hi⟩ := Option.isSome_iff_exists.mp hid
    simp [hi, hcmd, eq_comm]
  · obtain ⟨k, hk⟩ := Option.isSome_iff_exists.mp hcmd
    simp [hid, hk, eq_comm]

theorem C1_session_state_cmp_iff_witness :
    state_well_formed (sample_state none (some "xterm") "term" "Term" "main" 0) ∧
    session_state_cmp (sample_state none (some "xterm") "term" "Term" "main" 0)
      (sample_client 1 none (some "xterm") "term" "Term" "main" 0) = true ∧
    session_state_cmp (sample_state none (some "xterm") "term" "Term" "main" 0)
      (sample_client 1 none (some "xterm") "term" "Term" "main" 2) ≠ true :=
  ⟨Or.inr ⟨rfl, rfl⟩,
   (C1_session_state_cmp_iff (sample_state none (some "xterm") "term" "Term" "main" 0)
      (sample_client 1 none (some "xterm") "term" "Term" "main" 0)
      (Or.inr ⟨rfl, rfl⟩)).mpr
     ⟨Or.inr ⟨rfl, "xterm", rfl, rfl⟩, rfl, rfl, rfl, fun _ => rfl⟩,
   fun h =>
     absurd
       (((C1_session_state_cmp_iff (sample_state none (some "xterm") "term" "Term" "main" 0)
          (sample_client 1 none (some "xterm") "term" "Term" "main" 2)
          (Or.inr ⟨rfl, rfl⟩)).mp h).2.2.2.2 rfl)
       (by decide)⟩

theorem find_nil (c : ObClient) : session_state_find c [] = (none, []) := rfl

theorem find_cons_hit (c : ObClient) (s : ObSessionState) (rest : List ObSessionState)
    (h : s.matched = false ∧ session_state_cmp s c = true) :
    session_state_find c (s :: rest) = (some 0, { s with matched := true } :: rest) := by
  simp [session_state_find, h.1, h.2]

theorem find_cons_miss (c : ObClient) (s : ObSessionState) (rest : List ObSessionState)
    (h : ¬ (s.matched = false ∧ session_state_cmp s c = true)) :
    session_state_find c (s :: rest) =
      ((session_state_find c rest).1.map (· + 1), s :: (session_state_find c rest).2) := by
  have : (!s.matched && session_state_cmp s c) = false := by
    cases hm : s.matched <;> cases hc : session_state_cmp s c <;> simp_all
  simp [session_state_find, this]

theorem find_fst_eq_some_iff (c : ObClient) (st : List ObSessionState) (i : Nat) :
    (session_state_find c st).1 = some i ↔
      ∃ s, st[i]? = some s ∧ s.matched = false ∧ session_state_cmp s c = true ∧
        ∀ j, j < i → ∀ t, st[j]? = some t →
          ¬ (t.matched = false ∧ session_state_cmp t c = true) := by
  induction st generalizing i with
  | nil => simp [find_nil]
  | cons s rest ih =>
    by_cases h : s.matched = false ∧ session_state_cmp s c = true
    · rw [find_cons_hit c s rest h]
      cases i with
      | zero => simp [h.1, h.2]
      | succ k =>
        simp only [Option.some.injEq, List.getElem?_cons_succ]
        constructor
        · intro hk; omega
        · rintro ⟨t, -, -, -, hall⟩
          exact absurd h (hall 0 (Nat.succ_pos k) s (by simp))
    · rw [find_cons_miss c s rest h]
      cases i with
      | zero =>
        simp only [Option.map_eq_some', List.getElem?_cons_zero, Option.some.injEq]
        constructor
        · rintro ⟨a, -, ha⟩; omega
        · rintro ⟨t, rfl, h1, h2, -⟩
          exact absurd ⟨h1, h2⟩ h
      | succ k =>
        simp only [Option.map_eq_some', List.getElem?_cons_succ]
        constructor
        · rintro ⟨a, ha, hak⟩
          have hak' : a = k := by omega
          subst hak'
          obtain ⟨t, h1, h2, h3, h4⟩ := (ih a).mp ha
          refine ⟨t, h1, h2, h3, ?_⟩
          intro j hj u hu
          cases j with
          | zero =>
            simp only [List.getElem?_cons_zero, Option.some.injEq] at hu
            subst hu; exact h
          | succ j' =>
            simp only [List.getElem?_cons_succ] at hu
            exact h4 j' (by omega) u hu
        · rintro ⟨t, h1, h2, h3, h4⟩
          refine ⟨k, (ih k).mpr ⟨t, h1, h2, h3, ?_⟩, rfl⟩
          intro j hj u hu
          exact h4 (j + 1) (by omega) u (by simpa using hu)

theorem find_fst_eq_none_iff (c : ObClient) (st : List ObSessionState) :
    (session_state_find c st).1 = none ↔
      ∀ s ∈ st, ¬ (s.matched = false ∧ session_state_cmp s c = true) := by
  induction st with
  | nil => simp [find_nil]
  | cons s rest ih =>
    by_cases h : s.matched = false ∧ session_state_cmp s c = true
    · rw [find_cons_hit c s rest h]
      constructor
      · intro h0; cases h0
      · intro hall; exact absurd h (hall s (List.mem_cons_self s rest))
    · rw [find_cons_miss c s rest h]
      simp only [Option.map_eq_none', List.mem_cons, forall_eq_or_imp]
      rw [ih]
      exact ⟨fun hr => ⟨h, hr⟩, fun hr => hr.2⟩

/-- C2: `session_state_find` returns the first record in Store order whose
matched flag is false and for which `session_state_cmp` holds, and returns no
match iff there is no such record; an earlier record that satisfies the
predicate but is already matched is skipped. -/
theorem C2_session_state_find_first_unmatched (c : ObClient) (st : List ObSessionState) :
    (∀ i, (session_state_find c st).1 = some i ↔
      ∃ s, st[i]? = some s ∧ s.matched = false ∧ session_state_cmp s c = true ∧
        ∀ j, j < i → ∀ t, st[j]? = some t →
          ¬ (t.matched = false ∧ session_state_cmp t c = true)) ∧
    ((session_state_find c st).1 = none ↔
      ∀ s ∈ st, ¬ (s.matched = false ∧ session_state_cmp s c = true)) ∧
    (∀ s t rest, s.matched = true → t.matched = false → session_state_cmp t c = true →
      (session_state_find c (s :: t :: rest)).1 = some 1) :=
  ⟨find_fst_eq_some_iff c st, find_fst_eq_none_iff c st, fun s t rest hs ht hc => by
    rw [find_cons_miss c s (t :: rest) (by simp [hs]), find_cons_hit c t rest ⟨ht, hc⟩]; rfl⟩

theorem find_snd_of_some (c : ObClient) (st : List ObSessionState) (i : Nat)
    (h : (session_state_find c st).1 = some i) :
    ∃ s, st[i]? = some s ∧ s.matched = false ∧
      (session_state_find c st).2 = st.set i { s with matched := true } := by
  induction st generalizing i with
  | nil => simp [find_nil] at h
  | cons s rest ih =>
    by_cases hs : s.matched = false ∧ session_state_cmp s c = true
    · rw [find_cons_hit c s rest hs] at h ⊢
      simp only [Option.some.injEq] at h
      subst h
      exact ⟨s, by simp, hs.1, by simp⟩
    · rw [find_cons_miss c s rest hs] at h ⊢
      simp only [Option.map_eq_some'] at h
      obtain ⟨k, hk, rfl⟩ := h
      obtain ⟨t, h1, h2, h3⟩ := ih k hk
      exact ⟨t, by simpa using h1, h2, by simp [h3]⟩

theorem find_snd_of_none (c : ObClient) (st : List ObSessionState)
    (h : (session_state_find c st).1 = none) :
    (session_state_find c st).2 = st := by
  induction st with
  | nil => rfl
  | cons s rest ih =>
    by_cases hs : s.matched = false ∧ session_state_cmp s c = true
    · rw [find_cons_hit c s rest hs] at h; cases h
    · rw [find_cons_miss c s rest hs] at h ⊢
      simp only [Option.map_eq_none'] at h
      simp [ih h]

/-- C3: a successful `session_state_find` changes exactly the matched flag of
the returned record, from false to true; all other records, all other fields of
the returned record, and the length and order of the Store are unchanged.  An
unsuccessful call leaves the Store unchanged. -/
theorem C3_session_state_find_frame (c : ObClient) (st : List ObSessionState) :
    (∀ i, (session_state_find c st).1 = some i →
      ∃ s, st[i]? = some s ∧ s.matched = false ∧
        (session_state_find c st).2 = st.set i { s with matched := true } ∧
        (session_state_find c st).2[i]? = some { s with matched := true } ∧
        (∀ j, j ≠ i → (session_state_find c st).2[j]? = st[j]?) ∧
        (session_state_find c st).2.length = st.length) ∧
    ((session_state_find c st).1 = none → (session_state_find c st).2 = st) := by
  refine ⟨fun i h => ?_, find_snd_of_none c st⟩
  obtain ⟨s, h1, h2, h3⟩ := find_snd_of_some c st i h
  have hi : i < st.length := by
    rcases Nat.lt_or_ge i st.length with hlt | hge
    · exact hlt
    · rw [List.getElem?_eq_none hge] at h1; cases h1
  refine ⟨s, h1, h2, h3, ?_, ?_, ?_⟩
  · rw [h3]; simp [hi]
  · intro j hj; rw [h3]; exact List.getElem?_set_ne (Ne.symm hj)
  · rw [h3]; simp

theorem find_all_cons (c : ObClient) (cs : List ObClient) (st : List ObSessionState) :
    session_state_find_all (c :: cs) st =
      ((session_state_find c st).1 :: (session_state_find_all cs (session_state_find c st).2).1,
       (session_state_find_all cs (session_state_find c st).2).2) := rfl

/-- Invariant of a run of lookups: the Store keeps its length, matched flags
only ever go from false to true, the returned positions are pairwise distinct,
each was unmatched in the initial Store and is matched in the final one. -/
theorem find_all_inv (cs : List ObClient) (st : List ObSessionState) :
    (session_state_find_all cs st).2.length = st.length ∧
    (∀ (i : Nat) (s : ObSessionState), st[i]? = some s →
      ∃ s', (session_state_find_all cs st).2[i]? = some s' ∧
        (s.matched = true → s'.matched = true)) ∧
    (session_state_find_all cs st).1.reduceOption.Nodup ∧
    (∀ i ∈ (session_state_find_all cs st).1.reduceOption,
      ∃ s, st[i]? = some s ∧ s.matched = false) ∧
    (∀ i ∈ (session_state_find_all cs st).1.reduceOption,
      ∃ s', (session_state_find_all cs st).2[i]? = some s' ∧ s'.matched = true) := by
  induction cs generalizing st with
  | nil =>
    refine ⟨rfl, fun i s h => ⟨s, h, id⟩, ?_, ?_, ?_⟩ <;>
      simp [session_state_find_all]
  | cons c cs ih =>
    rw [find_all_cons]
    cases hr : (session_state_find c st).1 with
    | none =>
      have h2 := find_snd_of_none c st hr
      rw [h2]
      simpa [List.reduceOption_cons_of_none] using ih st
    | some i =>
      obtain ⟨s, hs, hsm, h2⟩ := find_snd_of_some c st i hr
      have hi : i < st.length := by
        rcases Nat.lt_or_ge i st.length with hlt | hge
        · exact hlt
        · rw [List.getElem?_eq_none hge] at hs; cases hs
      rw [h2]
      obtain ⟨ih1, ih2, ih3, ih4, ih5⟩ := ih (st.set i { s with matched := true })
      have hset_i : (st.set i { s with matched := true })[i]? =
          some { s with matched := true } := by simp [hi]
      have hnot : i ∉ (session_state_find_all cs
          (st.set i { s with matched := true })).1.reduceOption := by
        intro hmem
        obtain ⟨t, ht, htm⟩ := ih4 i hmem
        rw [hset_i] at ht
        cases ht
        simp at htm
      simp only [List.reduceOption_cons_of_some]
      refine ⟨by simpa using ih1, ?_, List.nodup_cons.mpr ⟨hnot, ih3⟩, ?_, ?_⟩
      · intro k t hk
        by_cases hki : k = i
        · subst hki
          rw [hs] at hk
          cases hk
          obtain ⟨t', ht', hm'⟩ := ih2 k _ hset_i
          exact ⟨t', ht', fun _ => hm' rfl⟩
        · have : (st.set i { s with matched := true })[k]? = some t := by
            rw [List.getElem?_set_ne (Ne.symm hki)]; exact hk
          exact ih2 k t this
      · intro k hk
        rcases List.mem_cons.mp hk with rfl | hk'
        · exact ⟨s, hs, hsm⟩
        · obtain ⟨t, ht, htm⟩ := ih4 k hk'
          have hki : k ≠ i := fun h => hnot (h ▸ hk')
          rw [List.getElem?_set_ne (Ne.symm hki)] at ht
          exact ⟨t, ht, htm⟩
      · intro k hk
        rcases List.mem_cons.mp hk with rfl | hk'
        · obtain ⟨t', ht', hm'⟩ := ih2 k _ hset_i
          exact ⟨t', ht', hm' rfl⟩
        · exact ih5 k hk'

/-- C4: across a sequence of `session_state_find` calls no record is returned
by more than one call: the returned positions are pairwise distinct, a matched
flag never goes from true back to false, every returned record was unmatched
before the run (a matched record is never returned), and the number of
successful lookups is at most the number of records. -/
theorem C4_find_sequence_returns_each_record_once
    (cs : List ObClient) (st : List ObSessionState) :
    (session_state_find_all cs st).1.reduceOption.Nodup ∧
    (∀ (i : Nat) (s : ObSessionState), st[i]? = some s → s.matched = true →
      (∃ s', (session_state_find_all cs st).2[i]? = some s' ∧ s'.matched = true) ∧
      i ∉ (session_state_find_all cs st).1.reduceOption) ∧
    (session_state_find_all cs st).1.reduceOption.length ≤ st.length := by
  obtain ⟨_, h2, h3, h4, _⟩ := find_all_inv cs st
  refine ⟨h3, ?_, ?_⟩
  · intro i s hs hm
    refine ⟨?_, ?_⟩
    · obtain ⟨s', hs', himp⟩ := h2 i s hs
      exact ⟨s', hs', himp hm⟩
    · intro hmem
      obtain ⟨t, ht, htm⟩ := h4 i hmem
      rw [hs] at ht
      cases ht
      rw [hm] at htm
      cases htm
  · have hsub : (session_state_find_all cs st).1.reduceOption ⊆ List.range st.length := by
      intro i hi
      obtain ⟨t, ht, _⟩ := h4 i hi
      rw [List.mem_range]
      rcases Nat.lt_or_ge i st.length with hlt | hge
      · exact hlt
      · rw [List.getElem?_eq_none hge] at ht; cases ht
    have := (List.subperm_of_subset h3 hsub).length_le
    simpa using this

/-! ## Theorems: the duplicate-removal pass -/

theorem link_data_append_cons (pre suf : List Link) (a : Nat) (s : ObSessionState)
    (h : a ∉ pre.map Prod.fst) :
    link_data (pre ++ (a, s) :: suf) a = some s := by
  induction pre with
  | nil => simp [link_data]
  | cons p pre ih =>
    obtain ⟨b, t⟩ := p
    simp only [List.map_cons, List.mem_cons, not_or] at h
    simp only [List.cons_append, link_data]
    rw [if_neg (fun hba => h.1 hba.symm)]
    exact ih h.2

theorem g_list_next_append_cons (pre suf : List Link) (a : Nat) (s : ObSessionState)
    (h : a ∉ pre.map Prod.fst) :
    g_list_next (pre ++ (a, s) :: suf) a = some (suf.head?.map Prod.fst) := by
  induction pre with
  | nil => simp [g_list_next]
  | cons p pre ih =>
    obtain ⟨b, t⟩ := p
    simp only [List.map_cons, List.mem_cons, not_or] at h
    simp only [List.cons_append, g_list_next]
    rw [if_neg (fun hba => h.1 hba.symm)]
    exact ih h.2

theorem link_data_of_not_mem (l : List Link) (a : Nat) (h : a ∉ l.map Prod.fst) :
    link_data l a = none := by
  induction l with
  | nil => rfl
  | cons p l ih =>
    obtain ⟨b, t⟩ := p
    simp only [List.map_cons, List.mem_cons, not_or] at h
    simp only [link_data]
    rw [if_neg (fun hba => h.1 hba.symm)]
    exact ih h.2

theorem delete_link_of_not_mem (l : List Link) (a : Nat) (h : a ∉ l.map Prod.fst) :
    g_list_delete_link l a = l := by
  unfold g_list_delete_link
  rw [List.filter_eq_self]
  intro p hp
  have : p.1 ≠ a := fun hpa => h (hpa ▸ List.mem_map_of_mem Prod.fst hp)
  simpa using this

theorem delete_link_append_cons (pre suf : List Link) (a : Nat) (s : ObSessionState)
    (h : ((pre ++ (a, s) :: suf).map Prod.fst).Nodup) :
    g_list_delete_link (pre ++ (a, s) :: suf) a = pre ++ suf := by
  have h' : ((pre.map Prod.fst) ++ a :: (suf.map Prod.fst)).Nodup := by simpa using h
  have hpre : a ∉ pre.map Prod.fst := by
    intro hm
    have := (List.nodup_append.mp h').2.2
    exact this hm (List.mem_cons_self _ _)
  have hsuf : a ∉ suf.map Prod.fst := by
    have := (List.nodup_append.mp h').2.1
    exact (List.nodup_cons.mp this).1
  have e1 := delete_link_of_not_mem pre a hpre
  have e2 := delete_link_of_not_mem suf a hsuf
  unfold g_list_delete_link at e1 e2 ⊢
  simp [List.filter_append, List.filter_cons, e1, e2]

theorem dedup_inner_eq (s1 : ObSessionState) (suf : List Link) :
    ∀ (pre : List Link) (fuel : Nat) (founddup : Bool),
      ((pre ++ suf).map Prod.fst).Nodup → suf.length < fuel →
      dedup_inner s1 fuel (pre ++ suf) (suf.head?.map Prod.fst) founddup =
        .ok (pre ++ suf.filter (fun p => !dedup_match s1 p.2),
             founddup || suf.any (fun p => dedup_match s1 p.2)) := by
  induction suf with
  | nil =>
    intro pre fuel founddup _ hfuel
    cases fuel with
    | zero => simp at hfuel
    | succ f => simp [dedup_inner]
  | cons p suf ih =>
    intro pre fuel founddup hnd hfuel
    obtain ⟨a, s2⟩ := p
    cases fuel with
    | zero => simp at hfuel
    | succ f =>
      have h' : ((pre.map Prod.fst) ++ a :: (suf.map Prod.fst)).Nodup := by simpa using hnd
      have hpre : a ∉ pre.map Prod.fst := by
        intro hm
        exact (List.nodup_append.mp h').2.2 hm (List.mem_cons_self _ _)
      have hf : suf.length < f := by simpa using hfuel
      simp only [List.head?_cons, Option.map_some', dedup_inner,
        link_data_append_cons pre suf a s2 hpre, g_list_next_append_cons pre suf a s2 hpre]
      by_cases hm : dedup_match s1 s2 = true
      · rw [if_pos hm, delete_link_append_cons pre suf a s2 hnd]
        have hnd' : ((pre ++ suf).map Prod.fst).Nodup := by
          have : ((pre.map Prod.fst) ++ (suf.map Prod.fst)).Nodup := by
            refine List.nodup_append.mpr ⟨(List.nodup_append.mp h').1,
              (List.nodup_cons.mp (List.nodup_append.mp h').2.1).2, ?_⟩
            intro x hx hy
            exact (List.nodup_append.mp h').2.2 hx (List.mem_cons_of_mem _ hy)
          simpa using this
        rw [ih pre f true hnd' hf]
        simp [List.filter_cons, hm]
      · rw [if_neg hm]
        have hm' : dedup_match s1 s2 = false := by simpa using hm
        have e : pre ++ (a, s2) :: suf = (pre ++ [(a, s2)]) ++ suf := by simp
        rw [e, ih (pre ++ [(a, s2)]) f founddup (by rw [← e]; exact hnd) hf]
        simp [List.filter_cons, hm']

theorem nodup_append_singleton_move (pre suf : List Link) (p : Link)
    (h : ((pre ++ p :: suf).map Prod.fst).Nodup) :
    (((pre ++ [p]) ++ suf).map Prod.fst).Nodup := by
  simpa using h

theorem not_mem_pre_of_nodup (pre suf : List Link) (a : Nat) (s : ObSessionState)
    (h : ((pre ++ (a, s) :: suf).map Prod.fst).Nodup) : a ∉ pre.map Prod.fst := by
  have h' : ((pre.map Prod.fst) ++ a :: (suf.map Prod.fst)).Nodup := by simpa using h
  intro hm
  exact (List.nodup_append.mp h').2.2 hm (List.mem_cons_self _ _)

theorem nodup_filter_suffix (pre suf : List Link) (p : Link) (f : Link → Bool)
    (h : ((pre ++ p :: suf).map Prod.fst).Nodup) :
    ((pre ++ p :: suf.filter f).map Prod.fst).Nodup := by
  refine h.sublist (List.Sublist.map Prod.fst ?_)
  exact List.Sublist.append (List.Sublist.refl pre)
    (List.Sublist.cons₂ p (List.filter_sublist suf))

/-- One iteration of the outer loop at a live link: the inner loop removes the
later duplicates of the visited record, the visited record itself goes when
there was one, and the loop moves to the position saved before the inner loop
ran. -/
theorem dedup_outer_step (pre suf : List Link) (a : Nat) (s1 : ObSessionState) (f : Nat)
    (hnd : ((pre ++ (a, s1) :: suf).map Prod.fst).Nodup) :
    dedup_outer (f + 1) (pre ++ (a, s1) :: suf) (some a) =
      dedup_outer f
        (if suf.any (fun p => dedup_match s1 p.2) then
          pre ++ suf.filter (fun p => !dedup_match s1 p.2)
         else pre ++ (a, s1) :: suf)
        (suf.head?.map Prod.fst) := by
  have hpre := not_mem_pre_of_nodup pre suf a s1 hnd
  have e : pre ++ (a, s1) :: suf = (pre ++ [(a, s1)]) ++ suf := by simp
  have hnd' := nodup_append_singleton_move pre suf (a, s1) hnd
  have hinner := dedup_inner_eq s1 suf (pre ++ [(a, s1)])
    ((pre ++ (a, s1) :: suf).length + 1) false hnd' (by simp; omega)
  rw [← e] at hinner
  simp only [dedup_outer, link_data_append_cons pre suf a s1 hpre,
    g_list_next_append_cons pre suf a s1 hpre, hinner, Bool.false_or]
  by_cases hany : suf.any (fun p => dedup_match s1 p.2) = true
  · rw [if_pos hany, if_pos hany]
    have : pre ++ [(a, s1)] ++ suf.filter (fun p => !dedup_match s1 p.2) =
        pre ++ (a, s1) :: suf.filter (fun p => !dedup_match s1 p.2) := by simp
    rw [this, delete_link_append_cons pre _ a s1 (nodup_filter_suffix pre suf (a, s1) _ hnd)]
  · rw [if_neg hany, if_neg hany]
    have hfilter : suf.filter (fun p => !dedup_match s1 p.2) = suf := by
      rw [List.filter_eq_self]
      intro q hq
      have hany' : suf.any (fun p => dedup_match s1 p.2) = false := by simpa using hany
      have := List.any_eq_false.mp hany' q hq
      simpa using this
    rw [hfilter]
    simp

/-- When no record of the list is a duplicate of a later one, the pass visits
every link, deletes nothing and returns the list as it was. -/
theorem dedup_outer_of_pairwise (suf : List Link) :
    ∀ (pre : List Link) (fuel : Nat),
      ((pre ++ suf).map Prod.fst).Nodup → suf.length < fuel →
      suf.Pairwise (fun p q => dedup_match p.2 q.2 = false) →
      dedup_outer fuel (pre ++ suf) (suf.head?.map Prod.fst) = .ok (pre ++ suf) := by
  induction suf with
  | nil =>
    intro pre fuel _ hfuel _
    cases fuel with
    | zero => simp at hfuel
    | succ f => simp [dedup_outer]
  | cons p suf ih =>
    intro pre fuel hnd hfuel hpw
    obtain ⟨a, s1⟩ := p
    cases fuel with
    | zero => simp at hfuel
    | succ f =>
      have hf : suf.length < f := by simpa using hfuel
      obtain ⟨hhead, htail⟩ := List.pairwise_cons.mp hpw
      have hany : suf.any (fun p => dedup_match s1 p.2) = false := by
        rw [List.any_eq_false]
        intro q hq
        simp [hhead q hq]
      simp only [List.head?_cons, Option.map_some']
      rw [dedup_outer_step pre suf a s1 f hnd, hany]
      simp only [Bool.false_eq_true, if_false]
      have e : pre ++ (a, s1) :: suf = (pre ++ [(a, s1)]) ++ suf := by simp
      rw [e]
      exact ih (pre ++ [(a, s1)]) f (nodup_append_singleton_move pre suf (a, s1) hnd) hf htail

theorem number_links_map_snd (l : List ObSessionState) :
    ∀ base, (number_links base l).map Prod.snd = l := by
  induction l with
  | nil => intro base; rfl
  | cons s l ih => intro base; simp [number_links, ih]

theorem number_links_length (l : List ObSessionState) :
    ∀ base, (number_links base l).length = l.length := by
  induction l with
  | nil => intro base; rfl
  | cons s l ih => intro base; simp [number_links, ih]

theorem number_links_ge (l : List ObSessionState) :
    ∀ base, ∀ a ∈ (number_links base l).map Prod.fst, base ≤ a := by
  induction l with
  | nil => intro base a h; simp [number_links] at h
  | cons s l ih =>
    intro base a h
    simp only [number_links, List.map_cons, List.mem_cons] at h
    rcases h with rfl | h
    · exact Nat.le_refl _
    · exact Nat.le_of_succ_le (ih (base + 1) a h)

theorem number_links_nodup (l : List ObSessionState) :
    ∀ base, ((number_links base l).map Prod.fst).Nodup := by
  induction l with
  | nil => intro base; simp [number_links]
  | cons s l ih =>
    intro base
    simp only [number_links, List.map_cons, List.nodup_cons]
    refine ⟨fun h => ?_, ih (base + 1)⟩
    have := number_links_ge l (base + 1) base h
    omega

theorem number_links_pairwise (R : ObSessionState → ObSessionState → Prop)
    (l : List ObSessionState) :
    ∀ base, l.Pairwise R → (number_links base l).Pairwise (fun p q => R p.2 q.2) := by
  induction l with
  | nil => intro base _; simp [number_links]
  | cons s l ih =>
    intro base h
    obtain ⟨h1, h2⟩ := List.pairwise_cons.mp h
    simp only [number_links, List.pairwise_cons]
    refine ⟨fun q hq => h1 q.2 ?_, ih (base + 1) h2⟩
    have := List.mem_map_of_mem Prod.snd hq
    rwa [number_links_map_snd] at this

/-- On a list in which no record is a duplicate of a later one the
duplicate-removal pass terminates without a fault and keeps every record. -/
theorem remove_duplicates_of_pairwise (saved : List ObSessionState)
    (h : saved.Pairwise (fun s t => dedup_match s t = false)) :
    remove_duplicates saved = .ok saved := by
  unfold remove_duplicates
  have := dedup_outer_of_pairwise (number_links 0 saved) [] (saved.length + 1)
    (by simpa using number_links_nodup saved 0)
    (by rw [number_links_length]; omega)
    (number_links_pairwise _ saved 0 h)
  simp only [List.nil_append] at this
  rw [this]
  simp [number_links_map_snd]

/-- When the first two records of the list are duplicates of each other, the
inner loop frees the link that the outer loop has saved as its next position,
and the next outer iteration reads that freed link. -/
theorem remove_duplicates_adjacent (s1 s2 : ObSessionState) (rest : List ObSessionState)
    (h : dedup_match s1 s2 = true) :
    remove_duplicates (s1 :: s2 :: rest) = .error .use_after_free := by
  unfold remove_duplicates
  have hnd : (([] ++ (0, s1) :: (1, s2) :: number_links 2 rest).map Prod.fst).Nodup := by
    simpa [number_links] using number_links_nodup (s1 :: s2 :: rest) 0
  have hgone : (1 : Nat) ∉
      ((number_links 2 rest).filter (fun p => !dedup_match s1 p.2)).map Prod.fst := by
    intro hm
    obtain ⟨p, hp, hp1⟩ := List.mem_map.mp hm
    have := number_links_ge rest 2 p.1 (List.mem_map_of_mem Prod.fst (List.mem_of_mem_filter hp))
    omega
  have hstep := dedup_outer_step [] ((1, s2) :: number_links 2 rest) 0 s1
    (rest.length + 2) hnd
  simp only [List.nil_append, List.any_cons, h, Bool.true_or, if_true, List.filter_cons,
    Bool.not_true, Bool.false_eq_true, if_false, List.head?_cons, Option.map_some'] at hstep
  have hl : number_links 0 (s1 :: s2 :: rest) = (0, s1) :: (1, s2) :: number_links 2 rest := by
    simp [number_links]
  rw [hl]
  simp only [List.length_cons, List.head?_cons, Option.map_some']
  rw [hstep]
  simp only [dedup_outer, link_data_of_not_mem _ 1 hgone]

/-! ## Theorems: integers as text -/

theorem digit_char_props (d : Nat) (h : d < 10) :
    (digit_char d).isDigit = true ∧ (digit_char d).toNat - 48 = d ∧
    isspace (digit_char d) = false ∧ digit_char d ≠ '-' ∧ digit_char d ≠ '+' := by
  interval_cases d <;> decide

theorem atoi_digits_dec_digits (fuel : Nat) :
    ∀ (n : Nat) (acc : List Char), n < 10 ^ fuel → ∀ a : Nat,
      ∃ k, atoi_digits a (dec_digits fuel n acc) = atoi_digits (a * 10 ^ k + n) acc := by
  induction fuel with
  | zero =>
    intro n acc h a
    have : n = 0 := by simpa using h
    subst this
    exact ⟨0, by simp [dec_digits]⟩
  | succ f ih =>
    intro n acc h a
    by_cases hn : n < 10
    · refine ⟨1, ?_⟩
      obtain ⟨h1, h2, -⟩ := digit_char_props n hn
      simp [dec_digits, hn, atoi_digits, h1, h2]
    · have hdiv : n / 10 < 10 ^ f := by
        rw [Nat.div_lt_iff_lt_mul (by norm_num)]
        calc n < 10 ^ (f + 1) := h
          _ = 10 ^ f * 10 := by ring
      obtain ⟨k, hk⟩ := ih (n / 10) (digit_char (n % 10) :: acc) hdiv a
      obtain ⟨h1, h2, -⟩ := digit_char_props (n % 10) (Nat.mod_lt _ (by norm_num))
      refine ⟨k + 1, ?_⟩
      simp only [dec_digits, if_neg hn, hk, atoi_digits, h1, if_true, h2]
      congr 1
      have := Nat.div_add_mod n 10
      rw [pow_succ]
      nlinarith [this]

theorem dec_digits_head (fuel : Nat) :
    ∀ (n : Nat) (acc : List Char),
      ∃ d tl, d < 10 ∧ dec_digits (fuel + 1) n acc = digit_char d :: tl := by
  induction fuel with
  | zero =>
    intro n acc
    by_cases hn : n < 10
    · exact ⟨n, acc, hn, by simp [dec_digits, hn]⟩
    · exact ⟨n % 10, acc, Nat.mod_lt _ (by norm_num), by simp [dec_digits, hn]⟩
  | succ f ih =>
    intro n acc
    by_cases hn : n < 10
    · exact ⟨n, acc, hn, by simp [dec_digits, hn]⟩
    · obtain ⟨d, tl, hd, htl⟩ := ih (n / 10) (digit_char (n % 10) :: acc)
      refine ⟨d, tl, hd, ?_⟩
      rw [dec_digits, if_neg hn]
      exact htl

theorem atoi_digits_nat (n : Nat) : atoi_digits 0 (dec_digits (n + 1) n []) = n := by
  have hlt : n < 10 ^ (n + 1) :=
    lt_of_lt_of_le (Nat.lt_pow_self (by norm_num : 1 < 10) n)
      (Nat.pow_le_pow_right (by norm_num) (Nat.le_succ n))
  obtain ⟨k, hk⟩ := atoi_digits_dec_digits (n + 1) n [] hlt 0
  rw [hk]
  simp [atoi_digits]

/-- Reading back with `atoi` what `printf("%d")` printed gives the number
printed. -/
theorem atoi_printf_d (i : Int) : atoi (printf_d i) = i := by
  obtain ⟨d, tl, hd, htl⟩ := dec_digits_head i.natAbs i.natAbs []
  obtain ⟨-, -, hsp, hminus, hplus⟩ := digit_char_props d hd
  have hval := atoi_digits_nat i.natAbs
  unfold printf_d atoi
  by_cases hneg : i < 0
  · rw [if_pos hneg]
    have hm : isspace '-' = false := by decide
    simp only [List.dropWhile_cons, hm]
    simp only [Bool.false_eq_true, if_false, hval]
    omega
  · rw [if_neg hneg]
    simp only [htl, List.dropWhile_cons, hsp, Bool.false_eq_true, if_false]
    split
    · rename_i ds heq
      simp only [List.cons.injEq] at heq
      exact absurd heq.1 hminus
    · rename_i ds heq
      simp only [List.cons.injEq] at heq
      exact absurd heq.1 hplus
    · rw [← htl, hval]
      omega

theorem parse_find_node_cons_eq (tag : String) (n : XmlNode) (next : List XmlNode)
    (h : n.name = tag) : parse_find_node tag (n :: next) = n :: next := by
  simp [parse_find_node, strcmp_eq_zero_iff, h]

theorem parse_find_node_cons_ne (tag : String) (n : XmlNode) (next : List XmlNode)
    (h : n.name ≠ tag) : parse_find_node tag (n :: next) = parse_find_node tag next := by
  simp [parse_find_node, strcmp_eq_zero_iff, h]

@[simp] theorem xml_leaf_name (n t : String) : (xml_leaf n t).name = n := rfl

@[simp] theorem xml_leaf_content (n t : String) : (xml_leaf n t).content = t := rfl

theorem save_window_find_required (sd : ObSMSaveData) (c : ObClient) (key : String × String) :
    (∃ tl, parse_find_node "name" (save_window sd c key).children =
      xml_leaf "name" c.name :: tl) ∧
    (∃ tl, parse_find_node "class" (save_window sd c key).children =
      xml_leaf "class" c.class_ :: tl) ∧
    (∃ tl, parse_find_node "role" (save_window sd c key).children =
      xml_leaf "role" c.role :: tl) ∧
    (∃ tl, parse_find_node "windowtype" (save_window sd c key).children =
      xml_leaf "windowtype" (printf_d c.type) :: tl) ∧
    (∃ tl, parse_find_node "desktop" (save_window sd c key).children =
      xml_leaf "desktop" (printf_d (guint_as_gint c.desktop)) :: tl) ∧
    (∃ tl, parse_find_node "x" (save_window sd c key).children =
      xml_leaf "x" (printf_d (save_geometry c).1) :: tl) ∧
    (∃ tl, parse_find_node "y" (save_window sd c key).children =
      xml_leaf "y" (printf_d (save_geometry c).2.1) :: tl) ∧
    (∃ tl, parse_find_node "width" (save_window sd c key).children =
      xml_leaf "width" (printf_d (save_geometry c).2.2.1) :: tl) ∧
    (∃ tl, parse_find_node "height" (save_window sd c key).children =
      xml_leaf "height" (printf_d (save_geometry c).2.2.2) :: tl) := by
  refine ⟨?_, ?_, ?_, ?_, ?_, ?_, ?_, ?_, ?_⟩ <;>
    simp [save_window, XmlNode.children, parse_find_node, strcmp_eq_zero_iff]

theorem find_each_node_cons_eq (tag : String) (n : XmlNode) (next : List XmlNode)
    (h : n.name = tag) : find_each_node tag (n :: next) = n :: find_each_node tag next := by
  simp [find_each_node, strcmp_eq_zero_iff, h]

theorem find_each_node_cons_ne (tag : String) (n : XmlNode) (next : List XmlNode)
    (h : n.name ≠ tag) : find_each_node tag (n :: next) = find_each_node tag next := by
  simp [find_each_node, strcmp_eq_zero_iff, h]

/-- The loop over `parse_find_node` visits the first node found and then goes
on from the node after it. -/
theorem find_each_node_eq_loop (tag : String) (l : List XmlNode) :
    find_each_node tag l =
      match parse_find_node tag l with
      | [] => []
      | n :: next => n :: find_each_node tag next := by
  induction l with
  | nil => rfl
  | cons n next ih =>
    by_cases h : n.name = tag
    · rw [find_each_node_cons_eq tag n next h, parse_find_node_cons_eq tag n next h]
    · rw [find_each_node_cons_ne tag n next h, parse_find_node_cons_ne tag n next h, ih]

theorem find_each_node_append (tag : String) (l1 l2 : List XmlNode) :
    find_each_node tag (l1 ++ l2) = find_each_node tag l1 ++ find_each_node tag l2 := by
  induction l1 with
  | nil => rfl
  | cons n next ih =>
    by_cases h : n.name = tag
    · simp [find_each_node_cons_eq tag n _ h, ih]
    · simp [find_each_node_cons_ne tag n _ h, ih]

theorem load_windows_cons_window (n : XmlNode) (next : List XmlNode)
    (saved : List ObSessionState) (h : n.name = "window") :
    load_windows (n :: next) saved =
      load_windows next (match load_window n with
        | some state => saved ++ [state]
        | none => saved) := by
  unfold load_windows
  rw [find_each_node_cons_eq "window" n next h]
  rfl

theorem load_desktop_state_saved (node : XmlNode) (g : SessionGlobals) :
    (load_desktop_state node g).session_saved_state = g.session_saved_state := by
  unfold load_desktop_state
  simp only []
  split <;> split <;> split <;> split <;> rfl

/-- C5 (code defect): when the first two loaded records are duplicates of each
other (same key, name, class and role), the duplicate-removal pass does not
produce a Store.  The inner loop frees the link that the outer loop saved as
its next position, and the next outer iteration reads that freed link. -/
theorem C5_adjacent_duplicates_use_after_free (s1 s2 : ObSessionState)
    (rest : List ObSessionState) (h : dedup_match s1 s2 = true) :
    remove_duplicates (s1 :: s2 :: rest) = .error .use_after_free :=
  remove_duplicates_adjacent s1 s2 rest h

theorem C5_adjacent_duplicates_witness :
    dedup_match (sample_state (some "A") none "term" "Term" "main" 0)
      (sample_state (some "A") none "term" "Term" "main" 0) = true ∧
    remove_duplicates
      [sample_state (some "A") none "term" "Term" "main" 0,
       sample_state (some "A") none "term" "Term" "main" 0] = .error .use_after_free :=
  ⟨by decide, C5_adjacent_duplicates_use_after_free _ _ [] (by decide)⟩

theorem sample_window_name (attrs : List (String × String)) (name class_ role : String)
    (type : Int) : (sample_window attrs name class_ role type).name = "window" := rfl

theorem load_window_sample_window_id (i name class_ role : String) (type : Int) :
    ∃ s, load_window (sample_window [("id", i)] name class_ role type) = some s ∧
      s.id = some i ∧ s.command = none ∧ s.name = name ∧ s.class_ = class_ ∧
      s.role = role ∧ s.type = type := by
  cases h : load_window (sample_window [("id", i)] name class_ role type) with
  | none =>
    simp [load_window, sample_window, parse_attr_string, XmlNode.attrs, XmlNode.children,
      parse_find_node, strcmp_eq_zero_iff] at h
  | some s =>
    simp only [load_window, sample_window, parse_attr_string, XmlNode.attrs, XmlNode.children,
      parse_find_node, strcmp_eq_zero_iff, List.find?, xml_leaf_name, decide_True,
      Option.map_some', String.reduceEq, if_false, if_true, Option.some.injEq, ↓reduceIte,
      parse_string, parse_int, xml_leaf_content, atoi_printf_d] at h
    subst h
    exact ⟨_, rfl, rfl, rfl, rfl, rfl, rfl, rfl⟩

/-- C6 (code defect): a session file whose only window entries are two
entries with the same id, name, class and role, of equal or different types,
does not load into a Store without the two records: the duplicate removal
reads a freed list link. -/
theorem C6_two_identical_entries_use_after_free (i name class_ role : String)
    (type1 type2 : Int) :
    session_load_file
      (some (.mk "openbox_session" [] ""
        [ sample_window [("id", i)] name class_ role type1,
          sample_window [("id", i)] name class_ role type2 ]))
      session_initial = .error .use_after_free := by
  obtain ⟨s1, h1, hi1, hc1, hn1, hk1, hr1, -⟩ :=
    load_window_sample_window_id i name class_ role type1
  obtain ⟨s2, h2, hi2, hc2, hn2, hk2, hr2, -⟩ :=
    load_window_sample_window_id i name class_ role type2
  have hm : dedup_match s1 s2 = true := by
    simp [dedup_match, hi1, hi2, hn1, hn2, hk1, hk2, hr1, hr2, strcmp_eq_zero_iff]
  have hload : load_windows
      [ sample_window [("id", i)] name class_ role type1,
        sample_window [("id", i)] name class_ role type2 ] [] = [s1, s2] := by
    rw [load_windows_cons_window _ _ _ (sample_window_name _ _ _ _ _), h1,
      load_windows_cons_window _ _ _ (sample_window_name _ _ _ _ _), h2]
    rfl
  simp only [session_load_file, parse_load, XmlNode.name, strcmp_eq_zero_iff, if_true,
    load_desktop_state_saved, XmlNode.children, session_initial, hload,
    remove_duplicates_adjacent s1 s2 [] hm]

/-- The four geometry texts of a written window entry are the decimal texts of
the values computed by `save_geometry`. -/
theorem save_window_geometry_text (sd : ObSMSaveData) (c : ObClient) (key : String × String) :
    child_text "x" (save_window sd c key) = some (printf_d (save_geometry c).1) ∧
    child_text "y" (save_window sd c key) = some (printf_d (save_geometry c).2.1) ∧
    child_text "width" (save_window sd c key) = some (printf_d (save_geometry c).2.2.1) ∧
    child_text "height" (save_window sd c key) = some (printf_d (save_geometry c).2.2.2) := by
  obtain ⟨-, -, -, -, -, ⟨t6, h6⟩, ⟨t7, h7⟩, ⟨t8, h8⟩, ⟨t9, h9⟩⟩ :=
    save_window_find_required sd c key
  simp [child_text, h6, h7, h8, h9]

/-- C7 (code defect): for a written client that is fullscreen and not
maximized, the emitted x, width and height are those of
`pre_fullscreen_area`, but the emitted y is `pre_fullscreen_area.x`, not
`pre_fullscreen_area.y`. -/
theorem C7_fullscreen_emits_x_for_y (sd : ObSMSaveData) (c : ObClient) (key : String × String)
    (hfs : c.fullscreen = true) (hh : c.max_horz = false) (hv : c.max_vert = false) :
    child_text "x" (save_window sd c key) = some (printf_d c.pre_fullscreen_area.x) ∧
    child_text "y" (save_window sd c key) = some (printf_d c.pre_fullscreen_area.x) ∧
    child_text "width" (save_window sd c key) = some (printf_d c.pre_fullscreen_area.width) ∧
    child_text "height" (save_window sd c key) =
      some (printf_d c.pre_fullscreen_area.height) := by
  have h := save_window_geometry_text sd c key
  simpa [save_geometry, hfs, hh, hv] using h

theorem C7_fullscreen_emits_x_for_y_witness :
    (child_text "y"
        (save_window { focus_client := none, desktop := 0 }
          { sample_client 1 (some "A") none "term" "Term" "main" 0 with fullscreen := true }
          ("id", "A")) = some "30" ∧
      printf_d
        ({ sample_client 1 (some "A") none "term" "Term" "main" 0 with
            fullscreen := true }).pre_fullscreen_area.y = "40") :=
  ⟨(C7_fullscreen_emits_x_for_y { focus_client := none, desktop := 0 }
      { sample_client 1 (some "A") none "term" "Term" "main" 0 with fullscreen := true }
      ("id", "A") rfl rfl rfl).2.1.trans (by decide), by decide⟩

/-- C8: for a written client that is not fullscreen, the emitted x and width
are those of `pre_max_area` when `max_horz` is set and those of the current
area otherwise, and the emitted y and height are those of `pre_max_area` when
`max_vert` is set and those of the current area otherwise; so horizontal-only,
vertical-only, both and neither give the four combinations. -/
theorem C8_maximize_substitutes_per_axis (sd : ObSMSaveData) (c : ObClient)
    (key : String × String) (hfs : c.fullscreen = false) :
    (c.max_horz = true → c.max_vert = false →
      child_text "x" (save_window sd c key) = some (printf_d c.pre_max_area.x) ∧
      child_text "width" (save_window sd c key) = some (printf_d c.pre_max_area.width) ∧
      child_text "y" (save_window sd c key) = some (printf_d c.area.y) ∧
      child_text "height" (save_window sd c key) = some (printf_d c.area.height)) ∧
    (c.max_horz = false → c.max_vert = true →
      child_text "x" (save_window sd c key) = some (printf_d c.area.x) ∧
      child_text "width" (save_window sd c key) = some (printf_d c.area.width) ∧
      child_text "y" (save_window sd c key) = some (printf_d c.pre_max_area.y) ∧
      child_text "height" (save_window sd c key) = some (printf_d c.pre_max_area.height)) ∧
    (c.max_horz = true → c.max_vert = true →
      child_text "x" (save_window sd c key) = some (printf_d c.pre_max_area.x) ∧
      child_text "width" (save_window sd c key) = some (printf_d c.pre_max_area.width) ∧
      child_text "y" (save_window sd c key) = some (printf_d c.pre_max_area.y) ∧
      child_text "height" (save_window sd c key) = some (printf_d c.pre_max_area.height)) ∧
    (c.max_horz = false → c.max_vert = false →
      child_text "x" (save_window sd c key) = some (printf_d c.area.x) ∧
      child_text "width" (save_window sd c key) = some (printf_d c.area.width) ∧
      child_text "y" (save_window sd c key) = some (printf_d c.area.y) ∧
      child_text "height" (save_window sd c key) = some (printf_d c.area.height)) := by
  obtain ⟨hx, hy, hw, hh⟩ := save_window_geometry_text sd c key
  refine ⟨?_, ?_, ?_, ?_⟩ <;>
    · intro h1 h2
      rw [hx, hy, hw, hh]
      simp [save_geometry, hfs, h1, h2]

theorem C8_maximize_substitutes_per_axis_witness :
    ({ sample_client 1 (some "A") none "term" "Term" "main" 0 with
        max_horz := true }).fullscreen = false ∧
    child_text "x"
      (save_window { focus_client := none, desktop := 0 }
        { sample_client 1 (some "A") none "term" "Term" "main" 0 with max_horz := true }
        ("id", "A")) = some "50" ∧
    child_text "y"
      (save_window { focus_client := none, desktop := 0 }
        { sample_client 1 (some "A") none "term" "Term" "main" 0 with max_horz := true }
        ("id", "A")) = some "20" :=
  ⟨rfl,
   ((C8_maximize_substitutes_per_axis { focus_client := none, desktop := 0 }
      { sample_client 1 (some "A") none "term" "Term" "main" 0 with max_horz := true }
      ("id", "A") rfl).1 rfl rfl).1.trans (by decide),
   ((C8_maximize_substitutes_per_axis { focus_client := none, desktop := 0 }
      { sample_client 1 (some "A") none "term" "Term" "main" 0 with max_horz := true }
      ("id", "A") rfl).1 rfl rfl).2.2.1.trans (by decide)⟩

/-! ## Theorems: round trip and malformed entries -/

theorem load_window_of_malformed (node : XmlNode) (h : window_malformed node) :
    load_window node = none := by
  rcases h with ⟨h1, h2⟩ | ⟨tag, htag, hmiss⟩
  · simp [load_window, h1, h2]
  · have hnil : parse_find_node tag node.children = [] := by
      simpa [has_child] using hmiss
    simp only [List.mem_cons, List.mem_singleton, List.not_mem_nil, or_false] at htag
    unfold load_window
    rcases htag with rfl | rfl | rfl | rfl | rfl | rfl | rfl | rfl | rfl <;>
      simp only [hnil] <;> (repeat' split) <;> rfl

/-- Looking up a tag other than that of a node gives the same result, up to
the siblings that follow the node found, whether or not the node is in the
list. -/
theorem parse_find_node_skip (tag : String) (bad : XmlNode) (post : List XmlNode)
    (h : bad.name ≠ tag) (pre : List XmlNode) :
    (parse_find_node tag (pre ++ bad :: post) = [] ∧ parse_find_node tag (pre ++ post) = []) ∨
    ∃ n t1 t2, parse_find_node tag (pre ++ bad :: post) = n :: t1 ∧
      parse_find_node tag (pre ++ post) = n :: t2 := by
  induction pre with
  | nil =>
    simp only [List.nil_append]
    rw [parse_find_node_cons_ne tag bad post h]
    cases hp : parse_find_node tag post with
    | nil => exact Or.inl ⟨rfl, rfl⟩
    | cons n t => exact Or.inr ⟨n, t, t, rfl, rfl⟩
  | cons m pre ih =>
    by_cases hm : m.name = tag
    · simp only [List.cons_append]
      rw [parse_find_node_cons_eq tag m _ hm, parse_find_node_cons_eq tag m _ hm]
      exact Or.inr ⟨m, _, _, rfl, rfl⟩
    · simp only [List.cons_append]
      rw [parse_find_node_cons_ne tag m _ hm, parse_find_node_cons_ne tag m _ hm]
      exact ih

theorem load_desktop_state_skip (name content : String) (attrs : List (String × String))
    (pre post : List XmlNode) (bad : XmlNode) (hname : bad.name = "window")
    (g : SessionGlobals) :
    load_desktop_state (.mk name attrs content (pre ++ bad :: post)) g =
      load_desktop_state (.mk name attrs content (pre ++ post)) g := by
  have h1 := parse_find_node_skip "desktop" bad post (by rw [hname]; decide) pre
  have h2 := parse_find_node_skip "numdesktops" bad post (by rw [hname]; decide) pre
  have h3 := parse_find_node_skip "desktoplayout" bad post (by rw [hname]; decide) pre
  have h4 := parse_find_node_skip "desktopnames" bad post (by rw [hname]; decide) pre
  unfold load_desktop_state
  simp only [XmlNode.children]
  rcases h1 with ⟨a1, b1⟩ | ⟨n1, s1, t1, a1, b1⟩ <;>
  rcases h2 with ⟨a2, b2⟩ | ⟨n2, s2, t2, a2, b2⟩ <;>
  rcases h3 with ⟨a3, b3⟩ | ⟨n3, s3, t3, a3, b3⟩ <;>
  rcases h4 with ⟨a4, b4⟩ | ⟨n4, s4, t4, a4, b4⟩ <;>
  simp only [a1, b1, a2, b2, a3, b3, a4, b4]

theorem load_windows_skip_malformed (pre post : List XmlNode) (bad : XmlNode)
    (hname : bad.name = "window") (hbad : load_window bad = none)
    (saved : List ObSessionState) :
    load_windows (pre ++ bad :: post) saved = load_windows (pre ++ post) saved := by
  unfold load_windows
  rw [find_each_node_append, find_each_node_append, find_each_node_cons_eq _ _ _ hname,
    List.foldl_append, List.foldl_append, List.foldl_cons, hbad]

/-- C10: a `<window>` entry that lacks both the `id` and `command` attributes,
or lacks one of the child elements name, class, role, windowtype, desktop, x,
y, width, height, contributes no record, and the result of loading the document
is the result of loading the document without that entry. -/
theorem C10_malformed_entry_is_dropped (pre post : List XmlNode) (bad : XmlNode)
    (hname : bad.name = "window") (hbad : window_malformed bad) :
    load_window bad = none ∧
    (∀ saved, load_windows (pre ++ bad :: post) saved = load_windows (pre ++ post) saved) ∧
    (∀ (attrs : List (String × String)) (content : String) (g : SessionGlobals),
      session_load_file (some (.mk "openbox_session" attrs content (pre ++ bad :: post))) g =
        session_load_file (some (.mk "openbox_session" attrs content (pre ++ post))) g) := by
  have hnone := load_window_of_malformed bad hbad
  refine ⟨hnone, load_windows_skip_malformed pre post bad hname hnone, ?_⟩
  intro attrs content g
  simp only [session_load_file, parse_load, XmlNode.name, strcmp_eq_zero_iff, if_true]
  rw [load_desktop_state_skip _ _ _ pre post bad hname g]
  simp only [XmlNode.children]
  rw [load_windows_skip_malformed pre post bad hname hnone]

theorem C10_malformed_entry_is_dropped_witness :
    sample_window_without_role.name = "window" ∧
    window_malformed sample_window_without_role ∧
    session_load_file
      (some (.mk "openbox_session" [] ""
        ([sample_window [("id", "A")] "term" "Term" "main" 0] ++
          sample_window_without_role ::
          [sample_window [("command", "xterm")] "term" "Term" "main" 0])))
      session_initial =
    session_load_file
      (some (.mk "openbox_session" [] ""
        ([sample_window [("id", "A")] "term" "Term" "main" 0] ++
          [sample_window [("command", "xterm")] "term" "Term" "main" 0])))
      session_initial :=
  ⟨rfl, Or.inr ⟨"role", by decide, by decide⟩,
   (C10_malformed_entry_is_dropped [sample_window [("id", "A")] "term" "Term" "main" 0]
      [sample_window [("command", "xterm")] "term" "Term" "main" 0]
      sample_window_without_role rfl (Or.inr ⟨"role", by decide, by decide⟩)).2.2
     [] "" session_initial⟩

/-! ## Theorems: what the duplicate removal computes when it faults nowhere -/

theorem dedup_match_iff_key (s t : ObSessionState) (hs : state_well_formed s)
    (ht : state_well_formed t) :
    dedup_match s t = true ↔ dedup_key s = dedup_key t := by
  unfold dedup_match dedup_key
  rcases hs with ⟨hs1, hs2⟩ | ⟨hs1, hs2⟩ <;> rcases ht with ⟨ht1, ht2⟩ | ⟨ht1, ht2⟩
  · obtain ⟨i, hi⟩ := Option.isSome_iff_exists.mp hs1
    obtain ⟨j, hj⟩ := Option.isSome_iff_exists.mp ht1
    simp [hi, hj, hs2, ht2, strcmp_eq_zero_iff, and_assoc]
  · obtain ⟨i, hi⟩ := Option.isSome_iff_exists.mp hs1
    obtain ⟨j, hj⟩ := Option.isSome_iff_exists.mp ht2
    simp [hi, hj, hs2, ht1]
  · obtain ⟨i, hi⟩ := Option.isSome_iff_exists.mp hs2
    obtain ⟨j, hj⟩ := Option.isSome_iff_exists.mp ht1
    simp [hi, hj, hs1, ht2]
  · obtain ⟨i, hi⟩ := Option.isSome_iff_exists.mp hs2
    obtain ⟨j, hj⟩ := Option.isSome_iff_exists.mp ht2
    simp [hi, hj, hs1, ht1, strcmp_eq_zero_iff, and_assoc]

theorem without_collisions_cons_of_fresh (s : ObSessionState) (l : List ObSessionState)
    (h : ∀ t ∈ l, dedup_key t ≠ dedup_key s) :
    without_collisions (s :: l) = s :: without_collisions l := by
  unfold without_collisions
  have hcount : l.countP (fun t => decide (dedup_key t = dedup_key s)) = 0 := by
    rw [List.countP_eq_zero]
    intro t ht
    simpa using h t ht
  rw [List.filter_cons]
  simp only [List.countP_cons, hcount, decide_True, if_true, zero_add]
  congr 1
  apply List.filter_congr
  intro t ht
  have : dedup_key s ≠ dedup_key t := fun e => h t ht e.symm
  simp [this]

theorem without_collisions_cons_of_dup (s : ObSessionState) (l : List ObSessionState)
    (h : ∃ t ∈ l, dedup_key t = dedup_key s) :
    without_collisions (s :: l) =
      without_collisions (l.filter (fun t => !decide (dedup_key t = dedup_key s))) := by
  obtain ⟨t0, ht0, hk0⟩ := h
  unfold without_collisions
  have hpos : 0 < l.countP (fun t => decide (dedup_key t = dedup_key s)) :=
    List.countP_pos_iff.mpr ⟨t0, ht0, by simpa using hk0⟩
  rw [List.filter_cons]
  have hne : ¬ (List.countP (fun t => decide (dedup_key t = dedup_key s)) (s :: l) = 1) := by
    simp only [List.countP_cons, decide_True, if_true]
    omega
  simp only [hne, decide_False, Bool.false_eq_true, if_false]
  rw [List.filter_filter]
  apply List.filter_congr
  intro t ht
  by_cases hts : dedup_key t = dedup_key s
  · have h2 : 2 ≤ List.countP (fun u => decide (dedup_key u = dedup_key t)) (s :: l) := by
      simp only [List.countP_cons, hts, decide_True, if_true]
      have : 0 < l.countP (fun u => decide (dedup_key u = dedup_key s)) := hpos
      have h1 : 0 < l.countP (fun u => decide (dedup_key u = dedup_key t)) :=
        List.countP_pos_iff.mpr ⟨t, ht, by simp⟩
      rw [hts] at h1
      omega
    have : ¬ List.countP (fun u => decide (dedup_key u = dedup_key t)) (s :: l) = 1 := by omega
    simp only [this, decide_False, hts, decide_True, Bool.not_true, Bool.false_and, hne,
      Bool.and_false]
  · have hst : ¬ dedup_key s = dedup_key t := fun e => hts e.symm
    have hc : List.countP (fun u => decide (dedup_key u = dedup_key t))
        (l.filter (fun u => !decide (dedup_key u = dedup_key s))) =
        List.countP (fun u => decide (dedup_key u = dedup_key t)) l := by
      rw [List.countP_filter]
      apply List.countP_congr
      intro u _
      by_cases hut : dedup_key u = dedup_key t
      · have : ¬ dedup_key u = dedup_key s := fun e => hts (hut ▸ e)
        simp [hut, this, hts]
      · simp [hut]
    simp only [List.countP_cons, hst, decide_False, Bool.false_eq_true, if_false, add_zero, hc,
      hts, Bool.not_false, Bool.and_true]

theorem filter_not_match_map_snd (s1 : ObSessionState) (l : List Link)
    (hs : state_well_formed s1) (hl : ∀ p ∈ l, state_well_formed p.2) :
    (l.filter (fun p => !dedup_match s1 p.2)).map Prod.snd =
      (l.map Prod.snd).filter (fun t => !decide (dedup_key t = dedup_key s1)) := by
  induction l with
  | nil => rfl
  | cons p l ih =>
    have hp := hl p (List.mem_cons_self _ _)
    have ih' := ih (fun q hq => hl q (List.mem_cons_of_mem _ hq))
    by_cases hm : dedup_match s1 p.2 = true
    · have hk : dedup_key p.2 = dedup_key s1 := ((dedup_match_iff_key s1 p.2 hs hp).mp hm).symm
      simp [List.filter_cons, hm, hk, ih']
    · have hk : ¬ dedup_key p.2 = dedup_key s1 := fun e =>
        hm ((dedup_match_iff_key s1 p.2 hs hp).mpr e.symm)
      simp [List.filter_cons, hm, hk, ih']

/-- What the outer loop computes from a live position on: either it reads a
freed link, or it ends with the records before the position followed by a
sublist of the records from the position on; for well-formed records that
sublist holds exactly the records with which no other one collides.  It never
runs out of the iterations granted. -/
theorem dedup_outer_result (n : Nat) :
    ∀ (suf pre : List Link) (fuel : Nat), suf.length ≤ n →
      ((pre ++ suf).map Prod.fst).Nodup → suf.length < fuel →
      dedup_outer fuel (pre ++ suf) (suf.head?.map Prod.fst) = .error .use_after_free ∨
      ∃ r, dedup_outer fuel (pre ++ suf) (suf.head?.map Prod.fst) = .ok (pre ++ r) ∧
        r.Sublist suf ∧
        ((∀ p ∈ suf, state_well_formed p.2) →
          r.map Prod.snd = without_collisions (suf.map Prod.snd)) := by
  induction n with
  | zero =>
    intro suf pre fuel hlen _ hfuel
    have hnil : suf = [] := List.length_eq_zero.mp (Nat.le_zero.mp hlen)
    subst hnil
    cases fuel with
    | zero => simp at hfuel
    | succ f =>
      exact Or.inr ⟨[], by simp [dedup_outer], List.Sublist.refl _, fun _ => rfl⟩
  | succ n ih =>
    intro suf pre fuel hlen hnd hfuel
    cases suf with
    | nil =>
      cases fuel with
      | zero => simp at hfuel
      | succ f =>
        exact Or.inr ⟨[], by simp [dedup_outer], List.Sublist.refl _, fun _ => rfl⟩
    | cons p suf =>
      obtain ⟨a, s1⟩ := p
      cases fuel with
      | zero => simp at hfuel
      | succ f =>
        have hf : suf.length < f := by simpa using hfuel
        have hlen' : suf.length ≤ n := by simpa using hlen
        simp only [List.head?_cons, Option.map_some']
        rw [dedup_outer_step pre suf a s1 f hnd]
        by_cases hany : suf.any (fun p => dedup_match s1 p.2) = true
        · rw [if_pos hany]
          cases suf with
          | nil => simp at hany
          | cons q suf2 =>
            obtain ⟨b, s2⟩ := q
            have hnd2 : ((pre ++ ((b, s2) :: suf2).filter
                (fun p => !dedup_match s1 p.2)).map Prod.fst).Nodup := by
              refine hnd.sublist (List.Sublist.map Prod.fst ?_)
              exact List.Sublist.append (List.Sublist.refl pre)
                ((List.filter_sublist _).trans (List.sublist_cons_self _ _))
            by_cases hm : dedup_match s1 s2 = true
            · left
              have hb : b ∉ (pre ++ ((b, s2) :: suf2).filter
                  (fun p => !dedup_match s1 p.2)).map Prod.fst := by
                have hnd3 : ((pre ++ (a, s1) :: (b, s2) :: suf2).map Prod.fst).Nodup := hnd
                simp only [List.filter_cons, hm, Bool.not_true, Bool.false_eq_true, if_false]
                intro hmem
                rw [List.map_append, List.mem_append] at hmem
                simp only [List.map_append, List.map_cons] at hnd3
                have h4 := List.nodup_append.mp hnd3
                rcases hmem with hmem | hmem
                · exact h4.2.2 hmem (by simp)
                · have h5 := (List.nodup_cons.mp (List.nodup_cons.mp h4.2.1).2).1
                  exact h5 ((List.filter_sublist _).map Prod.fst |>.subset hmem)
              cases f with
              | zero => simp at hf
              | succ f2 =>
                simp only [List.head?_cons, Option.map_some', dedup_outer,
                  link_data_of_not_mem _ b hb]
            · have hm' : dedup_match s1 s2 = false := by simpa using hm
              have hfilt : ((b, s2) :: suf2).filter (fun p => !dedup_match s1 p.2) =
                  (b, s2) :: suf2.filter (fun p => !dedup_match s1 p.2) := by
                simp [List.filter_cons, hm']
              have hptr : (((b, s2) :: suf2).head?.map Prod.fst) =
                  ((((b, s2) :: suf2).filter (fun p => !dedup_match s1 p.2)).head?.map
                    Prod.fst) := by
                rw [hfilt]; rfl
              rw [hptr]
              have hle : (((b, s2) :: suf2).filter (fun p => !dedup_match s1 p.2)).length ≤
                  ((b, s2) :: suf2).length := List.length_filter_le _ _
              rcases ih _ pre f (le_trans hle hlen') hnd2 (lt_of_le_of_lt hle hf) with
                hfault | ⟨r, hr, hsub, hwf⟩
              · exact Or.inl hfault
              · refine Or.inr ⟨r, hr,
                  (hsub.trans (List.filter_sublist _)).trans (List.sublist_cons_self _ _), ?_⟩
                intro hall
                have hs1 : state_well_formed s1 := hall (a, s1) (List.mem_cons_self _ _)
                have hrest : ∀ p ∈ (b, s2) :: suf2, state_well_formed p.2 :=
                  fun p hp => hall p (List.mem_cons_of_mem _ hp)
                rw [hwf (fun p hp => hrest p (List.mem_of_mem_filter hp)),
                  filter_not_match_map_snd s1 _ hs1 hrest]
                obtain ⟨q, hq, hqm⟩ := List.any_eq_true.mp hany
                have hdup := without_collisions_cons_of_dup s1
                  (List.map Prod.snd ((b, s2) :: suf2))
                  ⟨q.2, List.mem_map_of_mem Prod.snd hq,
                    ((dedup_match_iff_key s1 q.2 hs1 (hrest q hq)).mp hqm).symm⟩
                exact hdup.symm
        · rw [if_neg hany]
          have hany' : suf.any (fun p => dedup_match s1 p.2) = false := by simpa using hany
          have e : pre ++ (a, s1) :: suf = (pre ++ [(a, s1)]) ++ suf := by simp
          rw [e]
          rcases ih suf (pre ++ [(a, s1)]) f hlen'
              (nodup_append_singleton_move pre suf (a, s1) hnd) hf with
            hfault | ⟨r, hr, hsub, hwf⟩
          · exact Or.inl hfault
          · refine Or.inr ⟨(a, s1) :: r, by simpa using hr, hsub.cons₂ _, ?_⟩
            intro hall
            have hs1 : state_well_formed s1 := hall (a, s1) (List.mem_cons_self _ _)
            have hrest : ∀ p ∈ suf, state_well_formed p.2 :=
              fun p hp => hall p (List.mem_cons_of_mem _ hp)
            rw [List.map_cons, List.map_cons, hwf hrest, without_collisions_cons_of_fresh]
            intro t ht
            obtain ⟨q, hq, rfl⟩ := List.mem_map.mp ht
            have hq2 := List.any_eq_false.mp hany' q hq
            intro hk
            exact hq2 ((dedup_match_iff_key s1 q.2 hs1 (hrest q hq)).mpr hk.symm)

/-- The duplicate-removal pass either reads a freed link or ends with a
sublist of the loaded records; for well-formed records that sublist holds
exactly the records with which no other loaded record collides.  The pass
always ends within the iterations granted. -/
theorem remove_duplicates_result (saved : List ObSessionState) :
    remove_duplicates saved = .error .use_after_free ∨
    ∃ r, remove_duplicates saved = .ok r ∧ r.Sublist saved ∧
      ((∀ s ∈ saved, state_well_formed s) → r = without_collisions saved) := by
  unfold remove_duplicates
  have hnd : (([] ++ number_links 0 saved).map Prod.fst).Nodup := by
    simpa using number_links_nodup saved 0
  rcases dedup_outer_result (number_links 0 saved).length (number_links 0 saved) []
      (saved.length + 1) (Nat.le_refl _) hnd (by rw [number_links_length]; omega) with
    hfault | ⟨r, hr, hsub, hwf⟩
  · left
    simp only [List.nil_append] at hfault
    rw [hfault]
  · right
    simp only [List.nil_append] at hr
    rw [hr]
    refine ⟨r.map Prod.snd, rfl, ?_, ?_⟩
    · have := hsub.map Prod.snd
      rwa [number_links_map_snd] at this
    · intro hall
      have := hwf (fun p hp => hall p.2 (by
        have := List.mem_map_of_mem Prod.snd hp
        rwa [number_links_map_snd] at this))
      rwa [number_links_map_snd] at this

theorem mem_without_collisions (l : List ObSessionState) (s : ObSessionState) :
    s ∈ without_collisions l ↔
      s ∈ l ∧ l.countP (fun t => decide (dedup_key t = dedup_key s)) = 1 := by
  simp [without_collisions, List.mem_filter]

/-! ## Theorems: the records that loading builds -/

/-- What a `<window>` node yields when the loop body does not bail: the key is
the `id` attribute when there is one and the `command` attribute otherwise,
and name, class and role are the texts of the first child elements of those
names. -/
theorem load_window_some (node : XmlNode) (s : ObSessionState)
    (h : load_window node = some s) :
    state_well_formed s ∧
    s.id = parse_attr_string "id" node ∧
    (s.command = none ∨
      (parse_attr_string "id" node = none ∧ s.command = parse_attr_string "command" node)) ∧
    child_text "name" node = some s.name ∧
    child_text "class" node = some s.class_ ∧
    child_text "role" node = some s.role ∧
    s.matched = false := by
  unfold load_window at h
  unfold child_text
  cases hid : parse_attr_string "id" node with
  | some i =>
    simp only [hid] at h
    cases h1 : parse_find_node "name" node.children <;>
    cases h2 : parse_find_node "class" node.children <;>
    cases h3 : parse_find_node "role" node.children <;>
    simp only [h1, h2, h3] at h <;> try (cases h)
    repeat' split at h
    all_goals first
      | (cases h; done)
      | (simp only [Option.some.injEq] at h
         subst h
         exact ⟨Or.inl ⟨rfl, rfl⟩, rfl, Or.inl rfl, rfl, rfl, rfl, rfl⟩)
  | none =>
    cases hcmd : parse_attr_string "command" node with
    | none => simp [hid, hcmd] at h
    | some k =>
      simp only [hid, hcmd] at h
      cases h1 : parse_find_node "name" node.children <;>
      cases h2 : parse_find_node "class" node.children <;>
      cases h3 : parse_find_node "role" node.children <;>
      simp only [h1, h2, h3] at h <;> try (cases h)
      repeat' split at h
      all_goals first
        | (cases h; done)
        | (simp only [Option.some.injEq] at h
           subst h
           exact ⟨Or.inr ⟨rfl, rfl⟩, rfl, Or.inr ⟨rfl, rfl⟩, rfl, rfl, rfl, rfl⟩)

theorem load_windows_well_formed (nodes : List XmlNode) (saved : List ObSessionState)
    (h : ∀ s ∈ saved, state_well_formed s) :
    ∀ s ∈ load_windows nodes saved, state_well_formed s := by
  unfold load_windows
  generalize find_each_node "window" nodes = ws
  induction ws generalizing saved with
  | nil => simpa using h
  | cons w ws ih =>
    rw [List.foldl_cons]
    apply ih
    cases hw : load_window w with
    | none => simpa using h
    | some t =>
      intro s hs
      rcases List.mem_append.mp hs with hs | hs
      · exact h s hs
      · rw [List.mem_singleton.mp hs]
        exact (load_window_some w t hw).1

/-- C11: every record that the window loop of `session_load_file` builds has
exactly one of id and command, and its name, class and role are the texts of
child elements that are present; a window entry with both an `id` and a
`command` attribute gives a record with that id and no command.  The Store
after `session_load_file` holds only such records. -/
theorem C11_loaded_records_have_exactly_one_key (file : Option XmlNode) (g : SessionGlobals)
    (hg : ∀ s ∈ g.session_saved_state, state_well_formed s) :
    (∀ node s, load_window node = some s →
      ((s.id.isSome = true ∧ s.command = none) ∨ (s.id = none ∧ s.command.isSome = true)) ∧
      child_text "name" node = some s.name ∧
      child_text "class" node = some s.class_ ∧
      child_text "role" node = some s.role ∧
      (∀ i k, parse_attr_string "id" node = some i →
        parse_attr_string "command" node = some k → s.id = some i ∧ s.command = none)) ∧
    (session_load_file file g = .error .use_after_free ∨
      ∃ g1, session_load_file file g = .ok g1 ∧
        ∀ s ∈ g1.session_saved_state,
          (s.id.isSome = true ∧ s.command = none) ∨ (s.id = none ∧ s.command.isSome = true)) := by
  constructor
  · intro node s h
    obtain ⟨hwf, hid, hcmd, hn, hc, hr, -⟩ := load_window_some node s h
    refine ⟨hwf, hn, hc, hr, ?_⟩
    intro i k hi _
    refine ⟨hid.trans hi, ?_⟩
    rcases hcmd with hcmd | ⟨hnone, -⟩
    · exact hcmd
    · rw [hi] at hnone; cases hnone
  · unfold session_load_file
    cases hl : parse_load file "openbox_session" with
    | none => exact Or.inr ⟨g, rfl, hg⟩
    | some node =>
      simp only []
      have hloaded := load_windows_well_formed node.children
        (load_desktop_state node g).session_saved_state
        (by rw [load_desktop_state_saved]; exact hg)
      rcases remove_duplicates_result
          (load_windows node.children (load_desktop_state node g).session_saved_state) with
        hf | ⟨r, hr, hsub, -⟩
      · left; rw [hf]
      · right
        rw [hr]
        exact ⟨_, rfl, fun s hs => hloaded s (hsub.subset hs)⟩

theorem C11_loaded_records_have_exactly_one_key_witness :
    (∀ s ∈ session_initial.session_saved_state, state_well_formed s) ∧
    ∃ s, load_window
        (.mk "window" [("id", "A"), ("command", "xterm")] ""
          (sample_window [] "term" "Term" "main" 0).children) = some s ∧
      s.id = some "A" ∧ s.command = none :=
  ⟨by simp [session_initial],
   by
    cases h : load_window
        (.mk "window" [("id", "A"), ("command", "xterm")] ""
          (sample_window [] "term" "Term" "main" 0).children) with
    | none => exact absurd h (by decide)
    | some s =>
      exact ⟨s, rfl,
        ((C11_loaded_records_have_exactly_one_key none session_initial
          (by simp [session_initial])).1 _ s h).2.2.2.2 "A" "xterm" (by decide) (by decide)⟩⟩

theorem atoi_zero : atoi "0" = 0 := by decide

theorem load_window_sample_id (i name class_ role : String) (type : Int) :
    load_window (sample_window [("id", i)] name class_ role type) =
      some (sample_state (some i) none name class_ role type) := by
  simp only [load_window, sample_window, parse_attr_string, XmlNode.attrs, XmlNode.children,
    parse_find_node, strcmp_eq_zero_iff, List.find?, xml_leaf_name, decide_True,
    Option.map_some', String.reduceEq, if_false, if_true, ↓reduceIte,
    parse_string, parse_int, xml_leaf_content, atoi_printf_d, atoi_zero, sample_state,
    List.isEmpty, Bool.not_true, decide_False]
  rfl

theorem load_window_sample_command (k name class_ role : String) (type : Int) :
    load_window (sample_window [("command", k)] name class_ role type) =
      some (sample_state none (some k) name class_ role type) := by
  simp only [load_window, sample_window, parse_attr_string, XmlNode.attrs, XmlNode.children,
    parse_find_node, strcmp_eq_zero_iff, List.find?, xml_leaf_name, decide_True,
    Option.map_some', String.reduceEq, if_false, if_true, ↓reduceIte,
    parse_string, parse_int, xml_leaf_content, atoi_printf_d, atoi_zero, sample_state,
    List.isEmpty, Bool.not_true, decide_False, Option.map_none']
  rfl

/-- C12: for a command-only record and a client whose `wm_command`, name,
class and role equal the record's, `session_state_cmp` matches iff the client's
type equals the record's type, and `session_state_find` on a Store holding
only that unmatched record returns it iff the types are equal and returns no
match iff they differ. -/
theorem C12_command_match_requires_type (s : ObSessionState) (c : ObClient) (k : String)
    (hid : s.id = none) (hcmd : s.command = some k) (hc : c.wm_command = some k)
    (hn : s.name = c.name) (hcl : s.class_ = c.class_) (hr : s.role = c.role) :
    (c.type ≠ s.type → session_state_cmp s c = false) ∧
    (c.type = s.type → session_state_cmp s c = true) ∧
    (s.matched = false →
      (c.type ≠ s.type → (session_state_find c [s]).1 = none) ∧
      (c.type = s.type → (session_state_find c [s]).1 = some 0)) := by
  have hiff : session_state_cmp s c = true ↔ c.type = s.type := by
    rw [session_state_cmp_eq_true_iff]
    simp [hid, hcmd, hc, hn, hcl, hr]
  refine ⟨fun hne => ?_, fun heq => hiff.mpr heq, fun hm => ⟨fun hne => ?_, fun heq => ?_⟩⟩
  · cases hcmp : session_state_cmp s c with
    | false => rfl
    | true => exact absurd (hiff.mp hcmp) hne
  · rw [find_fst_eq_none_iff]
    intro t ht
    rw [List.mem_singleton.mp ht]
    exact fun h => hne (hiff.mp h.2)
  · rw [find_cons_hit c s [] ⟨hm, hiff.mpr heq⟩]

theorem C12_command_match_requires_type_witness :
    session_state_cmp (sample_state none (some "xterm") "term" "Term" "main" 7)
      (sample_client 1 none (some "xterm") "term" "Term" "main" 6) = false ∧
    session_state_cmp (sample_state none (some "xterm") "term" "Term" "main" 7)
      (sample_client 1 none (some "xterm") "term" "Term" "main" 7) = true :=
  ⟨(C12_command_match_requires_type (sample_state none (some "xterm") "term" "Term" "main" 7)
      (sample_client 1 none (some "xterm") "term" "Term" "main" 6) "xterm"
      rfl rfl rfl rfl rfl rfl).1 (by decide),
   (C12_command_match_requires_type (sample_state none (some "xterm") "term" "Term" "main" 7)
      (sample_client 1 none (some "xterm") "term" "Term" "main" 7) "xterm"
      rfl rfl rfl rfl rfl rfl).2.1 rfl⟩

/-- C13: a file that holds, in this order, a record with id "A" and a record
with command "xterm", both with name "term", class "Term", role "main" and the
same type, loads into a Store with both records (an id-keyed and a
command-keyed record do not collide), and `session_state_find` for a client
with `sm_client_id` "A" and that name, class and role returns the first record
and leaves the second unmatched, whatever the client's command and type. -/
theorem C13_id_lookup_returns_id_record (type : Int) (c : ObClient)
    (hid : c.sm_client_id = some "A") (hn : c.name = "term") (hcl : c.class_ = "Term")
    (hr : c.role = "main") :
    (∀ s t : ObSessionState, s.command = none → t.id = none →
      dedup_match s t = false ∧ dedup_match t s = false) ∧
    ∃ g, session_load_file
        (some (.mk "openbox_session" [] ""
          [ sample_window [("id", "A")] "term" "Term" "main" type,
            sample_window [("command", "xterm")] "term" "Term" "main" type ]))
        session_initial = .ok g ∧
      g.session_saved_state =
        [ sample_state (some "A") none "term" "Term" "main" type,
          sample_state none (some "xterm") "term" "Term" "main" type ] ∧
      session_state_find c g.session_saved_state =
        (some 0,
         [ { sample_state (some "A") none "term" "Term" "main" type with matched := true },
           sample_state none (some "xterm") "term" "Term" "main" type ]) := by
  have hm : dedup_match (sample_state (some "A") none "term" "Term" "main" type)
      (sample_state none (some "xterm") "term" "Term" "main" type) = false := by
    simp [dedup_match, sample_state]
  have hload : load_windows
      [ sample_window [("id", "A")] "term" "Term" "main" type,
        sample_window [("command", "xterm")] "term" "Term" "main" type ] [] =
      [ sample_state (some "A") none "term" "Term" "main" type,
        sample_state none (some "xterm") "term" "Term" "main" type ] := by
    rw [load_windows_cons_window _ _ _ (sample_window_name _ _ _ _ _), load_window_sample_id,
      load_windows_cons_window _ _ _ (sample_window_name _ _ _ _ _), load_window_sample_command]
    rfl
  have hdedup := remove_duplicates_of_pairwise
    [ sample_state (some "A") none "term" "Term" "main" type,
      sample_state none (some "xterm") "term" "Term" "main" type ]
    (by simp [hm])
  refine ⟨fun s t hs ht => by simp [dedup_match, hs, ht], ?_⟩
  simp only [session_load_file, parse_load, XmlNode.name, strcmp_eq_zero_iff, if_true,
    load_desktop_state_saved, XmlNode.children, session_initial, hload, hdedup]
  refine ⟨_, rfl, rfl, ?_⟩
  have hcmp : session_state_cmp (sample_state (some "A") none "term" "Term" "main" type) c
      = true := by
    rw [session_state_cmp_eq_true_iff]
    simp [sample_state, hid, hn, hcl, hr]
  exact find_cons_hit c _ _ ⟨rfl, hcmp⟩

theorem C13_id_lookup_returns_id_record_witness :
    ∃ g, session_load_file
        (some (.mk "openbox_session" [] ""
          [ sample_window [("id", "A")] "term" "Term" "main" 7,
            sample_window [("command", "xterm")] "term" "Term" "main" 7 ]))
        session_initial = .ok g ∧
      (session_state_find (sample_client 1 (some "A") (some "xterm") "term" "Term" "main" 3)
        g.session_saved_state).1 = some 0 := by
  obtain ⟨-, g, h1, -, h3⟩ := C13_id_lookup_returns_id_record 7
    (sample_client 1 (some "A") (some "xterm") "term" "Term" "main" 3) rfl rfl rfl rfl
  exact ⟨g, h1, by rw [h3]⟩

/-- The layout part of the loader reports the layout as present exactly when
the four children are found. -/
theorem load_desktop_layout_present (n : XmlNode) (layout : ObDesktopLayout) :
    (load_desktop_layout n layout).2 =
      (has_child "orientation" n && has_child "startcorner" n &&
        has_child "columns" n && has_child "rows" n) := by
  unfold load_desktop_layout has_child
  cases h1 : parse_find_node "orientation" n.children <;>
  cases h2 : parse_find_node "startcorner" n.children <;>
  cases h3 : parse_find_node "columns" n.children <;>
  cases h4 : parse_find_node "rows" n.children <;> simp

theorem load_desktop_state_layout_present (node n : XmlNode) (rest : List XmlNode)
    (g : SessionGlobals)
    (h : parse_find_node "desktoplayout" node.children = n :: rest) :
    (load_desktop_state node g).session_desktop_layout_present =
      (load_desktop_layout n g.session_desktop_layout).2 := by
  unfold load_desktop_state
  simp only [h]
  cases h1 : parse_find_node "desktop" node.children <;>
  cases h2 : parse_find_node "numdesktops" node.children <;>
  cases h4 : parse_find_node "desktopnames" node.children <;> rfl

/-- C17: when the document has a `desktoplayout` element, the loader sets
`session_desktop_layout_present` to true iff orientation, startcorner, columns
and rows are all present under (the first) such element, and to false as soon
as one of them is missing. -/
theorem C17_layout_present_iff_all_four (root n : XmlNode) (rest : List XmlNode)
    (g : SessionGlobals) (hroot : root.name = "openbox_session")
    (hn : parse_find_node "desktoplayout" root.children = n :: rest) :
    (load_desktop_state root g).session_desktop_layout_present =
      (has_child "orientation" n && has_child "startcorner" n &&
        has_child "columns" n && has_child "rows" n) ∧
    (session_load_file (some root) g = .error .use_after_free ∨
      ∃ g1, session_load_file (some root) g = .ok g1 ∧
        (g1.session_desktop_layout_present = true ↔
          (has_child "orientation" n = true ∧ has_child "startcorner" n = true ∧
            has_child "columns" n = true ∧ has_child "rows" n = true))) := by
  have hp : (load_desktop_state root g).session_desktop_layout_present =
      (has_child "orientation" n && has_child "startcorner" n &&
        has_child "columns" n && has_child "rows" n) := by
    rw [load_desktop_state_layout_present root n rest g hn, load_desktop_layout_present]
  refine ⟨hp, ?_⟩
  simp only [session_load_file, parse_load, hroot, strcmp_eq_zero_iff, if_true]
  rcases remove_duplicates_result
      (load_windows root.children (load_desktop_state root g).session_saved_state) with
    hf | ⟨r, hr, -, -⟩
  · left; rw [hf]
  · right
    rw [hr]
    refine ⟨_, rfl, ?_⟩
    simp only [hp, Bool.and_eq_true, and_assoc]

theorem C17_layout_present_iff_all_four_witness :
    (load_desktop_state
      (.mk "openbox_session" [] ""
        [ .mk "desktoplayout" [] ""
            [ xml_leaf "orientation" "0", xml_leaf "startcorner" "0", xml_leaf "rows" "2" ] ])
      session_initial).session_desktop_layout_present = false ∧
    (load_desktop_state
      (.mk "openbox_session" [] ""
        [ .mk "desktoplayout" [] ""
            [ xml_leaf "orientation" "0", xml_leaf "startcorner" "0", xml_leaf "columns" "2",
              xml_leaf "rows" "2" ] ])
      session_initial).session_desktop_layout_present = true :=
  ⟨(C17_layout_present_iff_all_four
      (.mk "openbox_session" [] ""
        [ .mk "desktoplayout" [] ""
            [ xml_leaf "orientation" "0", xml_leaf "startcorner" "0", xml_leaf "rows" "2" ] ])
      (.mk "desktoplayout" [] ""
        [ xml_leaf "orientation" "0", xml_leaf "startcorner" "0", xml_leaf "rows" "2" ])
      [] session_initial rfl rfl).1.trans (by decide),
   (C17_layout_present_iff_all_four
      (.mk "openbox_session" [] ""
        [ .mk "desktoplayout" [] ""
            [ xml_leaf "orientation" "0", xml_leaf "startcorner" "0", xml_leaf "columns" "2",
              xml_leaf "rows" "2" ] ])
      (.mk "desktoplayout" [] ""
        [ xml_leaf "orientation" "0", xml_leaf "startcorner" "0", xml_leaf "columns" "2",
          xml_leaf "rows" "2" ])
      [] session_initial rfl rfl).1.trans (by decide)⟩

/-! ## Theorems: which windows are written, and with which key and flags -/

theorem mem_written_clients (cn : ObClient → Bool) (ws : List ObWindow) (c : ObClient) :
    c ∈ written_clients cn ws ↔
      ObWindow.client c ∈ ws ∧ cn c = true ∧
        (c.sm_client_id.isSome = true ∨ c.wm_command.isSome = true) := by
  unfold written_clients
  rw [List.mem_filterMap]
  constructor
  · rintro ⟨w, hw, hf⟩
    cases w with
    | other => simp at hf
    | client d =>
      by_cases hq : (cn d && (d.sm_client_id.isSome || d.wm_command.isSome)) = true
      · simp only [hq, if_true, Option.some.injEq] at hf
        subst hf
        simp only [Bool.and_eq_true, Bool.or_eq_true] at hq
        exact ⟨hw, hq.1, hq.2⟩
      · simp [hq] at hf
  · rintro ⟨hw, h1, h2⟩
    refine ⟨ObWindow.client c, hw, ?_⟩
    have hq : (cn c && (c.sm_client_id.isSome || c.wm_command.isSome)) = true := by
      simp only [Bool.and_eq_true, Bool.or_eq_true]
      exact ⟨h1, h2⟩
    simp [hq]

/-- The texts printed by the stacking-list loop are those of the written
clients, in stacking order, each with its identifying attribute. -/
theorem print_windows_eq_map (cn : ObClient → Bool) (sd : ObSMSaveData) (ws : List ObWindow) :
    print_windows cn sd ws =
      (written_clients cn ws).map (fun c => print_window sd c (window_key c)) := by
  induction ws with
  | nil => rfl
  | cons w ws ih =>
    cases w with
    | other => simpa [print_windows, written_clients] using ih
    | client c =>
      cases hn : cn c <;> cases hid : c.sm_client_id <;> cases hcmd : c.wm_command <;>
        simp [print_windows, written_clients, hn, hid, hcmd, window_key] <;>
        simpa [written_clients] using ih

theorem window_key_of_written (cn : ObClient → Bool) (ws : List ObWindow) (c : ObClient)
    (hc : c ∈ written_clients cn ws) :
    (∀ i, c.sm_client_id = some i → window_key c = ("id", i)) ∧
    (c.sm_client_id = none → ∃ k, c.wm_command = some k ∧ window_key c = ("command", k)) := by
  obtain ⟨-, -, hkey⟩ := (mem_written_clients cn ws c).mp hc
  refine ⟨fun i hi => by simp [window_key, hi], fun hnone => ?_⟩
  rw [hnone] at hkey
  rcases hkey with hkey | hkey
  · simp at hkey
  · obtain ⟨k, hk⟩ := Option.isSome_iff_exists.mp hkey
    exact ⟨k, hk, by simp [window_key, hnone, hk]⟩

/-- C15 (code defect): the text printed for a written client begins with the
start tag `<window id="ID">` when the client has the session id ID (also when
it has a command as well) and with `<window command="CMD">` when it has no
session id and the command CMD, the string being printed as it is.  For the
session id `A" command="xterm` the start tag printed is
`<window id="A" command="xterm">`: an entry that carries both attributes and
whose id is not the client's session id. -/
theorem C15_raw_session_id_prints_two_attributes (cn : ObClient → Bool) (sd : ObSMSaveData)
    (ws : List ObWindow) :
    (∀ t ∈ print_windows cn sd ws, ∃ c ∈ written_clients cn ws,
      t = print_window sd c (window_key c) ∧
      (∀ i, c.sm_client_id = some i → window_key c = ("id", i)) ∧
      (c.sm_client_id = none → ∃ k, c.wm_command = some k ∧ window_key c = ("command", k))) ∧
    (∀ i, (print_window_start ("id", i)).data =
      "<window id=\"".data ++ i.data ++ "\">\n".data) ∧
    (∀ k, (print_window_start ("command", k)).data =
      "<window command=\"".data ++ k.data ++ "\">\n".data) ∧
    prints_plain "A\" command=\"xterm" = false ∧
    print_window_start ("id", "A\" command=\"xterm") =
      "<window id=\"A\" command=\"xterm\">\n" := by
  refine ⟨?_, fun i => ?_, fun k => ?_, by decide, by decide⟩
  · intro t ht
    rw [print_windows_eq_map] at ht
    obtain ⟨c, hc, rfl⟩ := List.mem_map.mp ht
    obtain ⟨hk1, hk2⟩ := window_key_of_written cn ws c hc
    exact ⟨c, hc, rfl, hk1, hk2⟩
  · simp only [print_window_start, String.data_append]
    rfl
  · simp only [print_window_start, String.data_append]
    rfl

theorem array_store_length (vals vals1 : List (Option SmPropValue)) (i : Nat) (v : SmPropValue)
    (h : array_store vals i v = some vals1) : vals1.length = vals.length := by
  unfold array_store at h
  split at h
  · simp only [Option.some.injEq] at h
    rw [← h, List.length_set]
  · cases h

theorem array_store_isSome (vals : List (Option SmPropValue)) (i : Nat) (v : SmPropValue)
    (h : i < vals.length) : ∃ vals1, array_store vals i v = some vals1 ∧
      vals1.length = vals.length := by
  refine ⟨vals.set i (some v), by simp [array_store, h], by simp⟩

theorem store_argv_isSome (argv : List String) (n : Nat) :
    ∀ (i : Nat) (vals : List (Option SmPropValue)),
      i + n ≤ argv.length → i + n ≤ vals.length →
      ∃ vals1, store_argv argv n i vals = some vals1 ∧ vals1.length = vals.length := by
  induction n with
  | zero => intro i vals _ _; exact ⟨vals, rfl, rfl⟩
  | succ n ih =>
    intro i vals h1 h2
    have hi : i < argv.length := by omega
    obtain ⟨vals1, hs, hl⟩ := array_store_isSome vals i
      { value := .text argv[i], length := strlen argv[i] + 1 } (by omega)
    obtain ⟨vals2, hs2, hl2⟩ := ih (i + 1) vals1 (by omega) (by omega)
    refine ⟨vals2, ?_, by omega⟩
    simp only [store_argv, List.getElem?_eq_getElem hi, hs, hs2]

theorem session_setup_restart_command_isSome (g : SmGlobals) (h : restart_command_ready g) :
    ∃ prop, session_setup_restart_command g = some prop ∧ prop.name = SmRestartCommand := by
  obtain ⟨hlen, hid, hfile⟩ := h
  obtain ⟨id, hid⟩ := Option.isSome_iff_exists.mp hid
  obtain ⟨file, hfile⟩ := Option.isSome_iff_exists.mp hfile
  obtain ⟨v0, h0, l0⟩ := store_argv_isSome g.sm_argv g.sm_argc 0
    (List.replicate (g.sm_argc + 4) none) (by omega) (by simp)
  have l0' : v0.length = g.sm_argc + 4 := by simpa using l0
  obtain ⟨v1, h1, l1⟩ := array_store_isSome v0 g.sm_argc
    { value := .text "--sm-client-id", length := strlen "--sm-client-id" + 1 } (by omega)
  obtain ⟨v2, h2, l2⟩ := array_store_isSome v1 (g.sm_argc + 1)
    { value := .text id, length := strlen id + 1 } (by omega)
  obtain ⟨v3, h3, l3⟩ := array_store_isSome v2 (g.sm_argc + 2)
    { value := .text "--sm-save-file", length := strlen "--sm-save-file" + 1 } (by omega)
  obtain ⟨v4, h4, -⟩ := array_store_isSome v3 (g.sm_argc + 3)
    { value := .text file, length := strlen file + 1 } (by omega)
  exact ⟨{ name := SmRestartCommand, type := SmLISTofARRAY8, num_vals := g.sm_argc + 4,
           vals := v4 },
    by simp only [session_setup_restart_command, h0, h1, hid, h2, h3, hfile, h4], rfl⟩

theorem session_setup_restart_command_name (g : SmGlobals) (prop : SmProp)
    (h : session_setup_restart_command g = some prop) : prop.name = SmRestartCommand := by
  unfold session_setup_restart_command at h
  repeat' split at h
  all_goals
    cases h
    try rfl

/-- C18: for a save-yourself callback whose save type is `SmSaveGlobal` the
handler makes exactly one call, `SmcSaveYourselfDone` with success, and changes
nothing: the writer is not invoked, no snapshot is captured, phase 2 is not
requested and no property is set. -/
theorem C18_global_save_acknowledged_at_once (g : SmGlobals) (w : SmWorld) (vendor : String)
    (phase2_ok shutdown fast : Bool) (interact_style : Int) :
    sm_save_yourself g w SmSaveGlobal vendor phase2_ok = (g, [.SmcSaveYourselfDone true]) ∧
    (g.faulted = false →
      sm_step g (.sm_save_yourself w SmSaveGlobal shutdown interact_style fast vendor phase2_ok) =
        (g, [.SmcSaveYourselfDone true])) ∧
    (∀ c ∈ (sm_save_yourself g w SmSaveGlobal vendor phase2_ok).2,
      c = .SmcSaveYourselfDone true) ∧
    ((sm_save_yourself g w SmSaveGlobal vendor phase2_ok).2.count (.SmcSaveYourselfDone true)
      = 1) := by
  have h : sm_save_yourself g w SmSaveGlobal vendor phase2_ok =
      (g, [.SmcSaveYourselfDone true]) := by
    simp [sm_save_yourself]
  refine ⟨h, fun hf => by simp [sm_step, hf, h], ?_, ?_⟩
  · rw [h]; simp
  · rw [h]; simp

/-- The calls of the phase-2 handler, written out: a snapshot is taken only
when no data was passed, the writer is invoked once, the restart command is
set when the write succeeded, and the acknowledgement carries the writer's
result. -/
theorem sm_save_yourself_2_calls (g : SmGlobals) (w : SmWorld) (fopen_ok fflush_ok : Bool)
    (data : Option ObSMSaveData) (hready : restart_command_ready g) :
    ∃ prop, prop.name = SmRestartCommand ∧
      (sm_save_yourself_2 g w fopen_ok fflush_ok data).2 =
        (match data with
         | some _ => []
         | none => [.sm_save_get_data]) ++
        [.session_save_to_file (data.getD (sm_save_get_data w)) (fopen_ok && fflush_ok)] ++
        (if (fopen_ok && fflush_ok) = true then [.SmcSetProperties prop] else []) ++
        [.SmcSaveYourselfDone (fopen_ok && fflush_ok)] := by
  obtain ⟨prop, hprop, hname⟩ := session_setup_restart_command_isSome g hready
  have hprop1 : ∀ doc, session_setup_restart_command { g with save_file := some doc } =
      some prop := fun doc => hprop
  refine ⟨prop, hname, ?_⟩
  cases data <;> cases fopen_ok <;> cases fflush_ok <;>
    simp [sm_save_yourself_2, session_save_to_file, hprop, hprop1]

theorem session_setup_restart_command_congr (g1 g2 : SmGlobals)
    (h1 : g1.sm_argv = g2.sm_argv) (h2 : g1.sm_argc = g2.sm_argc)
    (h3 : g1.ob_sm_id = g2.ob_sm_id) (h4 : g1.ob_sm_save_file = g2.ob_sm_save_file) :
    session_setup_restart_command g1 = session_setup_restart_command g2 := by
  unfold session_setup_restart_command
  rw [h1, h2, h3, h4]

/-- The calls of the phase-2 handler depend on the globals only through the
command line, the client id and the save-file path. -/
theorem sm_save_yourself_2_calls_congr (g1 g2 : SmGlobals) (w : SmWorld)
    (fopen_ok fflush_ok : Bool) (data : Option ObSMSaveData)
    (h1 : g1.sm_argv = g2.sm_argv) (h2 : g1.sm_argc = g2.sm_argc)
    (h3 : g1.ob_sm_id = g2.ob_sm_id) (h4 : g1.ob_sm_save_file = g2.ob_sm_save_file) :
    (sm_save_yourself_2 g1 w fopen_ok fflush_ok data).2 =
      (sm_save_yourself_2 g2 w fopen_ok fflush_ok data).2 := by
  have hc := session_setup_restart_command_congr g1 g2 h1 h2 h3 h4
  have hd : ∀ doc, session_setup_restart_command { g1 with save_file := some doc } =
      session_setup_restart_command { g2 with save_file := some doc } := fun doc =>
    session_setup_restart_command_congr _ _ h1 h2 h3 h4
  cases fopen_ok <;> cases fflush_ok <;>
    simp only [sm_save_yourself_2, session_save_to_file, Bool.not_false, Bool.not_true,
      if_true, if_false, Bool.false_eq_true, hc, hd]
  cases session_setup_restart_command { g2 with save_file := some (.mk "openbox_session" [] ""
      (save_desktop_state w.screen (match data with
        | some d => d
        | none => sm_save_get_data w) ++
       save_windows w.client_normal (match data with
        | some d => d
        | none => sm_save_get_data w) w.screen.stacking_list)) } <;> rfl

theorem session_startup_file_ready (g : SmGlobals) (dir : String) (time pid random : Nat) :
    (session_startup_file g dir time pid random).1.sm_argc = g.sm_argc ∧
    (session_startup_file g dir time pid random).1.sm_argv = g.sm_argv ∧
    (session_startup_file g dir time pid random).1.ob_sm_save_file.isSome = true := by
  unfold session_startup_file
  cases hf : g.ob_sm_save_file with
  | none => exact ⟨rfl, rfl, rfl⟩
  | some f =>
    cases hr : g.ob_sm_restore with
    | false => simp [hf]
    | true =>
      cases hl : session_load_file g.save_file g.session with
      | ok s => simp [hf]
      | error e => simp [hf]

/-- After `session_startup` with a command line of `argc` entries and a
successful connection the globals are ready for the restart command. -/
theorem session_startup_ready (g : SmGlobals) (argv : List String) (data_home : String)
    (time pid random : Nat) (user id : String) (huse : g.ob_sm_use = true)
    (hload : (session_startup_file { g with sm_argc := argv.length, sm_argv := argv }
      (data_home ++ "/openbox/sessions") time pid random).1.faulted = false) :
    restart_command_ready
      (session_startup g argv.length argv data_home time pid random user (some id)).1 := by
  obtain ⟨h1, h2, h3⟩ := session_startup_file_ready
    { g with sm_argc := argv.length, sm_argv := argv } (data_home ++ "/openbox/sessions")
    time pid random
  unfold session_startup
  rw [if_neg (by rw [huse]; decide)]
  simp only []
  rw [if_neg (by rw [hload]; decide)]
  simp only [session_startup_connect, session_connect, Option.isSome_some, if_true,
    restart_command_ready]
  exact ⟨by rw [h2, h1], trivial, h3⟩

theorem session_startup_properties_no_restart_command (g : SmGlobals) (user : String)
    (pid : Nat) :
    ∀ c ∈ session_startup_properties g user pid, c.sets_restart_command = false := by
  intro c hc
  unfold session_startup_properties at hc
  cases hp : session_setup_program g with
  | none =>
    simp only [hp, List.mem_singleton] at hc
    subst hc; rfl
  | some program =>
    have hpn : program.name = SmProgram := by
      unfold session_setup_program at hp
      split at hp
      · cases hp
      · cases hp; rfl
    simp only [hp, List.mem_append, List.mem_cons, List.not_mem_nil, or_false] at hc
    rcases hc with (rfl | rfl | rfl | rfl | rfl) | hc
    · simp only [SmCall.sets_restart_command, hpn]; decide
    · rfl
    · rfl
    · rfl
    · rfl
    · cases hcl : session_setup_clone_command g with
      | none =>
        simp only [hcl, List.mem_singleton] at hc
        subst hc; rfl
      | some clone =>
        have hcn : clone.name = SmCloneCommand := by
          unfold session_setup_clone_command at hcl
          split at hcl
          · cases hcl
          · cases hcl; rfl
        simp only [hcl, List.mem_singleton] at hc
        subst hc
        simp only [SmCall.sets_restart_command, hcn]; decide

theorem session_startup_file_calls (g : SmGlobals) (dir : String) (time pid random : Nat) :
    ∀ c ∈ (session_startup_file g dir time pid random).2,
      c = .session_load_file ∨ c = .fault := by
  intro c hc
  unfold session_startup_file at hc
  split at hc
  · split at hc
    · split at hc
      · simp only [List.mem_singleton] at hc; exact Or.inl hc
      · simp only [List.mem_cons, List.mem_singleton, List.not_mem_nil, or_false] at hc
        exact hc
    · simp at hc
  · simp at hc

theorem session_startup_no_restart_command (g : SmGlobals) (argc : Nat) (argv : List String)
    (data_home : String) (time pid random : Nat) (user : String) (connect : Option String) :
    ∀ c ∈ (session_startup g argc argv data_home time pid random user connect).2,
      c.sets_restart_command = false := by
  intro c hc
  have hfile : ∀ g1 dir, ∀ c ∈ (session_startup_file g1 dir time pid random).2,
      c.sets_restart_command = false := by
    intro g1 dir c hc
    rcases session_startup_file_calls g1 dir time pid random c hc with rfl | rfl <;> rfl
  unfold session_startup at hc
  split at hc
  · simp at hc
  · simp only [] at hc
    split at hc
    · exact hfile _ _ c hc
    · rcases List.mem_append.mp hc with hc | hc
      · exact hfile _ _ c hc
      · unfold session_startup_connect at hc
        split at hc
        · rcases List.mem_append.mp hc with hc | hc
          · simp only [session_connect, List.mem_singleton] at hc; subst hc; rfl
          · exact session_startup_properties_no_restart_command _ user pid c hc
        · simp only [session_connect, List.mem_singleton] at hc; subst hc; rfl

theorem sm_save_yourself_2_restart_command (g : SmGlobals) (w : SmWorld)
    (fopen_ok fflush_ok : Bool) (data : Option ObSMSaveData) (c : SmCall)
    (hc : c ∈ (sm_save_yourself_2 g w fopen_ok fflush_ok data).2)
    (hr : c.sets_restart_command = true) :
    fopen_ok = true ∧ fflush_ok = true ∧
    ∃ sd, SmCall.session_save_to_file sd true ∈
      (sm_save_yourself_2 g w fopen_ok fflush_ok data).2 := by
  cases fopen_ok <;> cases fflush_ok
  case true.true =>
    refine ⟨rfl, rfl, ?_⟩
    cases data with
    | none =>
      simp only [sm_save_yourself_2, session_save_to_file, Bool.not_true, Bool.false_eq_true,
        if_false, if_true]
      split <;> exact ⟨sm_save_get_data w, by simp⟩
    | some d =>
      simp only [sm_save_yourself_2, session_save_to_file, Bool.not_true, Bool.false_eq_true,
        if_false, if_true]
      split <;> exact ⟨d, by simp⟩
  all_goals
    exfalso
    cases data <;>
      simp only [sm_save_yourself_2, session_save_to_file, Bool.not_true, Bool.not_false,
        Bool.false_eq_true, if_false, if_true, List.nil_append, List.singleton_append,
        List.mem_cons, List.mem_singleton, List.not_mem_nil, or_false, List.cons_append] at hc <;>
      rcases hc with rfl | rfl | rfl <;> cases hr

/-- A call of one event that sets the restart command is made by the phase-2
handler after a write that succeeded. -/
theorem sm_step_restart_command (g : SmGlobals) (ev : SmEvent) (c : SmCall)
    (hc : c ∈ (sm_step g ev).2) (hr : c.sets_restart_command = true) :
    ∃ w, ev = .sm_save_yourself_2 w true true ∧
      ∃ sd, SmCall.session_save_to_file sd true ∈ (sm_step g ev).2 := by
  unfold sm_step at hc ⊢
  split at hc
  · simp at hc
  · rename_i hf
    rw [if_neg hf]
    cases ev with
    | session_startup argc argv data_home time pid random user connect =>
      simp only [] at hc
      rw [session_startup_no_restart_command g argc argv data_home time pid random user connect
        c hc] at hr
      cases hr
    | session_shutdown permanent =>
      simp only [session_shutdown] at hc
      split at hc
      · simp at hc
      · split at hc
        · cases permanent
          · simp only [Bool.false_eq_true, if_false, List.nil_append, List.mem_singleton] at hc
            subst hc; cases hr
          · simp only [if_true, List.singleton_append, List.mem_cons, List.mem_singleton,
              List.not_mem_nil, or_false] at hc
            rcases hc with rfl | rfl <;> cases hr
        · simp at hc
    | session_request_logout silent =>
      simp only [session_request_logout] at hc
      split at hc
      · simp only [List.mem_singleton] at hc; subst hc; cases hr
      · simp at hc
    | sm_save_yourself w save_type shutdown interact_style fast vendor phase2_ok =>
      simp only [sm_save_yourself] at hc
      split at hc
      · simp only [List.mem_singleton] at hc; subst hc; cases hr
      · split at hc
        · simp only [List.mem_append, List.mem_singleton] at hc
          rcases hc with (rfl | hc) | rfl
          · cases hr
          · split at hc
            · simp only [List.mem_singleton] at hc; subst hc; cases hr
            · simp at hc
          · cases hr
        · simp only [List.mem_append, List.mem_singleton] at hc
          rcases hc with ((rfl | hc) | rfl) | rfl
          · cases hr
          · split at hc
            · simp only [List.mem_singleton] at hc; subst hc; cases hr
            · simp at hc
          · cases hr
          · cases hr
    | sm_save_yourself_2 w fopen_ok fflush_ok =>
      simp only [] at hc ⊢
      cases hw : g.phase2_wait with
      | none => simp [hw] at hc
      | some data =>
        simp only [hw] at hc ⊢
        obtain ⟨h1, h2, sd, hsd⟩ := sm_save_yourself_2_restart_command _ w fopen_ok fflush_ok
          data c hc hr
        subst h1; subst h2
        exact ⟨w, rfl, sd, hsd⟩
    | sm_die =>
      simp only [sm_die, List.mem_singleton] at hc; subst hc; cases hr
    | sm_save_complete => simp [sm_save_complete] at hc
    | sm_shutdown_cancelled => simp [sm_shutdown_cancelled] at hc

/-- C20: in every run of the coordinator the restart-command property is set
only by a phase-2 callback whose write succeeded (`fopen` and `fflush` both
succeed, and the writer was called with success before): never by
`session_startup`, a save-yourself callback (global-only or with a refused
phase-2 request), a phase-2 callback whose write failed, or any other entry
point. -/
theorem C20_restart_command_only_after_successful_save (g : SmGlobals)
    (evs : List SmEvent) :
    (∀ ev calls, (ev, calls) ∈ sm_run g evs →
      ∀ c ∈ calls, c.sets_restart_command = true →
        ∃ w, ev = .sm_save_yourself_2 w true true ∧
          ∃ sd, SmCall.session_save_to_file sd true ∈ calls) ∧
    (∀ (argc : Nat) (argv : List String) (data_home : String) (time pid random : Nat)
      (user : String) (connect : Option String),
      ∀ c ∈ (session_startup g argc argv data_home time pid random user connect).2,
        c.sets_restart_command = false) ∧
    (∀ (w : SmWorld) (fopen_ok fflush_ok : Bool) (data : Option ObSMSaveData),
      (fopen_ok && fflush_ok) = false →
      ∀ c ∈ (sm_save_yourself_2 g w fopen_ok fflush_ok data).2,
        c.sets_restart_command = false) := by
  refine ⟨?_, fun argc argv data_home time pid random user connect =>
    session_startup_no_restart_command g argc argv data_home time pid random user connect, ?_⟩
  · induction evs generalizing g with
    | nil => intro ev calls h; simp [sm_run] at h
    | cons e evs ih =>
      intro ev calls h c hc hr
      simp only [sm_run, List.mem_cons, Prod.mk.injEq] at h
      rcases h with ⟨rfl, rfl⟩ | h
      · exact sm_step_restart_command g ev c hc hr
      · exact ih _ ev calls h c hc hr
  · intro w fopen_ok fflush_ok data hfail c hc
    cases hr : c.sets_restart_command with
    | false => rfl
    | true =>
      obtain ⟨h1, h2, -⟩ := sm_save_yourself_2_restart_command g w fopen_ok fflush_ok data c hc hr
      rw [h1, h2] at hfail
      cases hfail

theorem C20_restart_command_only_after_successful_save_witness :
    (sm_run (sample_globals ["openbox"] "10a")
      [ .sm_save_yourself (sample_world [] 0 none) SmSaveGlobal false 0 false "KDE" true,
        .sm_save_yourself (sample_world [] 0 none) SmSaveLocal false 0 false "KDE" true,
        .sm_save_yourself_2 (sample_world [] 0 none) true false,
        .sm_save_yourself (sample_world [] 0 none) SmSaveBoth false 0 false "gnome" true,
        .sm_save_yourself_2 (sample_world [] 0 none) true true ]).map
      (fun p => p.2.any SmCall.sets_restart_command) = [false, false, false, false, true] ∧
    ∀ c ∈ (session_startup (sample_globals ["openbox"] "10a") 1 ["openbox"] "/home/u/.local"
        1000 42 7 "u" (some "10b")).2, c.sets_restart_command = false :=
  ⟨by decide,
   (C20_restart_command_only_after_successful_save (sample_globals ["openbox"] "10a") []).2.1
     1 ["openbox"] "/home/u/.local" 1000 42 7 "u" (some "10b")⟩

/-! ## Theorems: the restart command, shutdown and the scan of the duplicate removal -/

theorem array_store_append (done tail : List (Option SmPropValue)) (old : Option SmPropValue)
    (v : SmPropValue) :
    array_store (done ++ old :: tail) done.length v = some (done ++ some v :: tail) := by
  simp [array_store]

/-- The copy loop of the set-up functions fills the next `n` cells with the next
`n` arguments. -/
theorem store_argv_spec (n : Nat) :
    ∀ (pre rest : List String) (done tail : List (Option SmPropValue)),
      done.length = pre.length → n ≤ rest.length →
      store_argv (pre ++ rest) n pre.length (done ++ List.replicate n none ++ tail) =
        some (done ++ (rest.take n).map text_value ++ tail) := by
  induction n with
  | zero => intro pre rest done tail _ _; simp [store_argv]
  | succ n ih =>
    intro pre rest done tail hd hn
    cases rest with
    | nil => simp at hn
    | cons a rest =>
      have hget : (pre ++ a :: rest)[pre.length]? = some a := by
        rw [List.getElem?_append_right (Nat.le_refl _)]; simp
      have hstore : array_store (done ++ List.replicate (n + 1) none ++ tail) pre.length
          { value := .text a, length := strlen a + 1 } =
          some ((done ++ [text_value a]) ++ List.replicate n none ++ tail) := by
        have := array_store_append done (List.replicate n none ++ tail) none
          { value := .text a, length := strlen a + 1 }
        rw [hd] at this
        simpa [List.replicate_succ, text_value] using this
      have hih := ih (pre ++ [a]) rest (done ++ [text_value a]) tail (by simp [hd])
        (by simpa using hn)
      have hpre : pre ++ [a] ++ rest = pre ++ a :: rest := by simp
      have hlen : (pre ++ [a]).length = pre.length + 1 := by simp
      rw [hpre, hlen] at hih
      unfold store_argv
      rw [hget]
      simp only []
      rw [hstore]
      simp only []
      rw [hih]
      simp

/-- C21: with `sm_argv` of `sm_argc` entries, a client id and a save-file path,
`session_setup_restart_command` sets the property RestartCommand of type
LISTofARRAY8 with `sm_argc + 4` values: the arguments in order, then
"--sm-client-id", the client id, "--sm-save-file" and the save-file path, each
with its length plus one; every store of the function lies inside the
`sm_argc + 4` allocated cells and every cell is assigned. -/
theorem C21_restart_command_is_argv_then_id_and_file (g : SmGlobals) (id file : String)
    (hlen : g.sm_argv.length = g.sm_argc) (hid : g.ob_sm_id = some id)
    (hfile : g.ob_sm_save_file = some file) :
    session_setup_restart_command g =
      some { name := SmRestartCommand, type := SmLISTofARRAY8, num_vals := g.sm_argc + 4,
             vals := (g.sm_argv ++ ["--sm-client-id", id, "--sm-save-file", file]).map
               text_value } ∧
    ((g.sm_argv ++ ["--sm-client-id", id, "--sm-save-file", file]).map text_value).length =
      g.sm_argc + 4 := by
  have h0 := store_argv_spec g.sm_argc [] g.sm_argv [] [none, none, none, none] rfl
    (by omega)
  simp only [List.nil_append, List.length_nil] at h0
  have hrep : List.replicate (g.sm_argc + 4) (none : Option SmPropValue) =
      List.replicate g.sm_argc none ++ [none, none, none, none] := by
    rw [List.replicate_add]; rfl
  have htake : g.sm_argv.take g.sm_argc = g.sm_argv := by
    rw [← hlen]; exact List.take_length _
  rw [htake] at h0
  have hl : (g.sm_argv.map text_value).length = g.sm_argc := by simp [hlen]
  have s1 := array_store_append (g.sm_argv.map text_value) [none, none, none]
    none { value := .text "--sm-client-id", length := strlen "--sm-client-id" + 1 }
  have s2 := array_store_append (g.sm_argv.map text_value ++ [text_value "--sm-client-id"])
    [none, none] none { value := .text id, length := strlen id + 1 }
  have s3 := array_store_append
    (g.sm_argv.map text_value ++ [text_value "--sm-client-id", text_value id])
    [none] none { value := .text "--sm-save-file", length := strlen "--sm-save-file" + 1 }
  have s4 := array_store_append
    (g.sm_argv.map text_value ++
      [text_value "--sm-client-id", text_value id, text_value "--sm-save-file"])
    [] none { value := .text file, length := strlen file + 1 }
  simp only [List.length_append, hl, List.length_singleton, List.length_cons, List.length_nil,
    List.append_assoc, List.singleton_append, List.cons_append, List.nil_append] at s1 s2 s3 s4
  refine ⟨?_, by simp [hlen]⟩
  simp only [session_setup_restart_command, hrep, h0, s1, hid, hfile]
  simp only [text_value] at s2 s3 s4 ⊢
  simp only [s2, s3, s4, List.map_append, List.map_cons, List.map_nil]
  simp [text_value]

theorem C21_restart_command_is_argv_then_id_and_file_witness :
    session_setup_restart_command (sample_globals ["openbox", "--replace"] "10a") =
      some { name := "RestartCommand", type := "LISTofARRAY8", num_vals := 6,
             vals := [ some { value := .text "openbox", length := 8 },
                       some { value := .text "--replace", length := 10 },
                       some { value := .text "--sm-client-id", length := 15 },
                       some { value := .text "10a", length := 4 },
                       some { value := .text "--sm-save-file", length := 15 },
                       some { value := .text "/tmp/session.obs", length := 17 } ] } :=
  (C21_restart_command_is_argv_then_id_and_file (sample_globals ["openbox", "--replace"] "10a")
    "10a" "/tmp/session.obs" rfl rfl rfl).1.trans (by decide)

/-- C22: `session_shutdown` with session management in use and a connection
closes the connection exactly once as its last call, sets the restart-style
hint to `SmRestartIfRunning` before that iff `permanent` is true, and leaves
the Store empty whatever it held; without a connection it makes no call and
leaves the globals, the Store included, unchanged. -/
theorem C22_shutdown_closes_and_empties_store (g : SmGlobals) (permanent : Bool) :
    (g.ob_sm_use = true → g.sm_conn = true →
      (session_shutdown g permanent).2 =
        (if permanent then [SmCall.SmcSetProperties (session_setup_restart_style false)]
         else []) ++ [SmCall.SmcCloseConnection] ∧
      (session_shutdown g permanent).2.count SmCall.SmcCloseConnection = 1 ∧
      (session_shutdown g permanent).2.getLast? = some SmCall.SmcCloseConnection ∧
      (SmCall.SmcSetProperties (session_setup_restart_style false) ∈
        (session_shutdown g permanent).2 ↔ permanent = true) ∧
      (∀ prop, SmCall.SmcSetProperties prop ∈ (session_shutdown g permanent).2 →
        prop = session_setup_restart_style false) ∧
      (session_shutdown g permanent).1.session.session_saved_state = []) ∧
    session_setup_restart_style false =
      { name := SmRestartStyleHint, type := SmCARD8, num_vals := 1,
        vals := [some { value := .byte SmRestartIfRunning, length := 1 }] } ∧
    (g.sm_conn = false → session_shutdown g permanent = (g, [])) := by
  refine ⟨fun huse hconn => ?_, rfl, fun hconn => ?_⟩
  · cases permanent <;>
      simp [session_shutdown, huse, hconn, List.count_cons]
  · unfold session_shutdown
    cases g.ob_sm_use <;> simp [hconn]

theorem g_list_next_of_not_mem (l : List Link) (a : Nat) (h : a ∉ l.map Prod.fst) :
    g_list_next l a = none := by
  induction l with
  | nil => rfl
  | cons p l ih =>
    obtain ⟨b, s⟩ := p
    simp only [List.map_cons, List.mem_cons, not_or] at h
    simp only [g_list_next]
    rw [if_neg (fun e => h.1 e.symm)]
    exact ih h.2

/-- C23 (code defect): when the first two loaded records are duplicates of
each other, the position that the outer loop saves as its next one before the
inner loop runs is the link of the second record, and the inner loop deletes
exactly that link: after the inner loop the saved position is no link of the
list, and the outer loop's next iteration reads it, so the pass ends in a read
of freed memory. -/
theorem C23_saved_next_position_is_deleted (s1 s2 : ObSessionState)
    (rest : List ObSessionState) (h : dedup_match s1 s2 = true) :
    g_list_next (number_links 0 (s1 :: s2 :: rest)) 0 = some (some 1) ∧
    (∃ l1, dedup_inner s1 ((number_links 0 (s1 :: s2 :: rest)).length + 1)
        (number_links 0 (s1 :: s2 :: rest)) (some 1) false = .ok (l1, true) ∧
      1 ∉ l1.map Prod.fst ∧ link_data l1 1 = none ∧ g_list_next l1 1 = none) ∧
    remove_duplicates (s1 :: s2 :: rest) = .error .use_after_free := by
  have hnd : (([(0, s1)] ++ (1, s2) :: number_links 2 rest).map Prod.fst).Nodup := by
    simpa [number_links] using number_links_nodup (s1 :: s2 :: rest) 0
  have hgone : (1 : Nat) ∉
      ([(0, s1)] ++ ((1, s2) :: number_links 2 rest).filter
        (fun p : Link => !dedup_match s1 p.2)).map Prod.fst := by
    intro hm
    simp only [List.filter_cons, h, Bool.not_true, Bool.false_eq_true, if_false,
      List.singleton_append, List.map_cons, List.mem_cons] at hm
    rcases hm with hm | hm
    · omega
    · obtain ⟨p, hp, hp1⟩ := List.mem_map.mp hm
      have := number_links_ge rest 2 p.1
        (List.mem_map_of_mem Prod.fst (List.mem_of_mem_filter hp))
      omega
  have hinner := dedup_inner_eq s1 ((1, s2) :: number_links 2 rest) [(0, s1)]
    ((number_links 0 (s1 :: s2 :: rest)).length + 1) false hnd
    (by simp [number_links, number_links_length])
  refine ⟨by simp [number_links, g_list_next], ⟨_, ?_, hgone, link_data_of_not_mem _ _ hgone, ?_⟩,
    remove_duplicates_adjacent s1 s2 rest h⟩
  · have hl : number_links 0 (s1 :: s2 :: rest) = [(0, s1)] ++ (1, s2) :: number_links 2 rest := by
      simp [number_links]
    rw [hl]
    simpa [h] using hinner
  · exact g_list_next_of_not_mem _ _ hgone

theorem C23_saved_next_position_is_deleted_witness :
    dedup_match (sample_state (some "A") none "term" "Term" "main" 0)
      (sample_state (some "A") none "term" "Term" "main" 0) = true ∧
    remove_duplicates
      [ sample_state (some "A") none "term" "Term" "main" 0,
        sample_state (some "A") none "term" "Term" "main" 0,
        sample_state (some "B") none "edit" "Edit" "main" 0 ] = .error .use_after_free :=
  ⟨by decide,
   (C23_saved_next_position_is_deleted _ _
      [sample_state (some "B") none "edit" "Edit" "main" 0] (by decide)).2.2⟩

/-! ## Theorems: the order of the Store, geometry of maximized windows, acknowledgements -/

theorem find_each_node_eq_filter (tag : String) (l : List XmlNode) :
    find_each_node tag l = l.filter (fun n => decide (n.name = tag)) := by
  induction l with
  | nil => rfl
  | cons n next ih =>
    by_cases h : n.name = tag
    · rw [find_each_node_cons_eq tag n next h, ih, List.filter_cons_of_pos (by simpa using h)]
    · rw [find_each_node_cons_ne tag n next h, ih, List.filter_cons_of_neg (by simpa using h)]

/-- The window loop appends the records it builds, in the order of the
entries, behind the records already in the list. -/
theorem load_windows_eq_append (nodes : List XmlNode) (saved : List ObSessionState) :
    load_windows nodes saved =
      saved ++ (find_each_node "window" nodes).filterMap load_window := by
  unfold load_windows
  generalize find_each_node "window" nodes = ws
  induction ws generalizing saved with
  | nil => simp
  | cons w ws ih =>
    rw [List.foldl_cons, ih]
    cases hw : load_window w with
    | none => simp [List.filterMap_cons, hw]
    | some s => simp [List.filterMap_cons, hw]

/-- C24: the window loop of `session_load_file` visits the `window` children
of the root in document order and appends each accepted record at the end of
the Store; the duplicate removal, when it ends without reading a freed link,
returns a sublist of the loaded list.  So the Store after `session_load_file`
is a sublist of the records already held followed by the records of the
accepted window entries in file order, and it is that whole list when no two
records collide. -/
theorem C24_store_keeps_file_order (file : Option XmlNode) (g : SessionGlobals) :
    (∀ nodes saved, load_windows nodes saved =
      saved ++ ((nodes.filter (fun n => decide (n.name = "window"))).filterMap load_window)) ∧
    (∀ saved, remove_duplicates saved = .error .use_after_free ∨
      ∃ r, remove_duplicates saved = .ok r ∧ r.Sublist saved) ∧
    (session_load_file file g = .error .use_after_free ∨
      ∃ g1, session_load_file file g = .ok g1 ∧
        g1.session_saved_state.Sublist
          (g.session_saved_state ++
            (match parse_load file "openbox_session" with
             | none => []
             | some root =>
               (root.children.filter (fun n => decide (n.name = "window"))).filterMap
                 load_window)) ∧
        ((g.session_saved_state ++
            (match parse_load file "openbox_session" with
             | none => []
             | some root =>
               (root.children.filter (fun n => decide (n.name = "window"))).filterMap
                 load_window)).Pairwise (fun s t => dedup_match s t = false) →
          g1.session_saved_state =
            g.session_saved_state ++
              (match parse_load file "openbox_session" with
               | none => []
               | some root =>
                 (root.children.filter (fun n => decide (n.name = "window"))).filterMap
                   load_window))) := by
  have happ : ∀ nodes saved, load_windows nodes saved =
      saved ++ ((nodes.filter (fun n => decide (n.name = "window"))).filterMap load_window) := by
    intro nodes saved
    rw [load_windows_eq_append, find_each_node_eq_filter]
  refine ⟨happ, fun saved => ?_, ?_⟩
  · rcases remove_duplicates_result saved with hf | ⟨r, hr, hsub, -⟩
    · exact Or.inl hf
    · exact Or.inr ⟨r, hr, hsub⟩
  · unfold session_load_file
    cases hl : parse_load file "openbox_session" with
    | none => exact Or.inr ⟨g, rfl, by simp, fun _ => by simp⟩
    | some root =>
      simp only []
      rw [load_desktop_state_saved, happ]
      rcases remove_duplicates_result
          (g.session_saved_state ++
            (root.children.filter (fun n => decide (n.name = "window"))).filterMap
              load_window) with hf | ⟨r, hr, hsub, -⟩
      · left; rw [hf]
      · right
        rw [hr]
        refine ⟨_, rfl, hsub, fun hp => ?_⟩
        have := remove_duplicates_of_pairwise _ hp
        rw [hr] at this
        injection this

/-- C25: for a written client that is fullscreen and maximized the values of
`pre_max_area` are the ones emitted on each maximized axis: x and width with
`max_horz`, y and height with `max_vert`; with both set the emitted rectangle
is `pre_max_area`, whatever `pre_fullscreen_area` and the current area are. -/
theorem C25_maximize_overrides_fullscreen (sd : ObSMSaveData) (c : ObClient)
    (key : String × String) (hfs : c.fullscreen = true) :
    (c.max_horz = true →
      child_text "x" (save_window sd c key) = some (printf_d c.pre_max_area.x) ∧
      child_text "width" (save_window sd c key) = some (printf_d c.pre_max_area.width)) ∧
    (c.max_vert = true →
      child_text "y" (save_window sd c key) = some (printf_d c.pre_max_area.y) ∧
      child_text "height" (save_window sd c key) = some (printf_d c.pre_max_area.height)) ∧
    (c.max_horz = true → c.max_vert = true →
      save_geometry c =
        (c.pre_max_area.x, c.pre_max_area.y, c.pre_max_area.width, c.pre_max_area.height) ∧
      ∀ area pre_fullscreen_area : Rect,
        save_geometry { c with area := area, pre_fullscreen_area := pre_fullscreen_area } =
          save_geometry c) := by
  obtain ⟨hx, hy, hw, hh⟩ := save_window_geometry_text sd c key
  refine ⟨fun h1 => ?_, fun h2 => ?_, fun h1 h2 => ?_⟩
  · rw [hx, hw]
    simp [save_geometry, hfs, h1]
  · rw [hy, hh]
    simp [save_geometry, hfs, h2]
  · simp [save_geometry, hfs, h1, h2]

theorem C25_maximize_overrides_fullscreen_witness :
    child_text "x"
      (save_window { focus_client := none, desktop := 0 }
        { sample_client 1 (some "A") none "term" "Term" "main" 0 with
          fullscreen := true, max_horz := true, max_vert := true,
          pre_max_area := { x := 50, y := 60, width := 500, height := 400 },
          pre_fullscreen_area := { x := 30, y := 40, width := 300, height := 200 } }
        ("id", "A")) = some "50" ∧
    child_text "y"
      (save_window { focus_client := none, desktop := 0 }
        { sample_client 1 (some "A") none "term" "Term" "main" 0 with
          fullscreen := true, max_horz := true, max_vert := true,
          pre_max_area := { x := 50, y := 60, width := 500, height := 400 },
          pre_fullscreen_area := { x := 30, y := 40, width := 300, height := 200 } }
        ("id", "A")) = some "60" :=
  ⟨((C25_maximize_overrides_fullscreen { focus_client := none, desktop := 0 }
      { sample_client 1 (some "A") none "term" "Term" "main" 0 with
        fullscreen := true, max_horz := true, max_vert := true,
        pre_max_area := { x := 50, y := 60, width := 500, height := 400 },
        pre_fullscreen_area := { x := 30, y := 40, width := 300, height := 200 } }
      ("id", "A") rfl).1 rfl).1.trans (by decide),
   ((C25_maximize_overrides_fullscreen { focus_client := none, desktop := 0 }
      { sample_client 1 (some "A") none "term" "Term" "main" 0 with
        fullscreen := true, max_horz := true, max_vert := true,
        pre_max_area := { x := 50, y := 60, width := 500, height := 400 },
        pre_fullscreen_area := { x := 30, y := 40, width := 300, height := 200 } }
      ("id", "A") rfl).2.1 rfl).1.trans (by decide)⟩

theorem sm_save_yourself_2_acknowledges_once (g : SmGlobals) (w : SmWorld)
    (fopen_ok fflush_ok : Bool) (data : Option ObSMSaveData) (hready : restart_command_ready g) :
    (sm_save_yourself_2 g w fopen_ok fflush_ok data).2.countP SmCall.is_acknowledgement = 1 ∧
    SmCall.SmcSaveYourselfDone (fopen_ok && fflush_ok) ∈
      (sm_save_yourself_2 g w fopen_ok fflush_ok data).2 := by
  obtain ⟨prop, -, hcalls⟩ := sm_save_yourself_2_calls g w fopen_ok fflush_ok data hready
  rw [hcalls]
  cases data <;> cases fopen_ok <;> cases fflush_ok <;>
    simp [List.countP_cons, SmCall.is_acknowledgement]

/-- C26: a save-yourself request is acknowledged exactly once.  A global-only
request is acknowledged at once with success.  A request of another type whose
phase-2 request is refused is acknowledged at once with failure, the writer is
not called and no phase 2 is left pending.  When the phase-2 request is
accepted `sm_save_yourself` makes no acknowledgement and `sm_save_yourself_2`
makes exactly one, so the run of the two callbacks holds one acknowledgement. -/
theorem C26_every_request_acknowledged_once (g : SmGlobals) (w w2 : SmWorld)
    (save_type : Int) (vendor : String) (fopen_ok fflush_ok : Bool)
    (hready : restart_command_ready g) (hrun : g.faulted = false) :
    (save_type = SmSaveGlobal → ∀ phase2_ok,
      (sm_save_yourself g w save_type vendor phase2_ok).2 = [.SmcSaveYourselfDone true]) ∧
    (save_type ≠ SmSaveGlobal →
      (sm_save_yourself g w save_type vendor false).2.countP SmCall.is_acknowledgement = 1 ∧
      (sm_save_yourself g w save_type vendor false).2.getLast? =
        some (.SmcSaveYourselfDone false) ∧
      (sm_save_yourself g w save_type vendor false).2.countP SmCall.is_writer_call = 0 ∧
      (sm_save_yourself g w save_type vendor false).1 = g) ∧
    (save_type ≠ SmSaveGlobal →
      (sm_save_yourself g w save_type vendor true).2.countP SmCall.is_acknowledgement = 0 ∧
      (∀ data,
        (sm_save_yourself_2 g w2 fopen_ok fflush_ok data).2.countP
          SmCall.is_acknowledgement = 1) ∧
      ∀ (shutdown fast : Bool) (interact_style : Int),
        ((sm_run g
            [ .sm_save_yourself w save_type shutdown interact_style fast vendor true,
              .sm_save_yourself_2 w2 fopen_ok fflush_ok ]).map
          (fun p => p.2.countP SmCall.is_acknowledgement)).sum = 1) := by
  refine ⟨fun hst phase2_ok => by simp [sm_save_yourself, hst], fun hst => ?_, fun hst => ?_⟩
  · by_cases hv : vendor = "KDE" <;>
      simp [sm_save_yourself, hst, hv, strcmp_eq_zero_iff, List.countP_cons,
        SmCall.is_acknowledgement, SmCall.is_writer_call]
  · have h0 : (sm_save_yourself g w save_type vendor true).2.countP
        SmCall.is_acknowledgement = 0 := by
      by_cases hv : vendor = "KDE" <;>
        simp [sm_save_yourself, hst, hv, strcmp_eq_zero_iff, List.countP_cons,
          SmCall.is_acknowledgement]
    refine ⟨h0, fun data =>
      (sm_save_yourself_2_acknowledges_once g w2 fopen_ok fflush_ok data hready).1, ?_⟩
    intro shutdown fast interact_style
    have hstep1 : (sm_step g (.sm_save_yourself w save_type shutdown interact_style fast vendor
        true)) = sm_save_yourself g w save_type vendor true := by
      simp [sm_step, hrun]
    have hg1 : (sm_save_yourself g w save_type vendor true).1 =
        { g with
          phase2_wait :=
            some (if strcmp vendor "KDE" = 0 then some (sm_save_get_data w) else none) } := by
      simp [sm_save_yourself, hst]
    have hstep2 : (sm_step (sm_save_yourself g w save_type vendor true).1
          (.sm_save_yourself_2 w2 fopen_ok fflush_ok)).2 =
        (sm_save_yourself_2 g w2 fopen_ok fflush_ok
          (if strcmp vendor "KDE" = 0 then some (sm_save_get_data w) else none)).2 := by
      rw [hg1]
      simp only [sm_step, hrun, Bool.false_eq_true, if_false]
      exact sm_save_yourself_2_calls_congr _ g w2 fopen_ok fflush_ok _ rfl rfl rfl rfl
    simp only [sm_run, hstep1, List.map_cons, List.map_nil, List.sum_cons, List.sum_nil, h0,
      hstep2, (sm_save_yourself_2_acknowledges_once g w2 fopen_ok fflush_ok _ hready).1,
      Nat.zero_add, Nat.add_zero]

theorem C26_every_request_acknowledged_once_witness :
    restart_command_ready (sample_globals ["openbox"] "10a") ∧
    ((sm_run (sample_globals ["openbox"] "10a")
        [ .sm_save_yourself (sample_world [] 0 none) SmSaveLocal false 0 false "KDE" true,
          .sm_save_yourself_2 (sample_world [] 1 (some 3)) true true ]).map
      (fun p => p.2.countP SmCall.is_acknowledgement)).sum = 1 :=
  ⟨⟨rfl, rfl, rfl⟩,
   (C26_every_request_acknowledged_once (sample_globals ["openbox"] "10a")
      (sample_world [] 0 none) (sample_world [] 1 (some 3)) SmSaveLocal "KDE" true true
      ⟨rfl, rfl, rfl⟩ rfl).2.2 (by decide) |>.2.2 false false 0⟩

/-! ## Theorems: button descriptors -/

theorem g_ascii_strcasecmp_eq_zero_iff (a b : String) :
    g_ascii_strcasecmp a b = 0 ↔ same_ignoring_case a b = true := by
  simp [g_ascii_strcasecmp, same_ignoring_case, strcmp_chars_eq_zero_iff]

theorem g_ascii_strncasecmp_button (l : String) :
    g_ascii_strncasecmp "Button" l 6 = 0 ↔
      same_ignoring_case "Button" (String.mk (l.data.take 6)) = true := by
  have h : ("Button" : String).data.take 6 = ("Button" : String).data := by decide
  simp only [g_ascii_strncasecmp, same_ignoring_case, strcmp_chars_eq_zero_iff, h,
    decide_eq_true_eq]

/-- For a token that is no button name the chain of `translate_button` assigns
nothing: `*button` keeps the value it had. -/
theorem translate_button_name_of_unrecognised (l : String) (button : Nat)
    (h : button_name_unrecognised l = true) : translate_button_name l button = button := by
  simp only [button_name_unrecognised, button_names, List.all_cons, List.all_nil,
    Bool.and_true, Bool.and_eq_true, Bool.not_eq_true'] at h
  obtain ⟨⟨h1, h2, h3, h4, h5⟩, h6⟩ := h
  simp only [translate_button_name, g_ascii_strcasecmp_eq_zero_iff, g_ascii_strncasecmp_button,
    h1, h2, h3, h4, h5, h6, Bool.false_eq_true, if_false]

/-- When every token names a modifier the modifier loop runs to its end and
leaves the bitwise OR of the masks in `*state`. -/
theorem translate_modifiers_of_all (ms : List String) :
    ∀ state, (∀ m ∈ ms, translate_modifier m ≠ 0) →
      translate_modifiers ms state =
        (true, ms.foldl (fun s m => s ||| translate_modifier m) state) := by
  induction ms with
  | nil => intro state _; rfl
  | cons m ms ih =>
    intro state h
    simp only [translate_modifiers, List.foldl_cons]
    rw [if_neg (h m (List.mem_cons_self _ _))]
    exact ih _ (fun x hx => h x (List.mem_cons_of_mem _ hx))

/-- C27 (code defect): for a descriptor whose last token is no button name
(none of Left, Middle, Right, Up, Down, not starting with "Button") and whose
other tokens are modifiers, `translate_button` assigns nothing to `*button`
and returns TRUE exactly when `*button` held a value other than zero on
entry: the result depends on the caller's variable, not only on the string. -/
theorem C27_unrecognised_button_accepted_on_nonzero_entry (str l : String)
    (state button : Nat) (hlast : (g_strsplit str '-').getLast? = some l)
    (hmods : ∀ m ∈ (g_strsplit str '-').dropLast, translate_modifier m ≠ 0)
    (hname : button_name_unrecognised l = true) :
    (translate_button str state button).1 = decide (button ≠ 0) ∧
    (translate_button str state button).2.2 = button ∧
    (translate_button str state 0).1 = false ∧
    (translate_button str state 1).1 = true := by
  have hb : ∀ b, translate_button str state b =
      if b = 0 then
        (false, (translate_modifiers (g_strsplit str '-').dropLast 0).2, b)
      else (true, (translate_modifiers (g_strsplit str '-').dropLast 0).2, b) := by
    intro b
    simp only [translate_button, hlast, translate_modifiers_of_all _ 0 hmods, if_true,
      translate_button_name_of_unrecognised l b hname]
  refine ⟨?_, ?_, ?_, ?_⟩
  · rw [hb]; by_cases h0 : button = 0 <;> simp [h0]
  · rw [hb]; by_cases h0 : button = 0 <;> simp [h0]
  · rw [hb]; simp
  · rw [hb]; simp

theorem C27_unrecognised_button_accepted_on_nonzero_entry_witness :
    button_name_unrecognised "Foo" = true ∧
    translate_button "Foo" 0 1 = (true, 0, 1) ∧
    translate_button "Foo" 0 0 = (false, 0, 0) ∧
    (translate_button "C-Foo" 0 3).1 = true :=
  ⟨by decide, by decide, by decide,
   (C27_unrecognised_button_accepted_on_nonzero_entry "C-Foo" "Foo" 0 3 (by decide)
      (by decide) (by decide)).1.trans (by decide)⟩

theorem split_chars_ne_nil (d : Char) (l : List Char) : split_chars d l ≠ [] := by
  induction l with
  | nil => simp [split_chars]
  | cons c cs ih =>
    unfold split_chars
    split
    · simp
    · split <;> simp

theorem split_chars_cons_ne (d c : Char) (cs : List Char) (h : c ≠ d) :
    split_chars d (c :: cs) =
      match split_chars d cs with
      | [] => [[c]]
      | t :: ts => (c :: t) :: ts := by
  simp [split_chars, h]

theorem split_chars_of_not_mem (d : Char) (t : List Char) (h : d ∉ t) :
    split_chars d t = [t] := by
  induction t with
  | nil => rfl
  | cons c cs ih =>
    simp only [List.mem_cons, not_or] at h
    rw [split_chars_cons_ne d c cs (fun e => h.1 e.symm), ih h.2]

theorem split_chars_token (d : Char) (t rest : List Char) (h : d ∉ t) :
    split_chars d (t ++ d :: rest) = t :: split_chars d rest := by
  induction t with
  | nil => simp [split_chars]
  | cons c cs ih =>
    simp only [List.mem_cons, not_or] at h
    simp only [List.cons_append]
    rw [split_chars_cons_ne d c _ (fun e => h.1 e.symm), ih h.2]

/-- Splitting the descriptor made of tokens without a hyphen gives the tokens
back. -/
theorem g_strsplit_binding_text (ms : List String) (b : String)
    (hms : ∀ m ∈ ms, '-' ∉ m.data) (hb : '-' ∉ b.data) (hne : ms ≠ [] ∨ b.data ≠ []) :
    g_strsplit (binding_text ms b) '-' = ms ++ [b] := by
  have hsplit : split_chars '-' (ms.foldr (fun m acc => m.data ++ '-' :: acc) b.data) =
      ms.map String.data ++ [b.data] := by
    clear hne
    induction ms with
    | nil => simpa using split_chars_of_not_mem '-' b.data hb
    | cons m ms ih =>
      simp only [List.foldr_cons, List.map_cons, List.cons_append]
      rw [split_chars_token '-' _ _ (hms m (List.mem_cons_self _ _)),
        ih (fun x hx => hms x (List.mem_cons_of_mem _ hx))]
  have hempty : (ms.foldr (fun m acc => m.data ++ '-' :: acc) b.data).isEmpty = false := by
    cases ms with
    | nil =>
      rcases hne with h | h
      · exact absurd rfl h
      · cases hd : b.data with
        | nil => exact absurd hd h
        | cons c cs => rfl
    | cons m ms => cases hm : m.data <;> simp [hm]
  simp only [g_strsplit, binding_text, hempty, Bool.false_eq_true, if_false, hsplit,
    List.map_append, List.map_map, List.map_cons, List.map_nil]
  congr 1
  exact (List.map_congr_left (fun m _ => rfl)).trans (List.map_id ms)

/-- The chain of `translate_modifier` is the look-up in the table of modifier
names: the mask of the name, zero for a string that is no modifier name. -/
theorem translate_modifier_eq (m : String) :
    translate_modifier m = (modifier_mask m).getD 0 := by
  simp only [translate_modifier, modifier_mask, modifier_names, g_ascii_strcasecmp_eq_zero_iff,
    List.find?]
  cases same_ignoring_case "Mod1" m <;> cases same_ignoring_case "A" m <;>
  cases same_ignoring_case "Mod2" m <;> cases same_ignoring_case "Mod3" m <;>
  cases same_ignoring_case "M" m <;> cases same_ignoring_case "Mod4" m <;>
  cases same_ignoring_case "W" m <;> cases same_ignoring_case "Mod5" m <;>
  cases same_ignoring_case "Control" m <;> cases same_ignoring_case "C" m <;>
  cases same_ignoring_case "Shift" m <;> cases same_ignoring_case "S" m <;> rfl

theorem same_ignoring_case_not_mem (a m : String) (c : Char)
    (hc : g_ascii_tolower c = c) (h : same_ignoring_case a m = true)
    (ha : c ∉ a.data.map g_ascii_tolower) : c ∉ m.data := by
  intro hm
  simp only [same_ignoring_case, decide_eq_true_eq] at h
  apply ha
  rw [h, ← hc]
  exact List.mem_map_of_mem _ hm

theorem same_ignoring_case_length (a m : String) (h : same_ignoring_case a m = true) :
    m.data.length = a.data.length := by
  simp only [same_ignoring_case, decide_eq_true_eq] at h
  have := congrArg List.length h
  simpa using this.symm

/-- A recognised modifier name has a mask other than zero and holds no
hyphen. -/
theorem modifier_mask_some (m : String) (k : Nat) (h : modifier_mask m = some k) :
    k ≠ 0 ∧ '-' ∉ m.data := by
  unfold modifier_mask at h
  cases hf : modifier_names.find? (fun p => same_ignoring_case p.1 m) with
  | none => rw [hf] at h; cases h
  | some p =>
    rw [hf] at h
    simp only [Option.map_some', Option.some.injEq] at h
    have hp := List.find?_some hf
    have hmem := List.mem_of_find?_eq_some hf
    subst h
    simp only [modifier_names, List.mem_cons, List.mem_singleton, List.not_mem_nil, or_false]
      at hmem
    rcases hmem with rfl | rfl | rfl | rfl | rfl | rfl | rfl | rfl | rfl | rfl | rfl | rfl <;>
      exact ⟨by decide, same_ignoring_case_not_mem _ m '-' (by decide) hp (by decide)⟩

theorem translate_modifier_of_mask (m : String) (k : Nat) (h : modifier_mask m = some k) :
    translate_modifier m = k ∧ translate_modifier m ≠ 0 := by
  rw [translate_modifier_eq, h]
  exact ⟨rfl, (modifier_mask_some m k h).1⟩

theorem translate_modifier_of_none (m : String) (h : modifier_mask m = none) :
    translate_modifier m = 0 := by
  rw [translate_modifier_eq, h]; rfl

/-- The modifier loop stops with failure at a token that names no modifier. -/
theorem translate_modifiers_of_bad (ms : List String) :
    ∀ state, (∃ m ∈ ms, translate_modifier m = 0) →
      (translate_modifiers ms state).1 = false := by
  induction ms with
  | nil => intro state h; obtain ⟨m, hm, -⟩ := h; cases hm
  | cons m ms ih =>
    intro state h
    simp only [translate_modifiers]
    by_cases h0 : translate_modifier m = 0
    · rw [if_pos h0]
    · rw [if_neg h0]
      obtain ⟨x, hx, hx0⟩ := h
      rcases List.mem_cons.mp hx with rfl | hx
      · exact absurd hx0 h0
      · exact ih _ ⟨x, hx, hx0⟩

theorem translate_modifiers_of_masks (ms : List String) (ks : List Nat)
    (h : List.Forall₂ (fun m k => modifier_mask m = some k) ms ks) :
    ∀ state, translate_modifiers ms state = (true, ks.foldl (fun s k => s ||| k) state) := by
  induction h with
  | nil => intro state; rfl
  | cons hmk _ ih =>
    intro state
    simp only [translate_modifiers, List.foldl_cons]
    rw [if_neg (translate_modifier_of_mask _ _ hmk).2, (translate_modifier_of_mask _ _ hmk).1]
    exact ih _

theorem modifier_masks_no_hyphen (ms : List String) (ks : List Nat)
    (h : List.Forall₂ (fun m k => modifier_mask m = some k) ms ks) :
    ∀ m ∈ ms, '-' ∉ m.data := by
  induction h with
  | nil => intro m hm; cases hm
  | cons hmk _ ih =>
    intro m hm
    rcases List.mem_cons.mp hm with rfl | hm
    · exact (modifier_mask_some _ _ hmk).2
    · exact ih m hm

/-- For one of the five named buttons, in any case, the chain assigns the
button's number; such a token is not empty and holds no hyphen. -/
theorem translate_button_name_of_name (b name : String) (n button : Nat)
    (hmem : (name, n) ∈ button_names) (h : same_ignoring_case name b = true) :
    translate_button_name b button = n ∧ '-' ∉ b.data ∧ b.data ≠ [] := by
  have hlen := same_ignoring_case_length name b h
  simp only [button_names, List.mem_cons, List.mem_singleton, List.not_mem_nil, or_false,
    Prod.mk.injEq] at hmem
  rcases hmem with ⟨rfl, rfl⟩ | ⟨rfl, rfl⟩ | ⟨rfl, rfl⟩ | ⟨rfl, rfl⟩ | ⟨rfl, rfl⟩ <;>
    refine ⟨?_, same_ignoring_case_not_mem _ b '-' (by decide) h (by decide),
      fun he => by rw [he] at hlen; revert hlen; decide⟩ <;>
    · simp only [same_ignoring_case, decide_eq_true_eq] at h
      simp only [translate_button_name, g_ascii_strcasecmp_eq_zero_iff, same_ignoring_case, ← h]
      rfl

theorem dec_digits_no_hyphen (fuel : Nat) :
    ∀ (n : Nat) (acc : List Char), '-' ∉ acc → '-' ∉ dec_digits fuel n acc := by
  induction fuel with
  | zero => intro n acc h; exact h
  | succ fuel ih =>
    intro n acc h
    unfold dec_digits
    by_cases hn : n < 10
    · rw [if_pos hn]
      intro hm
      rcases List.mem_cons.mp hm with he | hm
      · exact (digit_char_props n hn).2.2.2.1 he.symm
      · exact h hm
    · rw [if_neg hn]
      apply ih
      intro hm
      rcases List.mem_cons.mp hm with he | hm
      · exact (digit_char_props (n % 10) (Nat.mod_lt _ (by norm_num))).2.2.2.1 he.symm
      · exact h hm

theorem printf_d_nat_no_hyphen (N : Nat) : '-' ∉ (printf_d (N : Int)).data := by
  have : ¬ ((N : Int) < 0) := by omega
  simp only [printf_d, this, if_false]
  exact dec_digits_no_hyphen _ _ [] (by simp)

theorem gint_as_guint_of_nat (N : Nat) (h : N < 2 ^ 32) : gint_as_guint (N : Int) = N := by
  unfold gint_as_guint
  have : ((N : Int) % 2 ^ 32) = (N : Int) := Int.emod_eq_of_lt (by omega) (by exact_mod_cast h)
  rw [this]
  simp

/-- For a token made of "Button", in any case, and the decimal text of a
number from 1 to 2^31 - 1, the chain assigns that number; such a token is not
empty and holds no hyphen. -/
theorem translate_button_name_of_number (p : String) (N button : Nat)
    (hp : same_ignoring_case "Button" p = true) (h2 : N < 2 ^ 31) :
    translate_button_name (p ++ printf_d (N : Int)) button = N ∧
    '-' ∉ (p ++ printf_d (N : Int)).data ∧ (p ++ printf_d (N : Int)).data ≠ [] := by
  have hlen : p.data.length = 6 := same_ignoring_case_length "Button" p hp
  have hnh : '-' ∉ p.data := same_ignoring_case_not_mem _ p '-' (by decide) hp (by decide)
  have hlow : p.data.map g_ascii_tolower = ['b', 'u', 't', 't', 'o', 'n'] := by
    simp only [same_ignoring_case, decide_eq_true_eq] at hp
    rw [← hp]; decide
  have htake : (p.data ++ (printf_d (N : Int)).data).take 6 = p.data := by
    rw [← hlen]; exact List.take_left _ _
  have hdrop : (p.data ++ (printf_d (N : Int)).data).drop 6 = (printf_d (N : Int)).data := by
    rw [← hlen]; exact List.drop_left _ _
  refine ⟨?_, ?_, ?_⟩
  · have hb : g_ascii_strncasecmp "Button" (p ++ printf_d (N : Int)) 6 = 0 := by
      rw [g_ascii_strncasecmp_button]
      simp only [same_ignoring_case, String.data_append, htake, hlow, decide_eq_true_eq]
      decide
    have hn : ∀ name : String, name.data.map g_ascii_tolower ≠ [] →
        (name.data.map g_ascii_tolower).head? ≠ some 'b' →
        ¬ g_ascii_strcasecmp name (p ++ printf_d (N : Int)) = 0 := by
      intro name _ hhead h0
      rw [g_ascii_strcasecmp_eq_zero_iff] at h0
      simp only [same_ignoring_case, String.data_append, List.map_append, hlow,
        decide_eq_true_eq] at h0
      rw [h0] at hhead
      exact hhead rfl
    simp only [translate_button_name, hn "Left" (by decide) (by decide),
      hn "Middle" (by decide) (by decide), hn "Right" (by decide) (by decide),
      hn "Up" (by decide) (by decide), hn "Down" (by decide) (by decide), hb, if_true,
      if_false, String.data_append, hdrop]
    have hatoi : atoi (String.mk (printf_d (N : Int)).data) = (N : Int) := atoi_printf_d N
    rw [hatoi]
    exact gint_as_guint_of_nat N (by omega)
  · simp only [String.data_append, List.mem_append, not_or]
    exact ⟨hnh, printf_d_nat_no_hyphen N⟩
  · intro he
    simp only [String.data_append, List.append_eq_nil] at he
    rw [he.1] at hlen
    cases hlen

/-- For a token made of "Button", in any case, followed by "0" or by a text
that does not start with a number, the chain assigns zero. -/
theorem translate_button_name_of_no_number (p rest : String) (button : Nat)
    (hp : same_ignoring_case "Button" p = true)
    (hrest : rest = "0" ∨ starts_no_number rest = true) :
    translate_button_name (p ++ rest) button = 0 := by
  have hlen : p.data.length = 6 := same_ignoring_case_length "Button" p hp
  have hlow : p.data.map g_ascii_tolower = ['b', 'u', 't', 't', 'o', 'n'] := by
    simp only [same_ignoring_case, decide_eq_true_eq] at hp
    rw [← hp]; decide
  have htake : (p.data ++ rest.data).take 6 = p.data := by
    rw [← hlen]; exact List.take_left _ _
  have hdrop : (p.data ++ rest.data).drop 6 = rest.data := by
    rw [← hlen]; exact List.drop_left _ _
  have hb : g_ascii_strncasecmp "Button" (p ++ rest) 6 = 0 := by
    rw [g_ascii_strncasecmp_button]
    simp only [same_ignoring_case, String.data_append, htake, hlow, decide_eq_true_eq]
    decide
  have hn : ∀ name : String, name.data.map g_ascii_tolower ≠ [] →
      (name.data.map g_ascii_tolower).head? ≠ some 'b' →
      ¬ g_ascii_strcasecmp name (p ++ rest) = 0 := by
    intro name _ hhead h0
    rw [g_ascii_strcasecmp_eq_zero_iff] at h0
    simp only [same_ignoring_case, String.data_append, List.map_append, hlow,
      decide_eq_true_eq] at h0
    rw [h0] at hhead
    exact hhead rfl
  have hatoi : atoi (String.mk rest.data) = 0 := by
    rcases hrest with rfl | hrest
    · decide
    · unfold starts_no_number at hrest
      unfold atoi
      cases hd : rest.data with
      | nil => rfl
      | cons c cs =>
        rw [hd] at hrest
        simp only [Bool.and_eq_true, Bool.not_eq_true', bne_iff_ne, ne_eq] at hrest
        obtain ⟨⟨⟨h1, h2⟩, h3⟩, h4⟩ := hrest
        simp only [List.dropWhile, h2]
        split
        · next ds heq => cases heq; exact absurd rfl h4
        · next ds heq => cases heq; exact absurd rfl h3
        · simp [atoi_digits, h1]
  simp only [translate_button_name, hn "Left" (by decide) (by decide),
    hn "Middle" (by decide) (by decide), hn "Right" (by decide) (by decide),
    hn "Up" (by decide) (by decide), hn "Down" (by decide) (by decide), hb, if_true,
    if_false, String.data_append, hdrop, hatoi]
  rfl

/-- What `translate_button` returns for a descriptor with the tokens `ms` and
`b`. -/
theorem translate_button_of_tokens (str : String) (ms : List String) (b : String)
    (state button : Nat) (hsplit : g_strsplit str '-' = ms ++ [b]) :
    translate_button str state button =
      if (translate_modifiers ms 0).1 then
        if translate_button_name b button = 0 then
          (false, (translate_modifiers ms 0).2, translate_button_name b button)
        else (true, (translate_modifiers ms 0).2, translate_button_name b button)
      else (false, (translate_modifiers ms 0).2, button) := by
  have hlast : (ms ++ [b]).getLast? = some b := by simp
  simp only [translate_button, hsplit, hlast, List.dropLast_concat]

theorem translate_button_of_tokens_zero (str : String) (ms : List String) (b : String)
    (state button : Nat) (hsplit : g_strsplit str '-' = ms ++ [b])
    (h0 : translate_button_name b button = 0) :
    (translate_button str state button).1 = false := by
  rw [translate_button_of_tokens str ms b state button hsplit]
  cases (translate_modifiers ms 0).1 <;> simp [h0]

/-- C28 (as amended): for a descriptor `m1-...-mk-b` whose `mi` are modifier
names (in any case) with masks `ki`, `translate_button` returns TRUE with
`*state` the bitwise OR of the masks (0 when there is none) and `*button` 1,
2, 3, 4 or 5 when `b` is Left, Middle, Right, Up or Down (in any case), and
`N` when `b` is "Button" (in any case) followed by the decimal text of a
number `N` from 1 to 2^31 - 1.  It returns FALSE when a token before the last
is no modifier name, and when `b` is "Button" followed by "0", by nothing or by
a text that does not start with a digit, a sign or white space. -/
theorem C28_descriptor_translation (ms : List String) (ks : List Nat) (state button : Nat)
    (hms : List.Forall₂ (fun m k => modifier_mask m = some k) ms ks) :
    (∀ (b name : String) (n : Nat), (name, n) ∈ button_names →
      same_ignoring_case name b = true →
      translate_button (binding_text ms b) state button =
        (true, ks.foldl (fun s k => s ||| k) 0, n)) ∧
    (∀ (p : String) (N : Nat), same_ignoring_case "Button" p = true → 1 ≤ N → N < 2 ^ 31 →
      translate_button (binding_text ms (p ++ printf_d (N : Int))) state button =
        (true, ks.foldl (fun s k => s ||| k) 0, N)) ∧
    (∀ (ts : List String) (t : String), (∀ m ∈ ts, '-' ∉ m.data) → '-' ∉ t.data →
      (∃ m ∈ ts, modifier_mask m = none) →
      (translate_button (binding_text ts t) state button).1 = false) ∧
    (∀ (ts : List String) (p rest : String), (∀ m ∈ ts, '-' ∉ m.data) →
      same_ignoring_case "Button" p = true → '-' ∉ rest.data →
      (rest = "0" ∨ starts_no_number rest = true) →
      (translate_button (binding_text ts (p ++ rest)) state button).1 = false) := by
  have hnh := modifier_masks_no_hyphen ms ks hms
  have hmods := translate_modifiers_of_masks ms ks hms 0
  refine ⟨?_, ?_, ?_, ?_⟩
  · intro b name n hmem hsame
    obtain ⟨hn, hb, hne⟩ := translate_button_name_of_name b name n button hmem hsame
    have hn0 : n ≠ 0 := by
      simp only [button_names, List.mem_cons, List.mem_singleton, List.not_mem_nil, or_false,
        Prod.mk.injEq] at hmem
      rcases hmem with ⟨-, rfl⟩ | ⟨-, rfl⟩ | ⟨-, rfl⟩ | ⟨-, rfl⟩ | ⟨-, rfl⟩ <;> decide
    rw [translate_button_of_tokens _ ms b state button
      (g_strsplit_binding_text ms b hnh hb (Or.inr hne)), hmods, hn]
    simp [hn0]
  · intro p N hp h1 h2
    obtain ⟨hn, hb, hne⟩ := translate_button_name_of_number p N button hp h2
    rw [translate_button_of_tokens _ ms _ state button
      (g_strsplit_binding_text ms _ hnh hb (Or.inr hne)), hmods, hn]
    have hn0 : N ≠ 0 := by omega
    simp [hn0]
  · intro ts t hts ht hbad
    obtain ⟨m, hm, hnone⟩ := hbad
    have hne : ts ≠ [] := by
      intro he; rw [he] at hm; cases hm
    rw [translate_button_of_tokens _ ts t state button
      (g_strsplit_binding_text ts t hts ht (Or.inl hne)),
      translate_modifiers_of_bad ts 0 ⟨m, hm, translate_modifier_of_none m hnone⟩]
    rfl
  · intro ts p rest hts hp hrest hno
    have hlen : p.data.length = 6 := same_ignoring_case_length "Button" p hp
    have hnh2 : '-' ∉ (p ++ rest).data := by
      simp only [String.data_append, List.mem_append, not_or]
      exact ⟨same_ignoring_case_not_mem _ p '-' (by decide) hp (by decide), hrest⟩
    have hne : (p ++ rest).data ≠ [] := by
      intro he
      simp only [String.data_append, List.append_eq_nil] at he
      rw [he.1] at hlen
      cases hlen
    exact translate_button_of_tokens_zero _ ts _ state button
      (g_strsplit_binding_text ts _ hts hnh2 (Or.inr hne))
      (translate_button_name_of_no_number p rest button hp hno)

theorem C28_descriptor_translation_witness :
    translate_button "A-C-Left" 7 9 = (true, 12, 1) ∧
    translate_button "shift-BUTTON12" 7 9 = (true, 1, 12) :=
  ⟨(C28_descriptor_translation ["A", "C"] [8, 4] 7 9
      (.cons (by decide) (.cons (by decide) .nil))).1 "Left" "Left" 1 (by decide) (by decide),
   (C28_descriptor_translation ["shift"] [1] 7 9
      (.cons (by decide) .nil)).2.1 "BUTTON" 12 (by decide) (by decide) (by decide)⟩

/-- C28 (counterexample): "Button4294967296" has the form Button followed by
a positive decimal number, yet `translate_button` returns FALSE and `*button`
is not that number, which no `guint` holds; "Button5x" is Button followed by a
text that is no number, yet `translate_button` returns TRUE with button 5. -/
theorem C28_descriptor_translation_counterexample :
    atoi "4294967296" = 4294967296 ∧
    translate_button "Button4294967296" 0 0 = (false, 0, 0) ∧
    translate_button "Button5x" 0 0 = (true, 0, 5) := by
  refine ⟨by decide, by decide, by decide⟩

end Openbox
